import Mathlib

/-!
# PSoC 5LP mixed-signal lab station: firmware core

A shallow embedding of `Group_5_Project/project.cydsn/main.c` and the
properties of it that the specification states.

Conventions of the embedding:

* machine integers are `Nat` (or `Int` for `int`), reduced modulo `2^w`
  wherever the C code stores into a `w`-bit object;
* C arrays are lists, a store `a[i] = v` is `List.set`;
* the file-scope variables of `main.c` are the fields of `FwState`;
* calls into the peripheral drivers are recorded, in program order, in the
  `hw` field of the state.
-/

namespace LabStation

/-! ## Configuration constants (`main.c`, lines 9-44 and 319) -/

/-- Number of samples in one oscilloscope frame. -/
abbrev FRAME_SAMPLES : Nat := 252
/-- Right shift that compresses a 12-bit reading to 8 bits. -/
abbrev ADC_TO_8BIT_SHIFT : Nat := 4
/-- Only every `DECIM_FACTOR`-th ADC interrupt stores a sample. -/
abbrev DECIM_FACTOR : Nat := 2
/-- Number of entries of every waveform table. -/
abbrev LUT_SIZE : Nat := 64
/-- Clock of the waveform timer in Hz. -/
abbrev WAVE_CLK_HZ : Nat := 1000000
/-- Capacity of the command line buffer. -/
abbrev CMD_BUF_LEN : Nat := 64

/-! ## Driver calls and firmware state -/

/-- One call into a peripheral driver, with its argument. -/
inductive HwEvent where
  /-- The call `VDAC8_1_SetValue(v)`. -/
  | dacSetValue (v : Nat)
  /-- The call `WaveTimer_ReadStatusRegister()`. -/
  | timerReadStatus
  /-- The call `WaveTimer_Stop()`. -/
  | timerStop
  /-- The call `WaveTimer_WriteCounter(v)`. -/
  | timerWriteCounter (v : Nat)
  /-- The call `WaveTimer_WritePeriod(v)`. -/
  | timerWritePeriod (v : Nat)
  /-- The call `WaveTimer_Start()`. -/
  | timerStart
  /-- The call `IDAC_1_SetValue(v)`. -/
  | idacSetValue (v : Nat)
  /-- The call `IDAC_1_SetPolarity(IDAC_1_SOURCE)`. -/
  | idacSetPolaritySource
  /-- The call `AMux_1_FastSelect(ch)`. -/
  | amuxFastSelect (ch : Nat)
  /-- The call `Pin_R_SetDriveMode(Pin_R_DM_ALG_HIZ)`. -/
  | pinRHiZ
  /-- The call `Pin_C_SetDriveMode(Pin_C_DM_STRONG)`. -/
  | pinCStrong
  /-- The call `Pin_C_SetDriveMode(Pin_C_DM_ALG_HIZ)`. -/
  | pinCHiZ
  /-- The call `Pin_C_Write(v)`. -/
  | pinCWrite (v : Nat)
  /-- The call `CyDelay(ms)`. -/
  | delayMs (ms : Nat)
  /-- The call `CyDelayUs(us)`. -/
  | delayUs (us : Nat)
  /-- The calls `UART_PutString` and `UART_PutArray`, with the bytes sent. -/
  | uartPut (bytes : List Nat)
  /-- The call `ADC_SAR_2_IsEndConversion(ADC_SAR_2_WAIT_FOR_RESULT)`. -/
  | adcWaitResult
  /-- The call `UART_PutString(buf)` after `sprintf(buf, fmt, args...)`: the
  bytes of the format string and the values of the arguments. -/
  | uartPrintf (fmt : List Nat) (args : List ℚ)
  deriving DecidableEq, Repr

/-- The file-scope variables of `main.c` (lines 47-64, 172, 320-321) and the
log of driver calls made so far. -/
structure FwState where
  /-- `static volatile uint8 sampleBuffer[FRAME_SAMPLES]` -/
  sampleBuffer : List Nat
  /-- `static volatile uint16 sampleIndex` -/
  sampleIndex : Nat
  /-- `static volatile uint8 frameReady` -/
  frameReady : Nat
  /-- `static uint8 sineBase[LUT_SIZE]` -/
  sineBase : List Nat
  /-- `static uint8 triBase[LUT_SIZE]` -/
  triBase : List Nat
  /-- `static uint8 sqrBase[LUT_SIZE]` -/
  sqrBase : List Nat
  /-- `static uint8 waveLUT[LUT_SIZE]` -/
  waveLUT : List Nat
  /-- `static volatile uint16 waveIndex` -/
  waveIndex : Nat
  /-- `static volatile uint8 waveMode`, 0 = sine, 1 = triangle, 2 = square -/
  waveMode : Nat
  /-- `static volatile uint8 amp_percent` -/
  amp_percent : Nat
  /-- `static volatile uint8 wave_enabled` -/
  wave_enabled : Nat
  /-- `static volatile uint8 meas_r_request` -/
  meas_r_request : Nat
  /-- `static volatile uint8 meas_c_request` -/
  meas_c_request : Nat
  /-- `static uint8 dc`, the decimation counter local to `ADC_ISR_Handler` -/
  dc : Nat
  /-- `static char cmdBuf[CMD_BUF_LEN]` -/
  cmdBuf : List Nat
  /-- `static uint16 cmdLen` -/
  cmdLen : Nat
  /-- Driver calls made so far, oldest first. -/
  hw : List HwEvent
  deriving DecidableEq, Repr

/-- The state given by the static initialisers of `main.c`: every array is
zero-filled, `amp_percent` is 100 and every other scalar is 0. -/
def initState : FwState where
  sampleBuffer := List.replicate FRAME_SAMPLES 0
  sampleIndex := 0
  frameReady := 0
  sineBase := List.replicate LUT_SIZE 0
  triBase := List.replicate LUT_SIZE 0
  sqrBase := List.replicate LUT_SIZE 0
  waveLUT := List.replicate LUT_SIZE 0
  waveIndex := 0
  waveMode := 0
  amp_percent := 100
  wave_enabled := 0
  meas_r_request := 0
  meas_c_request := 0
  dc := 0
  cmdBuf := List.replicate CMD_BUF_LEN 0
  cmdLen := 0
  hw := []

/-! ## Oscilloscope sampler (`main.c`, lines 170-189) -/

/-- `CY_ISR(ADC_ISR_Handler)`; `raw` is what `ADC_SAR_1_GetResult16()`
returns, stored into a `uint16`. -/
def ADC_ISR_Handler (s : FwState) (raw : Nat) : FwState :=
  let raw := raw % 65536
  let dc := (s.dc + 1) % 256
  if dc < DECIM_FACTOR then
    { s with dc := dc }
  else
    let s := { s with dc := 0 }
    if s.frameReady = 0 then
      let s := { s with
        sampleBuffer := s.sampleBuffer.set s.sampleIndex ((raw >>> ADC_TO_8BIT_SHIFT) % 256)
        sampleIndex := (s.sampleIndex + 1) % 65536 }
      if s.sampleIndex ≥ FRAME_SAMPLES then
        { s with frameReady := 1, sampleIndex := 0 }
      else
        s
    else
      s

/-- A run of ADC interrupts, one per reading, oldest reading first. -/
def adcRun (s : FwState) (raws : List Nat) : FwState :=
  raws.foldl ADC_ISR_Handler s

/-- The frame branch of one `app_task` iteration (`main.c`, lines 424-432):
a ready frame is sent as the header `0xAA`, `(uint8)FRAME_SAMPLES` and then
the buffer, after which the ready flag is cleared. -/
def drainFrame (s : FwState) : FwState :=
  if s.frameReady ≠ 0 then
    { s with
      hw := s.hw ++ [HwEvent.uartPut [0xAA, FRAME_SAMPLES % 256],
                     HwEvent.uartPut (s.sampleBuffer.take FRAME_SAMPLES)]
      frameReady := 0 }
  else
    s

/-- States of the sampler reachable from the initial state by ADC interrupts
with arbitrary readings and by foreground drains. -/
inductive ScopeReach : FwState → Prop where
  | init : ScopeReach initState
  | isr (s : FwState) (raw : Nat) : ScopeReach s → ScopeReach (ADC_ISR_Handler s raw)
  | drain (s : FwState) : ScopeReach s → ScopeReach (drainFrame s)

/-! ## Waveform tables and synthesiser (`main.c`, lines 96-146, 194-207) -/

/-- `build_tri`: two loops of `h = LUT_SIZE / 2` stores each, in `unsigned`
arithmetic, every value cast to `uint8`. -/
def build_tri (s : FwState) : FwState :=
  let h := (LUT_SIZE / 2) % 65536
  let s := (List.range h).foldl
    (fun st i => { st with triBase := st.triBase.set i (((255 * i) / (h - 1)) % 256) }) s
  (List.range h).foldl
    (fun st i => { st with
      triBase := st.triBase.set (h + i) (((255 + 4294967296 - (255 * i) / (h - 1)) % 4294967296) % 256) }) s

/-- `build_sqr`: 0 over the first half of the table, 255 over the second. -/
def build_sqr (s : FwState) : FwState :=
  let h := (LUT_SIZE / 2) % 65536
  let s := (List.range h).foldl (fun st i => { st with sqrBase := st.sqrBase.set i 0 }) s
  (List.range' h (LUT_SIZE - h)).foldl
    (fun st i => { st with sqrBase := st.sqrBase.set i 255 }) s

/-- The table `src` points to in `rebuild_lut`: triangle for mode 1, square
for mode 2, sine for every other mode. -/
def selectedBase (s : FwState) : List Nat :=
  if s.waveMode = 1 then s.triBase else if s.waveMode = 2 then s.sqrBase else s.sineBase

/-- The value `rebuild_lut` stores for a base entry `b` at amplitude `amp`:
`uint16 s = ((uint16)b * amp) / 100u; if (s > 255u) s = 255u; (uint8)s`. -/
def scaleSample (b amp : Nat) : Nat :=
  let sv := ((b * amp) / 100) % 65536
  let sv := if sv > 255 then 255 else sv
  sv % 256

/-- `rebuild_lut`: clamps `amp_percent` to 100 and refills `waveLUT` from the
selected base table, entry by entry. An index past the end of a base table
reads 0. -/
def rebuild_lut (s : FwState) : FwState :=
  let src := selectedBase s
  let s := if s.amp_percent > 100 then { s with amp_percent := 100 } else s
  (List.range LUT_SIZE).foldl
    (fun st i => { st with waveLUT := st.waveLUT.set i (scaleSample (src.getD i 0) st.amp_percent) }) s

/-- `set_amplitude(uint8 a)`. -/
def set_amplitude (s : FwState) (a : Nat) : FwState :=
  let s := { s with amp_percent := a % 256 }
  let s := if s.amp_percent > 100 then { s with amp_percent := 100 } else s
  rebuild_lut s

/-- `set_wave(uint8 m)`. -/
def set_wave (s : FwState) (m : Nat) : FwState :=
  rebuild_lut { s with waveMode := m % 256 }

/-- `CY_ISR(WaveTimer_ISR)`. An index past the end of `waveLUT` reads 0. -/
def WaveTimer_ISR (s : FwState) : FwState :=
  let s := { s with hw := s.hw ++ [HwEvent.timerReadStatus] }
  if s.wave_enabled = 0 then
    { s with hw := s.hw ++ [HwEvent.dacSetValue 0] }
  else
    let s := { s with
      hw := s.hw ++ [HwEvent.dacSetValue (s.waveLUT.getD s.waveIndex 0)]
      waveIndex := (s.waveIndex + 1) % 65536 }
    if s.waveIndex ≥ LUT_SIZE then { s with waveIndex := 0 } else s

/-! ## Frequency controller (`main.c`, lines 148-165) -/

/-- Lines 150-159 of `set_frequency(uint32 f)`: the value of the `uint32`
variable `p` after `p--`. The division is checked: the result is `none` if
the divisor `rate` is 0 at the division. -/
def set_frequency_reload (f : Nat) : Option Nat :=
  let f := if f < 1 then 1 else f
  let f := if f > 3000 then 3000 else f
  let rate := (f * LUT_SIZE) % 4294967296
  let rate := if rate = 0 then 1 else rate
  if rate = 0 then
    none
  else
    let p := WAVE_CLK_HZ / rate
    let p := if p = 0 then 1 else p
    let p := if p > 65535 then 65535 else p
    some ((p + 4294967295) % 4294967296)

/-- The four timer calls that end `set_frequency`, for the `uint32` value
`p`, which `WaveTimer_WritePeriod` receives cast to `uint16`. -/
def timerWrites (p : Nat) : List HwEvent :=
  [HwEvent.timerStop, HwEvent.timerWriteCounter 0, HwEvent.timerWritePeriod (p % 65536),
   HwEvent.timerStart]

/-- `set_frequency(uint32 f)`; `none` if it divides by zero. -/
def set_frequency (s : FwState) (f : Nat) : Option FwState :=
  match set_frequency_reload f with
  | none => none
  | some p => some { s with hw := s.hw ++ timerWrites p }

/-! ## Command protocol (`main.c`, lines 319-393) -/

/-- The bytes of a string literal of the source. -/
def lit (str : String) : List Nat :=
  str.toList.map Char.toNat

/-- The tokens that `strtok(cmd, ",")` and then `strtok(NULL, ",")` return
until `NULL`, for the string that starts the buffer: the maximal non-empty
comma-free pieces before the first NUL. `acc` is the piece being read. -/
def strtok_tokens (acc : List Nat) : List Nat → List (List Nat)
  | [] => if acc = [] then [] else [acc]
  | c :: cs =>
    if c = 0 then
      if acc = [] then [] else [acc]
    else if c = 44 then
      if acc = [] then strtok_tokens [] cs else acc :: strtok_tokens [] cs
    else
      strtok_tokens (acc ++ [c]) cs

/-- The buffer after those `strtok` calls: the comma that ends each token
has been overwritten with NUL, all other bytes are as before. `inTok` tells
whether a token is being read. -/
def strtok_buffer (inTok : Bool) : List Nat → List Nat
  | [] => []
  | c :: cs =>
    if c = 0 then
      c :: cs
    else if c = 44 then
      (if inTok then 0 else c) :: strtok_buffer false cs
    else
      c :: strtok_buffer true cs

/-- The test `!strncmp(t, l, n)` for NUL-free `t` and `l`. -/
def strncmp_eq (t l : List Nat) (n : Nat) : Bool :=
  t.take n == l.take n

/-- The test `!strcmp(t, l)` for NUL-free `t` and `l`. -/
def strcmp_eq (t l : List Nat) : Bool :=
  t == l

/-- The test `isspace(c)` in the C locale. -/
def isspace (c : Nat) : Bool :=
  c == 32 || (9 ≤ c && c ≤ 13)

/-- The digit loop of `atoi`: the value of the leading decimal digits. -/
def atoi_digits (acc : Nat) : List Nat → Nat
  | [] => acc
  | c :: cs => if 48 ≤ c ∧ c ≤ 57 then atoi_digits (acc * 10 + (c - 48)) cs else acc

/-- The C library `atoi`: optional white space, an optional sign, then
decimal digits; 0 if there is no digit. The result is the mathematical
value; C defines it only when it fits an `int`. -/
def atoi (t : List Nat) : Int :=
  match t.dropWhile isspace with
  | 45 :: cs => -(atoi_digits 0 cs : Int)
  | 43 :: cs => (atoi_digits 0 cs : Int)
  | cs => (atoi_digits 0 cs : Int)

/-- Conversion of an `int` to `uint32`. -/
def toU32 (v : Int) : Nat :=
  (v % 4294967296).toNat

/-- The body of the `while (t)` loop of `process_cmd` for one token `t`. -/
def process_token (s : FwState) (t : List Nat) : Option FwState :=
  if strncmp_eq t (lit "FREQ:") 5 then
    set_frequency s (toU32 (atoi (t.drop 5)))
  else if strncmp_eq t (lit "AMP:") 4 then
    let a := atoi (t.drop 4)
    let a := if a < 0 then 0 else a
    let a := if a > 100 then 100 else a
    some (set_amplitude s (a.toNat % 256))
  else if strncmp_eq t (lit "WAVE:") 5 then
    let w := t.drop 5
    if strcmp_eq w (lit "SINE") then some (set_wave s 0)
    else if strcmp_eq w (lit "TRI") then some (set_wave s 1)
    else if strcmp_eq w (lit "SQR") then some (set_wave s 2)
    else some s
  else if strncmp_eq t (lit "EN:") 3 then
    let e := atoi (t.drop 3)
    if e ≠ 0 then
      some { s with wave_enabled := 1 }
    else
      some { s with wave_enabled := 0, hw := s.hw ++ [HwEvent.dacSetValue 0], waveIndex := 0 }
  else if strncmp_eq t (lit "MEAS:") 5 then
    let m := t.drop 5
    if strcmp_eq m (lit "R") then some { s with meas_r_request := 1 }
    else if strcmp_eq m (lit "C") then some { s with meas_c_request := 1 }
    else some s
  else
    some s

/-- The tokens of a line applied in order, as the loop of `process_cmd`. -/
def process_tokens (s : FwState) : List (List Nat) → Option FwState
  | [] => some s
  | t :: ts =>
    match process_token s t with
    | none => none
    | some s1 => process_tokens s1 ts

/-- `process_cmd(cmdBuf)`: tokenises the line in `cmdBuf` in place and
dispatches every token. -/
def process_cmd (s : FwState) : Option FwState :=
  process_tokens { s with cmdBuf := strtok_buffer false s.cmdBuf } (strtok_tokens [] s.cmdBuf)

/-- The body of the loop of `poll_uart_commands` for the received byte `c`. -/
def poll_byte (s : FwState) (c : Nat) : Option FwState :=
  let c := c % 256
  if c = 13 ∨ c = 10 then
    if s.cmdLen > 0 then
      match process_cmd { s with cmdBuf := s.cmdBuf.set s.cmdLen 0 } with
      | none => none
      | some s1 => some { s1 with cmdLen := 0 }
    else
      some s
  else if s.cmdLen < CMD_BUF_LEN - 1 then
    some { s with cmdBuf := s.cmdBuf.set s.cmdLen c, cmdLen := (s.cmdLen + 1) % 65536 }
  else
    some s

/-- `poll_uart_commands`, with `rx` the bytes the UART hands over while the
loop runs, oldest first. -/
def poll_uart_commands (s : FwState) : List Nat → Option FwState
  | [] => some s
  | c :: rx =>
    match poll_byte s c with
    | none => none
    | some s1 => poll_uart_commands s1 rx

/-! ## Measurement engine (`main.c`, lines 19-44, 214-314)

The `float` constants and the `float` arithmetic of the source are read as
exact rational arithmetic. The readings of `ADC_SAR_2`, already converted by
`ADC_SAR_2_CountsTo_mVolts`, are a stream `adc : Nat → Int`: `adc k` is the
millivolt value of read number `k`, and `pos` counts the reads made so far. -/

/-- Code written to the current source for the resistance measurement. -/
abbrev IDAC_R_CODE : Nat := 50
/-- `IDAC_R_CURRENT_A`, `0.000414f`. -/
def IDAC_R_CURRENT_A : ℚ := 414 / 1000000
/-- `R_CAL_GAIN`, `68.0f`. -/
def R_CAL_GAIN : ℚ := 68
/-- Code written to the current source for the capacitance measurement. -/
abbrev IDAC_C_CODE : Nat := 12
/-- `IDAC_C_LSB_A`, `8e-6f`. -/
def IDAC_C_LSB_A : ℚ := 8 / 1000000
/-- `IDAC_C_CURRENT_A`, `IDAC_C_CODE * IDAC_C_LSB_A`. -/
def IDAC_C_CURRENT_A : ℚ := (IDAC_C_CODE : ℚ) * IDAC_C_LSB_A
/-- Discharge time in ms. -/
abbrev DISCHARGE_MS : Nat := 50
/-- Polling period in microseconds. -/
abbrev SAMPLE_US : Nat := 10
/-- Low threshold in mV. -/
abbrev VSTART_MV : Int := 2
/-- High threshold in mV. -/
abbrev VEND_MV : Int := 10
/-- Timeout of one polling phase in ms. -/
abbrev TIMEOUT_MS : Nat := 500
/-- `C_CAL_GAIN`, `0.014f`. -/
def C_CAL_GAIN : ℚ := 14 / 1000
/-- The value `(uint32)-1` that `wait_until_mv` returns on timeout. -/
abbrev U32_SENTINEL : Nat := 4294967295

/-- The loop of `wait_until_mv`, with `fuel` bounding the number of
iterations: `none` if the fuel runs out, otherwise the value returned, the
number of reads made and the state. -/
def wait_until_mv_loop (adc : Nat → Int) (target_mv : Int) (timeout_us : Nat) :
    Nat → Nat → Nat → FwState → Option (Nat × Nat × FwState)
  | 0, _, _, _ => none
  | fuel + 1, elapsed_us, pos, s =>
    if elapsed_us < timeout_us then
      if adc pos ≥ target_mv then
        some (elapsed_us, pos + 1, s)
      else
        wait_until_mv_loop adc target_mv timeout_us fuel
          ((elapsed_us + SAMPLE_US) % 4294967296) (pos + 1)
          { s with hw := s.hw ++ [HwEvent.delayUs SAMPLE_US] }
    else
      some (U32_SENTINEL, pos, s)

/-- `wait_until_mv(target_mv, timeout_ms)`. -/
def wait_until_mv (fuel : Nat) (adc : Nat → Int) (pos : Nat) (s : FwState)
    (target_mv : Int) (timeout_ms : Nat) : Option (Nat × Nat × FwState) :=
  wait_until_mv_loop adc target_mv ((timeout_ms * 1000) % 4294967296) fuel 0 pos s

/-- Conversion of a `float` to an integer type: truncation toward zero. The
result is the mathematical value; C defines it only when it fits the type. -/
def truncToInt (x : ℚ) : Int :=
  if 0 ≤ x then ⌊x⌋ else ⌈x⌉

/-- `Measure_R_Pin`: the value returned, the number of reads made and the
state. -/
def Measure_R_Pin (adc : Nat → Int) (pos : Nat) (s : FwState) : Int × Nat × FwState :=
  let s := { s with hw := s.hw ++
    [HwEvent.amuxFastSelect 0, HwEvent.pinRHiZ, HwEvent.idacSetPolaritySource,
     HwEvent.idacSetValue IDAC_R_CODE, HwEvent.delayMs 20, HwEvent.adcWaitResult] }
  let adc_mV : Int := adc pos
  let v_pin : ℚ := (adc_mV : ℚ) / 1000
  let r_raw : ℚ := v_pin / IDAC_R_CURRENT_A
  let r_raw : ℚ := if r_raw < 0 then 0 else r_raw
  let r_cal : ℚ := r_raw * R_CAL_GAIN
  let s := { s with hw := s.hw ++
    [HwEvent.uartPrintf (lit "DBG_R: mv=%ld, Rraw=%ld, Rcal=%ld\r\n")
      [(adc_mV : ℚ), (truncToInt r_raw : ℚ), (truncToInt r_cal : ℚ)]] }
  (truncToInt r_cal, pos + 1, s)

/-- Lines 270-284 of `Measure_C_Pin_uF`: channel selection, discharge and
start of the charging current. -/
def chargeStart (s : FwState) : FwState :=
  { s with hw := s.hw ++
    [HwEvent.amuxFastSelect 1, HwEvent.idacSetValue 0, HwEvent.pinCStrong, HwEvent.pinCWrite 0,
     HwEvent.delayMs DISCHARGE_MS, HwEvent.pinCHiZ, HwEvent.delayUs 50,
     HwEvent.idacSetPolaritySource, HwEvent.idacSetValue IDAC_C_CODE] }

/-- `Measure_C_Pin_uF`: `none` if a polling loop runs out of fuel, otherwise
the value returned, the number of reads made and the state. -/
def Measure_C_Pin_uF (fuel : Nat) (adc : Nat → Int) (pos : Nat) (s : FwState) :
    Option (ℚ × Nat × FwState) :=
  let s := chargeStart s
  match wait_until_mv fuel adc pos s VSTART_MV TIMEOUT_MS with
  | none => none
  | some (t1, pos1, s1) =>
    match wait_until_mv fuel adc pos1 s1 VEND_MV TIMEOUT_MS with
    | none => none
    | some (t2, pos2, s2) =>
      let s3 := { s2 with hw := s2.hw ++ [HwEvent.idacSetValue 0] }
      if t1 = U32_SENTINEL ∨ t2 = U32_SENTINEL ∨ t2 ≤ t1 then
        some (-1, pos2,
          { s3 with hw := s3.hw ++ [HwEvent.uartPut (lit "DBG_C: timeout or bad dt\r\n")] })
      else
        let dt_us : Nat := (t2 + 4294967296 - t1) % 4294967296
        let dV : ℚ := ((VEND_MV - VSTART_MV : Int) : ℚ) / 1000
        let t_s : ℚ := (dt_us : ℚ) * (1 / 1000000)
        let C : ℚ := (IDAC_C_CURRENT_A * t_s) / dV
        let C : ℚ := C * C_CAL_GAIN
        let C_uF : ℚ := C * 1000000
        some (C_uF, pos2,
          { s3 with hw := s3.hw ++
            [HwEvent.uartPrintf (lit "DBG_C: dt=%lu us, C=%.3f uF\r\n") [(dt_us : ℚ), C_uF]] })

/-! ## Foreground loop (`main.c`, lines 398-436) -/

/-- The resistance branch of one `app_task` iteration (lines 406-413). -/
def service_r (adc : Nat → Int) (pos : Nat) (s : FwState) : Nat × FwState :=
  if s.meas_r_request ≠ 0 then
    let m := Measure_R_Pin adc pos { s with meas_r_request := 0 }
    (m.2.1, { m.2.2 with hw := m.2.2.hw ++
      [HwEvent.uartPrintf (lit "R_GND:%ld\r\n") [(m.1 : ℚ)]] })
  else
    (pos, s)

/-- The capacitance branch of one `app_task` iteration (lines 415-422). -/
def service_c (fuel : Nat) (adc : Nat → Int) (pos : Nat) (s : FwState) :
    Option (Nat × FwState) :=
  if s.meas_c_request ≠ 0 then
    match Measure_C_Pin_uF fuel adc pos { s with meas_c_request := 0 } with
    | none => none
    | some (c, pos1, s1) =>
      some (pos1, { s1 with hw := s1.hw ++ [HwEvent.uartPrintf (lit "C_uF:%.3f\r\n") [c]] })
  else
    some (pos, s)

/-- What one `app_task` iteration does after `poll_uart_commands`: the two
measurement branches and the frame branch. The closing `vTaskDelay` is a
scheduler call and leaves the state as it is. -/
def app_task_service (fuel : Nat) (adc : Nat → Int) (pos : Nat) (s : FwState) :
    Option (Nat × FwState) :=
  let r := service_r adc pos s
  match service_c fuel adc r.1 r.2 with
  | none => none
  | some (pos2, s2) => some (pos2, drainFrame s2)

/-- One iteration of the loop of `app_task`, with `rx` the bytes the UART
hands over to `poll_uart_commands`. -/
def app_task_iter (fuel : Nat) (adc : Nat → Int) (pos : Nat) (s : FwState) (rx : List Nat) :
    Option (Nat × FwState) :=
  match poll_uart_commands s rx with
  | none => none
  | some s1 => app_task_service fuel adc pos s1

/-! ## Sine table (`main.c`, lines 69-94)

The `float` arithmetic is read as exact rational arithmetic on the decimal
constants of the source; the two `while` loops of `my_sin_approx` take
`fuel`, which bounds their iterations. -/

/-- The constant `3.1415926f`. -/
def SIN_PI : ℚ := 31415926 / 10000000
/-- The constant `6.2831852f`. -/
def SIN_TWO_PI : ℚ := 62831852 / 10000000

/-- The loop `while (x > 3.1415926f) x -= 6.2831852f;`. -/
def wrap_down : Nat → ℚ → Option ℚ
  | 0, _ => none
  | fuel + 1, x => if x > SIN_PI then wrap_down fuel (x - SIN_TWO_PI) else some x

/-- The loop `while (x < -3.1415926f) x += 6.2831852f;`. -/
def wrap_up : Nat → ℚ → Option ℚ
  | 0, _ => none
  | fuel + 1, x => if x < -SIN_PI then wrap_up fuel (x + SIN_TWO_PI) else some x

/-- `my_sin_approx(x)`: `none` if a loop runs out of fuel. -/
def my_sin_approx (fuel : Nat) (x : ℚ) : Option ℚ :=
  match wrap_down fuel x with
  | none => none
  | some x1 =>
    match wrap_up fuel x1 with
    | none => none
    | some x =>
      let x2 := x * x
      let x3 := x * x2
      let x5 := x3 * x2
      some (x - x3 / 6 + x5 / 120)

/-- The body of the loop of `build_sine` for index `i`: the byte stored in
`sineBase[i]`. -/
def sine_sample (fuel : Nat) (i : Nat) : Option Nat :=
  let t : ℚ := SIN_TWO_PI * (i : ℚ) / (LUT_SIZE : ℚ)
  match my_sin_approx fuel t with
  | none => none
  | some sv =>
    let v : Int := truncToInt (128 + 127 * sv)
    let v : Int := if v < 0 then 0 else v
    let v : Int := if v > 255 then 255 else v
    some (v.toNat % 256)

/-- The loop of `build_sine` over the indices `idx`. -/
def build_sine_loop (fuel : Nat) : List Nat → FwState → Option FwState
  | [], s => some s
  | i :: idx, s =>
    match sine_sample fuel i with
    | none => none
    | some v => build_sine_loop fuel idx { s with sineBase := s.sineBase.set i v }

/-- `build_sine`: `none` if a loop of `my_sin_approx` runs out of fuel. -/
def build_sine (fuel : Nat) (s : FwState) : Option FwState :=
  build_sine_loop fuel (List.range LUT_SIZE) s

/-! ## Vocabulary of the specification -/

/-- Every array has its declared length and every variable a value of its
declared type. -/
def WellTyped (s : FwState) : Prop :=
  s.sampleBuffer.length = FRAME_SAMPLES ∧ (∀ x ∈ s.sampleBuffer, x < 256) ∧
  s.sampleIndex < 65536 ∧ s.frameReady < 256 ∧
  s.sineBase.length = LUT_SIZE ∧ (∀ x ∈ s.sineBase, x < 256) ∧
  s.triBase.length = LUT_SIZE ∧ (∀ x ∈ s.triBase, x < 256) ∧
  s.sqrBase.length = LUT_SIZE ∧ (∀ x ∈ s.sqrBase, x < 256) ∧
  s.waveLUT.length = LUT_SIZE ∧ (∀ x ∈ s.waveLUT, x < 256) ∧
  s.waveIndex < 65536 ∧ s.waveMode < 256 ∧ s.amp_percent < 256 ∧ s.wave_enabled < 256 ∧
  s.meas_r_request < 256 ∧ s.meas_c_request < 256 ∧ s.dc < 256 ∧
  s.cmdBuf.length = CMD_BUF_LEN ∧ (∀ x ∈ s.cmdBuf, x < 256) ∧ s.cmdLen < 65536

instance (s : FwState) : Decidable (WellTyped s) := by
  unfold WellTyped
  infer_instance

/-- The specification's scaling of a base entry `b` to `percent`: the
nearest integer to `b * percent / 100`, clamped to 255. -/
def specScaled (b percent : Nat) : Int :=
  min 255 (round ((b : ℚ) * percent / 100))

/-- The output frequency, in Hz, of a timer period of `q` ticks:
`timerClockHz / (LUT_SIZE * q)`. -/
def effectiveHz (q : Nat) : ℚ :=
  (WAVE_CLK_HZ : ℚ) / ((LUT_SIZE : ℚ) * q)

/-- The specification's timer period for `f` Hz: the nearest integer to
`timerClockHz / (f * LUT_SIZE)`, at least 1 and at most 65535. -/
def specPeriod (f : Nat) : Int :=
  max 1 (min 65535 (round ((WAVE_CLK_HZ : ℚ) / ((f : ℚ) * LUT_SIZE))))

/-- The decimal numeral of `n` as ASCII bytes. -/
def decimal (n : Nat) : List Nat :=
  if n = 0 then [48] else (Nat.digits 10 n).reverse.map (· + 48)

/-- The command line `FREQ:f,AMP:a,WAVE:w,EN:e`, without terminator. -/
def configLine (f a : Nat) (w : List Nat) (e : Nat) : List Nat :=
  lit "FREQ:" ++ decimal f ++ lit ",AMP:" ++ decimal a ++ lit ",WAVE:" ++ w ++
    lit ",EN:" ++ decimal e

/-- The decimal numeral of an integer `n` as ASCII bytes, with a leading
minus sign when `n` is negative. -/
def intDecimal (n : Int) : List Nat :=
  if n < 0 then 45 :: decimal (-n).toNat else decimal n.toNat

/-- The C string held by a buffer: its bytes before the first NUL. -/
def cstr (buf : List Nat) : List Nat :=
  buf.takeWhile (· ≠ 0)

/-- What `atoi` reads after skipping white space and one sign. -/
def afterSign (t : List Nat) : List Nat :=
  match t.dropWhile isspace with
  | 45 :: cs => cs
  | 43 :: cs => cs
  | cs => cs

/-- Whether a text starts with a decimal digit. -/
def startsWithDigit : List Nat → Bool
  | [] => false
  | c :: _ => decide (48 ≤ c ∧ c ≤ 57)

/-- A result line of the resistance measurement, `R_GND:<integer>`. -/
def isResultR : HwEvent → Bool
  | HwEvent.uartPrintf fmt _ => fmt == lit "R_GND:%ld\r\n"
  | _ => false

/-- A result line of the capacitance measurement, `C_uF:<float>`. -/
def isResultC : HwEvent → Bool
  | HwEvent.uartPrintf fmt _ => fmt == lit "C_uF:%.3f\r\n"
  | _ => false

/-- The sine table that `build_sine` computes. -/
def sineTable : List Nat :=
  [128, 140, 152, 164, 176, 187, 198, 208, 217, 226, 233, 240, 245, 249, 252, 254,
   255, 255, 253, 251, 248, 243, 238, 233, 227, 221, 214, 208, 203, 199, 195, 194,
   194, 61, 60, 56, 52, 47, 41, 34, 28, 22, 17, 12, 7, 4, 2, 0,
   0, 1, 3, 6, 10, 15, 22, 29, 38, 47, 57, 68, 79, 91, 103, 115]

/-- The line made of the tokens `ts` joined by commas. -/
def joinTokens : List (List Nat) → List Nat
  | [] => []
  | [t] => t
  | t :: u :: ts => t ++ 44 :: joinTokens (u :: ts)

/-- The timer interrupt taken `k` times in a row. -/
def tickRun : Nat → FwState → FwState
  | 0, s => s
  | k + 1, s => tickRun k (WaveTimer_ISR s)

/-- States of the generator reachable from `s0` by timer interrupts and by
command tokens, in any order. -/
inductive WaveReach (s0 : FwState) : FwState → Prop where
  | start : WaveReach s0 s0
  | tick (s : FwState) : WaveReach s0 s → WaveReach s0 (WaveTimer_ISR s)
  | token (s s1 : FwState) (t : List Nat) :
      WaveReach s0 s → process_token s t = some s1 → WaveReach s0 s1

/-- The values written to the current source by `IDAC_1_SetValue`, oldest
first. -/
def idacWrites : List HwEvent → List Nat
  | [] => []
  | HwEvent.idacSetValue v :: evs => v :: idacWrites evs
  | _ :: evs => idacWrites evs

/-- The values written to the DAC by `VDAC8_1_SetValue`, oldest first. -/
def dacWrites : List HwEvent → List Nat
  | [] => []
  | HwEvent.dacSetValue v :: evs => v :: dacWrites evs
  | _ :: evs => dacWrites evs

/-- The driver calls of `k` timer interrupts in a row that start at phase
`p` with the output enabled and the table `lut`: a status read and the DAC
write of entry `(p + j) mod 64` for `j = 0, ..., k - 1`. -/
def tickLog (lut : List Nat) (p : Nat) : Nat → List HwEvent
  | 0 => []
  | k + 1 => tickLog lut p k ++
      [HwEvent.timerReadStatus, HwEvent.dacSetValue (lut.getD ((p + k) % LUT_SIZE) 0)]

/-! ## Concrete states used as examples -/

/-- Readings that reach 2 mV at read 3 and 10 mV at read 5. -/
def rampReadings (k : Nat) : Int :=
  if k < 3 then 0 else if k < 5 then 5 else 12

/-- Readings that stay at 0 mV. -/
def flatReadings (_k : Nat) : Int :=
  0

/-- Readings that reach 2 mV at read 0 and 10 mV at read 8. -/
def slowReadings (k : Nat) : Int :=
  if k < 8 then 5 else 12

/-- The initial state with a frame latched. -/
def latchedState : FwState :=
  { initState with frameReady := 1 }

/-- The initial state after `build_tri`, `build_sqr` and `set_wave(2)`, with
the output enabled and the phase cursor at the last table entry, which
holds 255. -/
def lastPhaseState : FwState :=
  { set_wave (build_sqr (build_tri initState)) 2 with wave_enabled := 1, waveIndex := 63 }

/-- The initial state after `build_sqr`, in square mode at 1 percent. -/
def sqrOnePercent : FwState :=
  { build_sqr initState with waveMode := 2, amp_percent := 1 }

/-- The initial state after `build_tri` and `build_sqr`. -/
def bootTables : FwState :=
  build_sqr (build_tri initState)

/-- The state `bootTables` with the line `AMP:10,AMP:20` in the line buffer. -/
def ampTwiceState : FwState :=
  { bootTables with cmdBuf := lit "AMP:10,AMP:20" ++ List.replicate 51 0, cmdLen := 13 }

/-! ## Oscilloscope sampler: proofs -/

theorem adcRun_take_succ (s : FwState) (rs : List Nat) (n : Nat) (h : n < rs.length) :
    adcRun s (rs.take (n + 1)) = ADC_ISR_Handler (adcRun s (rs.take n)) (rs.getD n 0) := by
  unfold adcRun
  rw [List.take_succ, List.foldl_append]
  simp [List.getD, List.getElem?_eq_getElem h]

/-- The byte the handler stores for the reading `raw`. -/
theorem adc_sample_of_le (raw : Nat) (h : raw ≤ 4095) :
    ((raw % 65536) >>> ADC_TO_8BIT_SHIFT) % 256 = raw >>> 4 := by
  have h1 : raw % 65536 = raw := Nat.mod_eq_of_lt (by omega)
  rw [h1, Nat.shiftRight_eq_div_pow]
  have : raw / 2 ^ ADC_TO_8BIT_SHIFT < 256 := by
    rw [Nat.div_lt_iff_lt_mul (by norm_num)]
    norm_num
    omega
  exact Nat.mod_eq_of_lt this

theorem adc_prefix (s : FwState) (rs : List Nat) (h0 : s.sampleIndex = 0)
    (h1 : s.frameReady = 0) (h2 : s.dc = 0) (hl : s.sampleBuffer.length = FRAME_SAMPLES) :
    ∀ n, n ≤ rs.length → n ≤ 503 →
      (adcRun s (rs.take n)).dc = n % 2 ∧
      (adcRun s (rs.take n)).frameReady = 0 ∧
      (adcRun s (rs.take n)).sampleIndex = n / 2 ∧
      (adcRun s (rs.take n)).sampleBuffer.length = FRAME_SAMPLES ∧
      ∀ k, k < n / 2 → (adcRun s (rs.take n)).sampleBuffer[k]? =
        some (((rs.getD (2 * k + 1) 0 % 65536) >>> ADC_TO_8BIT_SHIFT) % 256) := by
  intro n
  induction n with
  | zero =>
    intro _ _
    simp [adcRun, h0, h1, h2, hl]
  | succ n ih =>
    intro hn hn2
    obtain ⟨a, b, c, d, e⟩ := ih (by omega) (by omega)
    rw [adcRun_take_succ s rs n (by omega)]
    generalize adcRun s (rs.take n) = t at a b c d e
    rcases Nat.mod_two_eq_zero_or_one n with hpar | hpar
    · have hdc : t.dc = 0 := by omega
      have e1 : (n + 1) % 2 = 1 := by omega
      have e2 : (n + 1) / 2 = n / 2 := by omega
      simp only [ADC_ISR_Handler, hdc, e1, e2]
      simp [b, c, d, -List.getD_eq_getElem?_getD]
      exact e
    · have hdc : t.dc = 1 := by omega
      have e1 : (n + 1) % 2 = 0 := by omega
      have e2 : (n + 1) / 2 = n / 2 + 1 := by omega
      have e3 : (n / 2 + 1) % 65536 = n / 2 + 1 := Nat.mod_eq_of_lt (by omega)
      have e4 : ¬ (252 ≤ n / 2 + 1) := by omega
      simp only [ADC_ISR_Handler, hdc, e1, e2]
      simp [b, c, d, e3, e4, -List.getD_eq_getElem?_getD]
      have d' : t.sampleBuffer.length = 252 := d
      intro k hk
      rcases Nat.lt_or_eq_of_le (Nat.lt_succ_iff.mp hk) with hlt | heq
      · rw [List.getElem?_set_ne (by omega)]
        exact e k hlt
      · subst heq
        have hn' : n = 2 * (n / 2) + 1 := by omega
        rw [List.getElem?_set_eq_of_lt _ (by omega)]
        rw [← hn']

/-- Claim C1. From a state with `sampleIndex = 0`, `frameReady = 0` and
decimation counter 0, such as the initial one, 504 interrupts with readings
in [0,4095] leave `frameReady` at 0 after each of the first 503 and set it
to 1 at the 504th; then `sampleIndex` is 0 and `sampleBuffer[k]` is the
reading number `2k+2` shifted right by 4, for every `k < 252`. -/
theorem adc_one_frame (s : FwState) (rs : List Nat)
    (h0 : s.sampleIndex = 0) (h1 : s.frameReady = 0) (h2 : s.dc = 0)
    (hl : s.sampleBuffer.length = FRAME_SAMPLES)
    (hlen : rs.length = FRAME_SAMPLES * DECIM_FACTOR) (hr : ∀ r ∈ rs, r ≤ 4095) :
    (∀ n, n < FRAME_SAMPLES * DECIM_FACTOR → (adcRun s (rs.take n)).frameReady = 0) ∧
    (adcRun s rs).frameReady = 1 ∧
    (adcRun s rs).sampleIndex = 0 ∧
    (adcRun s rs).sampleBuffer.length = FRAME_SAMPLES ∧
    ∀ k, k < FRAME_SAMPLES → (adcRun s rs).sampleBuffer[k]? = some (rs.getD (2 * k + 1) 0 >>> 4) := by
  have hpre := adc_prefix s rs h0 h1 h2 hl
  have hlen' : rs.length = 504 := hlen
  have hF : FRAME_SAMPLES = 252 := rfl
  have hD : FRAME_SAMPLES * DECIM_FACTOR = 504 := rfl
  have hval : ∀ k, k < FRAME_SAMPLES →
      ((rs.getD (2 * k + 1) 0 % 65536) >>> ADC_TO_8BIT_SHIFT) % 256
        = rs.getD (2 * k + 1) 0 >>> 4 := by
    intro k hk
    apply adc_sample_of_le
    have hlt : 2 * k + 1 < rs.length := by omega
    rw [List.getD_eq_getElem _ _ hlt]
    exact hr _ (List.getElem_mem _)
  refine ⟨fun n hn => (hpre n (by omega) (by omega)).2.1, ?_⟩
  obtain ⟨a, b, c, d, e⟩ := hpre 503 (by omega) (by omega)
  have hfull : rs = rs.take (503 + 1) := by
    rw [List.take_of_length_le (by omega)]
  have hrun : adcRun s rs = ADC_ISR_Handler (adcRun s (rs.take 503)) (rs.getD 503 0) := by
    conv_lhs => rw [hfull]
    exact adcRun_take_succ s rs 503 (by omega)
  rw [hrun]
  generalize adcRun s (rs.take 503) = t at a b c d e
  have hdc : t.dc = 1 := by omega
  have hidx : t.sampleIndex = 251 := by omega
  simp only [ADC_ISR_Handler, hdc]
  simp [b, hidx, d, -List.getD_eq_getElem?_getD]
  have d' : t.sampleBuffer.length = 252 := d
  intro k hk
  rcases Nat.lt_or_eq_of_le (Nat.lt_succ_iff.mp hk) with hlt | heq
  · rw [List.getElem?_set_ne (by omega)]
    rw [e k (by omega)]
    exact congrArg some (hval k (by omega))
  · subst heq
    rw [List.getElem?_set_eq_of_lt _ (by omega)]
    exact congrArg some (hval 251 (by omega))

theorem adc_one_frame_witness :
    initState.sampleIndex = 0 ∧ initState.frameReady = 0 ∧ initState.dc = 0 ∧
    initState.sampleBuffer.length = FRAME_SAMPLES ∧
    (List.replicate 504 4095).length = FRAME_SAMPLES * DECIM_FACTOR ∧
    (∀ r ∈ List.replicate 504 4095, r ≤ 4095) ∧
    ((∀ n, n < FRAME_SAMPLES * DECIM_FACTOR →
        (adcRun initState ((List.replicate 504 4095).take n)).frameReady = 0) ∧
      (adcRun initState (List.replicate 504 4095)).frameReady = 1 ∧
      (adcRun initState (List.replicate 504 4095)).sampleIndex = 0 ∧
      (adcRun initState (List.replicate 504 4095)).sampleBuffer.length = FRAME_SAMPLES ∧
      ∀ k, k < FRAME_SAMPLES → (adcRun initState (List.replicate 504 4095)).sampleBuffer[k]? =
        some ((List.replicate 504 4095).getD (2 * k + 1) 0 >>> 4)) :=
  ⟨rfl, rfl, rfl, List.length_replicate _ _, List.length_replicate _ _,
   fun r hr => by rw [List.eq_of_mem_replicate hr],
   adc_one_frame initState (List.replicate 504 4095) rfl rfl rfl (List.length_replicate _ _)
     (List.length_replicate _ _) (fun r hr => by rw [List.eq_of_mem_replicate hr])⟩

theorem adc_latched_step (s : FwState) (raw : Nat) (h : s.frameReady = 1) :
    ADC_ISR_Handler s raw = { s with dc := (ADC_ISR_Handler s raw).dc } := by
  unfold ADC_ISR_Handler
  by_cases hd : (s.dc + 1) % 256 < DECIM_FACTOR <;> simp [hd, h]

/-- Claim C2. With `frameReady = 1` an ADC interrupt changes nothing but the
decimation counter: `sampleBuffer`, `sampleIndex`, `frameReady` and every
other variable keep their values, for one interrupt and for any run of
interrupts. -/
theorem adc_latched (s : FwState) (raws : List Nat) (h : s.frameReady = 1) :
    (∀ raw, ADC_ISR_Handler s raw = { s with dc := (ADC_ISR_Handler s raw).dc }) ∧
    adcRun s raws = { s with dc := (adcRun s raws).dc } ∧
    (adcRun s raws).sampleBuffer = s.sampleBuffer ∧
    (adcRun s raws).sampleIndex = s.sampleIndex ∧
    (adcRun s raws).frameReady = 1 := by
  refine ⟨fun raw => adc_latched_step s raw h, ?_⟩
  have key : ∀ (raws : List Nat) (s : FwState), s.frameReady = 1 →
      adcRun s raws = { s with dc := (adcRun s raws).dc } := by
    intro raws
    induction raws with
    | nil => intro s _; rfl
    | cons r rest ih =>
      intro s hs
      have h1 := adc_latched_step s r hs
      have hfr : (ADC_ISR_Handler s r).frameReady = 1 := by rw [h1]; exact hs
      have h2 := ih (ADC_ISR_Handler s r) hfr
      have hrun : adcRun s (r :: rest) = adcRun (ADC_ISR_Handler s r) rest := rfl
      rw [hrun]
      generalize adcRun (ADC_ISR_Handler s r) rest = u at h2 ⊢
      rw [h2]
      generalize ADC_ISR_Handler s r = v at h1 ⊢
      rw [h1]
  have hk := key raws s h
  refine ⟨hk, ?_, ?_, ?_⟩
  · rw [hk]
  · rw [hk]
  · rw [hk]; exact h

theorem adc_latched_witness :
    latchedState.frameReady = 1 ∧
    ((∀ raw, ADC_ISR_Handler latchedState raw =
        { latchedState with dc := (ADC_ISR_Handler latchedState raw).dc }) ∧
      adcRun latchedState [4095, 17, 256] =
        { latchedState with dc := (adcRun latchedState [4095, 17, 256]).dc } ∧
      (adcRun latchedState [4095, 17, 256]).sampleBuffer = latchedState.sampleBuffer ∧
      (adcRun latchedState [4095, 17, 256]).sampleIndex = latchedState.sampleIndex ∧
      (adcRun latchedState [4095, 17, 256]).frameReady = 1) :=
  ⟨rfl, adc_latched latchedState [4095, 17, 256] rfl⟩

theorem adc_step_index (s : FwState) (raw : Nat)
    (h : s.sampleIndex < FRAME_SAMPLES ∧ s.sampleBuffer.length = FRAME_SAMPLES) :
    (ADC_ISR_Handler s raw).sampleIndex < FRAME_SAMPLES ∧
    (ADC_ISR_Handler s raw).sampleBuffer.length = FRAME_SAMPLES := by
  obtain ⟨h1, h2⟩ := h
  have h1' : s.sampleIndex < 252 := h1
  unfold ADC_ISR_Handler
  by_cases hd : (s.dc + 1) % 256 < DECIM_FACTOR
  · simp [hd, h1, h2]
  · by_cases hf : s.frameReady = 0
    · have e3 : (s.sampleIndex + 1) % 65536 = s.sampleIndex + 1 := Nat.mod_eq_of_lt (by omega)
      by_cases hw : 252 ≤ s.sampleIndex + 1
      · simp [hd, hf, e3, hw, h2]
      · simp [hd, hf, e3, hw, h2]
        show s.sampleIndex + 1 < 252
        omega
    · simp [hd, hf, h1, h2]

/-- Claim C3. In every state reachable from the initial state by ADC
interrupts with arbitrary readings and foreground drains, `sampleIndex` is
below `FRAME_SAMPLES` and the buffer has `FRAME_SAMPLES` entries, so the
store `sampleBuffer[sampleIndex]` of the next interrupt is inside the
buffer. -/
theorem scope_index_in_bounds (s : FwState) (h : ScopeReach s) :
    s.sampleIndex < FRAME_SAMPLES ∧ s.sampleBuffer.length = FRAME_SAMPLES := by
  induction h with
  | init => simp [initState]
  | isr s raw _ ih => exact adc_step_index s raw ih
  | drain s _ ih =>
    unfold drainFrame
    by_cases hf : s.frameReady = 0
    · simpa [hf] using ih
    · simpa [hf] using ih

theorem scope_index_in_bounds_witness :
    ScopeReach (drainFrame (ADC_ISR_Handler (ADC_ISR_Handler initState 4095) 4095)) ∧
    (drainFrame (ADC_ISR_Handler (ADC_ISR_Handler initState 4095) 4095)).sampleIndex
      < FRAME_SAMPLES ∧
    (drainFrame (ADC_ISR_Handler (ADC_ISR_Handler initState 4095) 4095)).sampleBuffer.length
      = FRAME_SAMPLES :=
  ⟨ScopeReach.drain _ (ScopeReach.isr _ _ (ScopeReach.isr _ _ ScopeReach.init)),
   scope_index_in_bounds _
     (ScopeReach.drain _ (ScopeReach.isr _ _ (ScopeReach.isr _ _ ScopeReach.init)))⟩

/-! ## Waveform synthesiser: proofs -/

/-- Claim C4. With `waveIndex < 64`, the timer interrupt reads the status
register once and then, if `wave_enabled` is 0, writes 0 to the DAC and
leaves `waveIndex`, and otherwise writes `waveLUT[waveIndex]` to the DAC and
sets `waveIndex` to `(waveIndex + 1) mod 64`; nothing else changes. -/
theorem wave_tick (s : FwState) (h : s.waveIndex < LUT_SIZE) :
    (s.wave_enabled = 0 → WaveTimer_ISR s =
      { s with hw := s.hw ++ [HwEvent.timerReadStatus, HwEvent.dacSetValue 0] }) ∧
    (s.wave_enabled ≠ 0 → WaveTimer_ISR s =
      { s with
        hw := s.hw ++ [HwEvent.timerReadStatus, HwEvent.dacSetValue (s.waveLUT.getD s.waveIndex 0)]
        waveIndex := (s.waveIndex + 1) % LUT_SIZE }) ∧
    (WaveTimer_ISR s).hw.count HwEvent.timerReadStatus
      = s.hw.count HwEvent.timerReadStatus + 1 := by
  have h' : s.waveIndex < 64 := h
  have e3 : (s.waveIndex + 1) % 65536 = s.waveIndex + 1 := Nat.mod_eq_of_lt (by omega)
  refine ⟨?_, ?_, ?_⟩
  · intro he
    simp [WaveTimer_ISR, he]
  · intro he
    by_cases hw : 64 ≤ s.waveIndex + 1
    · have e4 : (s.waveIndex + 1) % LUT_SIZE = 0 := by
        have : s.waveIndex + 1 = 64 := by omega
        rw [this]
        rfl
      simp [WaveTimer_ISR, he, e3, hw, e4, -List.getD_eq_getElem?_getD]
    · have e4 : (s.waveIndex + 1) % LUT_SIZE = s.waveIndex + 1 :=
        Nat.mod_eq_of_lt (show s.waveIndex + 1 < 64 by omega)
      simp [WaveTimer_ISR, he, e3, hw, e4, -List.getD_eq_getElem?_getD]
  · by_cases he : s.wave_enabled = 0
    · simp [WaveTimer_ISR, he, List.count_append]
    · by_cases hw : 64 ≤ s.waveIndex + 1
      · simp [WaveTimer_ISR, he, e3, hw, List.count_append, List.count_cons]
      · simp [WaveTimer_ISR, he, e3, hw, List.count_append, List.count_cons]

theorem wave_tick_witness :
    (initState.waveIndex < LUT_SIZE ∧ initState.wave_enabled = 0 ∧
      WaveTimer_ISR initState =
        { initState with
          hw := initState.hw ++ [HwEvent.timerReadStatus, HwEvent.dacSetValue 0] }) ∧
    (lastPhaseState.waveIndex < LUT_SIZE ∧ lastPhaseState.wave_enabled ≠ 0 ∧
      WaveTimer_ISR lastPhaseState =
        { lastPhaseState with
          hw := lastPhaseState.hw ++ [HwEvent.timerReadStatus,
            HwEvent.dacSetValue (lastPhaseState.waveLUT.getD lastPhaseState.waveIndex 0)]
          waveIndex := (lastPhaseState.waveIndex + 1) % LUT_SIZE } ∧
      (WaveTimer_ISR lastPhaseState).hw.count HwEvent.timerReadStatus
        = lastPhaseState.hw.count HwEvent.timerReadStatus + 1) :=
  ⟨⟨by decide, rfl, (wave_tick initState (by decide)).1 rfl⟩,
   ⟨by decide, by decide, (wave_tick lastPhaseState (by decide)).2.1 (by decide),
    (wave_tick lastPhaseState (by decide)).2.2⟩⟩

/-- A loop that stores `g i` at index `i` for `i = 0, ..., n - 1`. -/
theorem foldl_set_range (g : Nat → Nat) (n : Nat) (l : List Nat) (h : n ≤ l.length) :
    (List.range n).foldl (fun acc i => acc.set i (g i)) l = (List.range n).map g ++ l.drop n := by
  induction n with
  | zero => simp
  | succ n ih =>
    rw [List.range_succ, List.foldl_append, ih (by omega)]
    simp only [List.foldl_cons, List.foldl_nil, List.map_append, List.map_cons, List.map_nil]
    apply List.ext_getElem?
    intro k
    have hlen : ((List.range n).map g).length = n := by simp
    rcases Nat.lt_trichotomy k n with hk | hk | hk
    · rw [List.getElem?_set_ne (by omega), List.append_assoc]
      rw [List.getElem?_append_left (by omega), List.getElem?_append_left (by omega)]
    · subst hk
      rw [List.getElem?_set_eq_of_lt _ (by simp; omega)]
      rw [List.append_assoc, List.getElem?_append_right (by omega)]
      simp
    · rw [List.getElem?_set_ne (by omega)]
      rw [List.getElem?_append_right (by omega), List.getElem?_append_right (by simp; omega)]
      simp only [hlen, List.length_append, List.length_cons, List.length_nil]
      rw [List.getElem?_drop, List.getElem?_drop]
      congr 1
      omega

theorem rebuild_fold (src : List Nat) (n : Nat) (s : FwState) :
    (List.range n).foldl
      (fun st i => { st with
        waveLUT := st.waveLUT.set i (scaleSample (src.getD i 0) st.amp_percent) }) s
    = { s with waveLUT := ((List.range n).foldl
        (fun acc i => acc.set i (scaleSample (src.getD i 0) s.amp_percent)) s.waveLUT) } := by
  induction n with
  | zero => rfl
  | succ n ih =>
    rw [List.range_succ, List.foldl_append, List.foldl_append, ih]
    rfl

/-- The table `rebuild_lut` leaves in `waveLUT`, for an amplitude within
range. -/
theorem rebuild_lut_eq (s : FwState) (hl : s.waveLUT.length = LUT_SIZE)
    (hp : s.amp_percent ≤ 100) :
    rebuild_lut s = { s with waveLUT := ((List.range LUT_SIZE).map
      (fun i => scaleSample ((selectedBase s).getD i 0) s.amp_percent)) } := by
  unfold rebuild_lut
  have hp' : ¬ (s.amp_percent > 100) := by omega
  simp only [hp', if_false]
  rw [rebuild_fold, foldl_set_range _ _ _ (by rw [hl])]
  have : s.waveLUT.drop LUT_SIZE = [] := List.drop_eq_nil_of_le (by rw [hl])
  rw [this, List.append_nil]

theorem scaleSample_of_byte (b p : Nat) (hb : b < 256) (hp : p ≤ 100) :
    scaleSample b p = b * p / 100 ∧ b * p / 100 ≤ 255 := by
  have h1 : b * p ≤ 255 * 100 := Nat.mul_le_mul (by omega) hp
  have h2 : b * p / 100 ≤ 255 := by omega
  refine ⟨?_, h2⟩
  unfold scaleSample
  have h3 : (b * p / 100) % 65536 = b * p / 100 := Nat.mod_eq_of_lt (by omega)
  have h4 : ¬ (b * p / 100 > 255) := by omega
  simp only [h3, h4, if_false]
  exact Nat.mod_eq_of_lt (by omega)

theorem getD_lt_of_forall (l : List Nat) (i : Nat) (h : ∀ x ∈ l, x < 256) :
    l.getD i 0 < 256 := by
  rcases Nat.lt_or_ge i l.length with hi | hi
  · rw [List.getD_eq_getElem _ _ hi]
    exact h _ (List.getElem_mem _)
  · rw [List.getD_eq_default _ _ hi]
    omega

/-- Claim C5, as the code has it. For every mode, every percent in [0,100]
and every `i < 64`, after `rebuild_lut` the entry `waveLUT[i]` is
`base[i] * percent / 100` rounded down, clamped to 255, where `base` is the
table the mode selects. -/
theorem rebuild_lut_floor (s : FwState) (i : Nat) (hl : s.waveLUT.length = LUT_SIZE)
    (hb : ∀ x ∈ selectedBase s, x < 256) (hp : s.amp_percent ≤ 100) (hi : i < LUT_SIZE) :
    (rebuild_lut s).waveLUT.getD i 0
      = min 255 ((selectedBase s).getD i 0 * s.amp_percent / 100) := by
  rw [rebuild_lut_eq s hl hp]
  have hs := scaleSample_of_byte _ _ (getD_lt_of_forall (selectedBase s) i hb) hp
  simp only [List.getD_eq_getElem?_getD, List.getElem?_map, List.getElem?_range hi,
    Option.map_some', Option.getD_some]
  simp only [List.getD_eq_getElem?_getD] at hs
  rw [hs.1]
  omega

theorem rebuild_lut_floor_witness :
    sqrOnePercent.waveLUT.length = LUT_SIZE ∧
    (∀ x ∈ selectedBase sqrOnePercent, x < 256) ∧
    sqrOnePercent.amp_percent ≤ 100 ∧ 32 < LUT_SIZE ∧
    (rebuild_lut sqrOnePercent).waveLUT.getD 32 0
      = min 255 ((selectedBase sqrOnePercent).getD 32 0 * sqrOnePercent.amp_percent / 100) :=
  ⟨by decide, by decide, by decide, by decide,
   rebuild_lut_floor sqrOnePercent 32 (by decide) (by decide) (by decide) (by decide)⟩

/-- Claim C5 fails as stated. In square mode at 1 percent the base entry
`sqrBase[32] = 255` is scaled to 2, while the nearest integer to
`255 * 1 / 100 = 2.55` is 3. -/
theorem rebuild_lut_not_nearest :
    (selectedBase sqrOnePercent).getD 32 0 = 255 ∧
    (rebuild_lut sqrOnePercent).waveLUT.getD 32 0 = 2 ∧
    specScaled 255 1 = 3 ∧
    ((rebuild_lut sqrOnePercent).waveLUT.getD 32 0 : Int)
      ≠ specScaled ((selectedBase sqrOnePercent).getD 32 0) sqrOnePercent.amp_percent := by
  have h1 : (selectedBase sqrOnePercent).getD 32 0 = 255 := by decide
  have h2 : (rebuild_lut sqrOnePercent).waveLUT.getD 32 0 = 2 := by decide
  have h3 : specScaled 255 1 = 3 := by
    unfold specScaled
    have : round (((255 : ℕ) : ℚ) * ((1 : ℕ) : ℚ) / 100) = 3 := by
      rw [round_eq, Int.floor_eq_iff]
      norm_num
    rw [this]
    decide
  have h4 : sqrOnePercent.amp_percent = 1 := rfl
  refine ⟨h1, h2, h3, ?_⟩
  rw [h1, h2, h4, h3]
  decide

/-! ## Frequency controller: proofs -/

/-- The period `set_frequency` computes is the integer quotient of the clock
by the clamped rate; it lies in [5,15625]. -/
theorem set_frequency_reload_eq (f : Nat) :
    set_frequency_reload f = some (1000000 / (min (max f 1) 3000 * 64) - 1) ∧
    5 ≤ 1000000 / (min (max f 1) 3000 * 64) ∧
    1000000 / (min (max f 1) 3000 * 64) ≤ 15625 := by
  have hc1 : 1 ≤ min (max f 1) 3000 := by omega
  have hc2 : min (max f 1) 3000 ≤ 3000 := by omega
  have hclamp : (if (if f < 1 then 1 else f) > 3000 then 3000 else (if f < 1 then 1 else f))
      = min (max f 1) 3000 := by
    by_cases h1 : f < 1
    · simp only [h1, if_true]
      have : f = 0 := by omega
      subst this
      decide
    · simp only [h1, if_false]
      by_cases h2 : f > 3000
      · simp only [h2, if_true]; omega
      · simp only [h2, if_false]; omega
  generalize min (max f 1) 3000 = c at hc1 hc2 hclamp
  have hlo : 5 ≤ 1000000 / (c * 64) := by
    have := @Nat.div_le_div_left 1000000 (3000 * 64) (c * 64) (by omega) (by omega)
    omega
  have hhi : 1000000 / (c * 64) ≤ 15625 := by
    have := @Nat.div_le_div_left 1000000 (c * 64) (1 * 64) (by omega) (by omega)
    omega
  refine ⟨?_, hlo, hhi⟩
  unfold set_frequency_reload
  simp only [hclamp]
  have hr : (c * LUT_SIZE) % 4294967296 = c * 64 := Nat.mod_eq_of_lt (by show c * 64 < _; omega)
  have hr0 : ¬ (c * 64 = 0) := by omega
  have hp0 : ¬ (1000000 / (c * 64) = 0) := by omega
  have hp1 : ¬ (1000000 / (c * 64) > 65535) := by omega
  simp only [hr, hr0, hp0, hp1, if_false]
  apply congrArg some
  show (1000000 / (c * 64) + 4294967295) % 4294967296 = 1000000 / (c * 64) - 1
  omega

/-- Claim C6. For every `f`, `set_frequency(f)` does not divide by zero
and the value `p` it passes to `WaveTimer_WritePeriod` is at most 65535, so
the cast to `uint16` keeps it: the timer is stopped, its counter reset, `p`
written as reload value and the timer restarted. -/
theorem set_frequency_safe (f : Nat) :
    ∃ p, set_frequency_reload f = some p ∧ p ≤ 65535 ∧ p % 65536 = p ∧
      ∀ s : FwState, set_frequency s f = some { s with hw := s.hw ++
        [HwEvent.timerStop, HwEvent.timerWriteCounter 0, HwEvent.timerWritePeriod p,
         HwEvent.timerStart] } := by
  obtain ⟨h, _, hhi⟩ := set_frequency_reload_eq f
  have hp : 1000000 / (min (max f 1) 3000 * 64) - 1 ≤ 65535 := by omega
  refine ⟨_, h, hp, Nat.mod_eq_of_lt (by omega), ?_⟩
  intro s
  unfold set_frequency
  rw [h]
  simp only [timerWrites]
  rw [Nat.mod_eq_of_lt (by omega)]

/-- Claim C9. For every `f`, `set_frequency(f)` makes the same timer
writes as `set_frequency(min(max(f,1),3000))`; so 0 is treated as 1 and
every `f` above 3000 as 3000. -/
theorem set_frequency_clamps (f : Nat) (s : FwState) :
    set_frequency s f = set_frequency s (min (max f 1) 3000) ∧
    set_frequency s 0 = set_frequency s 1 ∧
    (3000 < f → set_frequency s f = set_frequency s 3000) := by
  have key : ∀ g : Nat, set_frequency_reload g = set_frequency_reload (min (max g 1) 3000) := by
    intro g
    rw [(set_frequency_reload_eq g).1, (set_frequency_reload_eq (min (max g 1) 3000)).1]
    have : min (max (min (max g 1) 3000) 1) 3000 = min (max g 1) 3000 := by omega
    rw [this]
  have key2 : ∀ g : Nat, set_frequency s g = set_frequency s (min (max g 1) 3000) := by
    intro g
    unfold set_frequency
    rw [← key g]
  refine ⟨key2 f, key2 0, ?_⟩
  intro hf
  have : min (max f 1) 3000 = 3000 := by omega
  rw [key2 f, this]

theorem set_frequency_clamps_witness :
    3000 < 70000 ∧
    set_frequency initState 70000 = set_frequency initState (min (max 70000 1) 3000) ∧
    set_frequency initState 0 = set_frequency initState 1 ∧
    set_frequency initState 70000 = set_frequency initState 3000 :=
  ⟨by decide, (set_frequency_clamps 70000 initState).1, (set_frequency_clamps 70000 initState).2.1,
   (set_frequency_clamps 70000 initState).2.2 (by decide)⟩

/-- Claim C8, as the code has it. For every `f` in [1,3000],
`set_frequency(f)` writes the reload value `period - 1`, where `period` is
`1000000 / (f * 64)` rounded down, bounded below by 1 and above by 65535. -/
theorem set_frequency_period_floor (f : Nat) (h1 : 1 ≤ f) (h2 : f ≤ 3000) (s : FwState) :
    set_frequency_reload f
      = some (max 1 (min 65535 ⌊(WAVE_CLK_HZ : ℚ) / ((f * LUT_SIZE : ℕ) : ℚ)⌋₊) - 1) ∧
    set_frequency s f = some { s with hw := s.hw ++
      [HwEvent.timerStop, HwEvent.timerWriteCounter 0,
       HwEvent.timerWritePeriod (max 1 (min 65535 (WAVE_CLK_HZ / (f * LUT_SIZE))) - 1),
       HwEvent.timerStart] } := by
  obtain ⟨h, hlo, hhi⟩ := set_frequency_reload_eq f
  have hc : min (max f 1) 3000 = f := by omega
  rw [hc] at h hlo hhi
  have hfloor : ⌊(WAVE_CLK_HZ : ℚ) / ((f * LUT_SIZE : ℕ) : ℚ)⌋₊ = 1000000 / (f * 64) :=
    Nat.floor_div_eq_div _ _
  have hm : max 1 (min 65535 (1000000 / (f * 64))) = 1000000 / (f * 64) := by omega
  refine ⟨?_, ?_⟩
  · rw [hfloor, hm, h]
  · unfold set_frequency
    rw [h]
    simp only [timerWrites]
    show _ = some { s with hw := s.hw ++ [HwEvent.timerStop, HwEvent.timerWriteCounter 0,
      HwEvent.timerWritePeriod (max 1 (min 65535 (1000000 / (f * 64))) - 1), HwEvent.timerStart] }
    rw [hm, Nat.mod_eq_of_lt (by omega)]

theorem set_frequency_period_floor_witness :
    1 ≤ 1000 ∧ 1000 ≤ 3000 ∧
    (set_frequency_reload 1000
      = some (max 1 (min 65535 ⌊(WAVE_CLK_HZ : ℚ) / ((1000 * LUT_SIZE : ℕ) : ℚ)⌋₊) - 1) ∧
    set_frequency initState 1000 = some { initState with hw := initState.hw ++
      [HwEvent.timerStop, HwEvent.timerWriteCounter 0,
       HwEvent.timerWritePeriod (max 1 (min 65535 (WAVE_CLK_HZ / (1000 * LUT_SIZE))) - 1),
       HwEvent.timerStart] }) :=
  ⟨by decide, by decide, set_frequency_period_floor 1000 (by decide) (by decide) initState⟩

/-- Claim C8 fails as stated. At `f = 1000` the code writes the reload value
14, while the nearest integer to `1000000 / 64000 = 15.625` is 16, which
would give the reload value 15. -/
theorem set_frequency_not_nearest :
    set_frequency_reload 1000 = some 14 ∧ specPeriod 1000 = 16 ∧
    (set_frequency_reload 1000).map Int.ofNat ≠ some (specPeriod 1000 - 1) := by
  have h1 : set_frequency_reload 1000 = some 14 := by decide
  have h2 : specPeriod 1000 = 16 := by
    unfold specPeriod
    have : round ((WAVE_CLK_HZ : ℚ) / (((1000 : ℕ) : ℚ) * (LUT_SIZE : ℚ))) = 16 := by
      rw [round_eq, Int.floor_eq_iff]
      norm_num [WAVE_CLK_HZ, LUT_SIZE]
    rw [this]
    decide
  refine ⟨h1, h2, ?_⟩
  rw [h1, h2]
  decide

theorem effectiveHz_antitone (q p : Nat) (hq : 1 ≤ q) (hqp : q ≤ p) :
    effectiveHz p ≤ effectiveHz q := by
  unfold effectiveHz
  have hq' : (0 : ℚ) < (q : ℚ) := by exact_mod_cast hq
  have hqp' : (q : ℚ) ≤ (p : ℚ) := by exact_mod_cast hqp
  have hL : (0 : ℚ) < (LUT_SIZE : ℚ) := by norm_num [LUT_SIZE]
  apply div_le_div_of_nonneg_left
  · norm_num [WAVE_CLK_HZ]
  · exact mul_pos hL hq'
  · exact mul_le_mul_of_nonneg_left hqp' hL.le

theorem le_effectiveHz_iff (f q : Nat) (hq : 1 ≤ q) :
    (f : ℚ) ≤ effectiveHz q ↔ q * (f * 64) ≤ 1000000 := by
  unfold effectiveHz
  have hq' : (0 : ℚ) < (q : ℚ) := by exact_mod_cast hq
  have hpos : (0 : ℚ) < (LUT_SIZE : ℚ) * (q : ℚ) := by
    apply mul_pos _ hq'
    norm_num [LUT_SIZE]
  rw [le_div_iff₀ hpos]
  have e : (f : ℚ) * ((LUT_SIZE : ℚ) * (q : ℚ)) = ((q * (f * 64) : ℕ) : ℚ) := by
    push_cast
    ring
  have e2 : ((WAVE_CLK_HZ : ℕ) : ℚ) = ((1000000 : ℕ) : ℚ) := rfl
  rw [e, e2, Nat.cast_le]

/-- Claim C7, as the code has it. For every `f` in [1,3000], with `r` the
reload value written by `set_frequency(f)`, the effective frequency
`1000000 / (64 * (r + 1))` is at least `f` and is the closest to `f` among
the achievable frequencies that are at least `f`: for every period `q` in
[1,65536] whose frequency `1000000 / (64 * q)` is at least `f`,
`|1000000/(64*(r+1)) - f| <= |1000000/(64*q) - f|`, in exact rational
arithmetic. -/
theorem set_frequency_closest_from_above (f : Nat) (h1 : 1 ≤ f) (h2 : f ≤ 3000) :
    ∃ r, set_frequency_reload f = some r ∧ (f : ℚ) ≤ effectiveHz (r + 1) ∧
      ∀ q : Nat, 1 ≤ q → q ≤ 65536 → (f : ℚ) ≤ effectiveHz q →
        |effectiveHz (r + 1) - f| ≤ |effectiveHz q - f| := by
  obtain ⟨h, hlo, _⟩ := set_frequency_reload_eq f
  have hc : min (max f 1) 3000 = f := by omega
  rw [hc] at h hlo
  have hp : 1000000 / (f * 64) - 1 + 1 = 1000000 / (f * 64) := by omega
  have hfpos : 0 < f * 64 := by omega
  have hge : (f : ℚ) ≤ effectiveHz (1000000 / (f * 64)) := by
    rw [le_effectiveHz_iff f _ (by omega)]
    exact Nat.div_mul_le_self _ _
  refine ⟨_, h, ?_, ?_⟩
  · rw [hp]
    exact hge
  · intro q hq1 _ hq
    rw [hp]
    have hqle : q ≤ 1000000 / (f * 64) := by
      rw [Nat.le_div_iff_mul_le hfpos]
      exact (le_effectiveHz_iff f q hq1).mp hq
    have hmono := effectiveHz_antitone q (1000000 / (f * 64)) hq1 hqle
    rw [abs_of_nonneg (sub_nonneg.mpr hge), abs_of_nonneg (sub_nonneg.mpr hq)]
    exact sub_le_sub_right hmono _

theorem set_frequency_closest_from_above_witness :
    1 ≤ 1000 ∧ 1000 ≤ 3000 ∧
    ∃ r, set_frequency_reload 1000 = some r ∧ ((1000 : ℕ) : ℚ) ≤ effectiveHz (r + 1) ∧
      ∀ q : Nat, 1 ≤ q → q ≤ 65536 → ((1000 : ℕ) : ℚ) ≤ effectiveHz q →
        |effectiveHz (r + 1) - ((1000 : ℕ) : ℚ)| ≤ |effectiveHz q - ((1000 : ℕ) : ℚ)| :=
  ⟨by decide, by decide, set_frequency_closest_from_above 1000 (by decide) (by decide)⟩

/-- Claim C7 fails as stated. At `f = 1000` the code writes the reload value
14, an effective frequency of `1000000 / 960`, about 1041.7 Hz, while the
period `q = 16` gives `1000000 / 1024`, about 976.6 Hz, which is closer to
1000 Hz. -/
theorem set_frequency_not_closest :
    set_frequency_reload 1000 = some 14 ∧
    ¬ (|effectiveHz (14 + 1) - ((1000 : ℕ) : ℚ)| ≤ |effectiveHz 16 - ((1000 : ℕ) : ℚ)|) := by
  refine ⟨by decide, ?_⟩
  have e1 : effectiveHz (14 + 1) - ((1000 : ℕ) : ℚ) = 125 / 3 := by
    norm_num [effectiveHz, WAVE_CLK_HZ, LUT_SIZE]
  have e2 : effectiveHz 16 - ((1000 : ℕ) : ℚ) = -(375 / 16) := by
    norm_num [effectiveHz, WAVE_CLK_HZ, LUT_SIZE]
  rw [e1, e2, abs_neg, abs_of_pos (by norm_num), abs_of_pos (by norm_num)]
  norm_num

/-! ## Command protocol: proofs -/

theorem lit_FREQ : lit "FREQ:" = [70, 82, 69, 81, 58] := by decide
theorem lit_AMP : lit "AMP:" = [65, 77, 80, 58] := by decide
theorem lit_WAVE : lit "WAVE:" = [87, 65, 86, 69, 58] := by decide
theorem lit_EN : lit "EN:" = [69, 78, 58] := by decide
theorem lit_MEAS : lit "MEAS:" = [77, 69, 65, 83, 58] := by decide
theorem lit_SINE : lit "SINE" = [83, 73, 78, 69] := by decide
theorem lit_TRI : lit "TRI" = [84, 82, 73] := by decide
theorem lit_SQR : lit "SQR" = [83, 81, 82] := by decide
theorem lit_cAMP : lit ",AMP:" = [44, 65, 77, 80, 58] := by decide
theorem lit_cWAVE : lit ",WAVE:" = [44, 87, 65, 86, 69, 58] := by decide
theorem lit_cEN : lit ",EN:" = [44, 69, 78, 58] := by decide

/-- Every byte of a decimal numeral is an ASCII digit. -/
theorem decimal_digit (n c : Nat) (h : c ∈ decimal n) : 48 ≤ c ∧ c ≤ 57 := by
  unfold decimal at h
  by_cases hn : n = 0
  · simp [hn] at h
    omega
  · simp only [hn, if_false, List.mem_map, List.mem_reverse] at h
    obtain ⟨d, hd, rfl⟩ := h
    have := Nat.digits_lt_base (by norm_num : 1 < 10) hd
    omega

theorem decimal_ne_nil (n : Nat) : decimal n ≠ [] := by
  unfold decimal
  by_cases hn : n = 0
  · simp [hn]
  · simp only [hn, if_false]
    intro h
    have h2 : Nat.digits 10 n = [] := by simpa using h
    exact (Nat.digits_ne_nil_iff_ne_zero.mpr hn) h2

theorem decimal_length_le (n m : Nat) (h : n ≤ m) (hm : m ≠ 0) :
    (decimal n).length ≤ (Nat.digits 10 m).length := by
  unfold decimal
  by_cases hn : n = 0
  · simp only [hn, if_true, List.length_singleton]
    have hne : Nat.digits 10 m ≠ [] := Nat.digits_ne_nil_iff_ne_zero.mpr hm
    exact List.length_pos.mpr hne
  · simp only [hn, if_false, List.length_map, List.length_reverse]
    exact Nat.le_digits_len_le 10 n m h

theorem atoi_digits_map (ds : List Nat) (hd : ∀ d ∈ ds, d < 10) :
    ∀ acc, atoi_digits acc (ds.map (· + 48)) = ds.foldl (fun a d => a * 10 + d) acc := by
  induction ds with
  | nil => intro acc; rfl
  | cons d ds ih =>
    intro acc
    have hd0 : d < 10 := hd d (List.mem_cons_self _ _)
    have hc : 48 ≤ d + 48 ∧ d + 48 ≤ 57 := by omega
    simp only [List.map_cons, atoi_digits, hc, true_and, and_self, if_true, List.foldl_cons]
    rw [ih (fun x hx => hd x (List.mem_cons_of_mem _ hx))]
    simp

theorem atoi_digits_decimal (n : Nat) : atoi_digits 0 (decimal n) = n := by
  unfold decimal
  by_cases hn : n = 0
  · subst hn
    decide
  · simp only [hn, if_false]
    rw [atoi_digits_map _ (fun d hd =>
      Nat.digits_lt_base (by norm_num : 1 < 10) (List.mem_reverse.mp hd))]
    rw [List.foldl_reverse]
    have h := Nat.ofDigits_digits 10 n
    rw [Nat.ofDigits_eq_foldr] at h
    conv_rhs => rw [← h]
    apply List.foldr_ext
    intro d a _
    simp
    ring

/-- A string that starts with a digit has no white space or sign for `atoi`
to skip. -/
theorem atoi_of_digit (c : Nat) (cs : List Nat) (h : 48 ≤ c ∧ c ≤ 57) :
    atoi (c :: cs) = (atoi_digits 0 (c :: cs) : Int) := by
  unfold atoi
  have hsp : isspace c = false := by
    unfold isspace
    simp
    omega
  have hdw : (c :: cs).dropWhile isspace = c :: cs := by
    simp [List.dropWhile, hsp]
  rw [hdw]
  split
  · rename_i heq
    injection heq with h1 _
    omega
  · rename_i heq
    injection heq with h1 _
    omega
  · rfl

/-- The roundtrip of `atoi` on decimal numerals. -/
theorem atoi_decimal (n : Nat) : atoi (decimal n) = (n : Int) := by
  have hne := decimal_ne_nil n
  have hdig := decimal_digit n
  have hval := atoi_digits_decimal n
  generalize decimal n = l at hne hdig hval
  cases l with
  | nil => exact absurd rfl hne
  | cons c cs =>
    rw [atoi_of_digit c cs (hdig c (List.mem_cons_self _ _)), hval]

/-- Bytes other than NUL and the comma extend the token being read. -/
theorem strtok_tokens_append (t : List Nat) (ht : ∀ c ∈ t, c ≠ 0 ∧ c ≠ 44) :
    ∀ (acc rest : List Nat), strtok_tokens acc (t ++ rest) = strtok_tokens (acc ++ t) rest := by
  induction t with
  | nil => intro acc rest; simp
  | cons c cs ih =>
    intro acc rest
    have hc := ht c (List.mem_cons_self _ _)
    have hc0 : ¬ (c = 0) := hc.1
    have hc1 : ¬ (c = 44) := hc.2
    rw [List.cons_append]
    simp only [strtok_tokens, hc0, hc1, if_false]
    rw [ih (fun x hx => ht x (List.mem_cons_of_mem _ hx))]
    simp

/-- A non-empty token followed by a comma is returned, and tokenising goes
on after the comma. -/
theorem strtok_tokens_comma (t rest : List Nat) (hne : t ≠ [])
    (ht : ∀ c ∈ t, c ≠ 0 ∧ c ≠ 44) :
    strtok_tokens [] (t ++ 44 :: rest) = t :: strtok_tokens [] rest := by
  rw [strtok_tokens_append t ht]
  simp [strtok_tokens, hne]

/-- A non-empty token followed by NUL is the last one. -/
theorem strtok_tokens_nul (t rest : List Nat) (hne : t ≠ [])
    (ht : ∀ c ∈ t, c ≠ 0 ∧ c ≠ 44) :
    strtok_tokens [] (t ++ 0 :: rest) = [t] := by
  rw [strtok_tokens_append t ht]
  simp [strtok_tokens, hne]

theorem poll_uart_commands_append (xs : List Nat) :
    ∀ (s : FwState) (ys : List Nat), poll_uart_commands s (xs ++ ys) =
      (poll_uart_commands s xs).bind (fun s1 => poll_uart_commands s1 ys) := by
  induction xs with
  | nil => intro s ys; rfl
  | cons c cs ih =>
    intro s ys
    rw [List.cons_append]
    simp only [poll_uart_commands]
    cases hb : poll_byte s c with
    | none => rfl
    | some s1 => exact ih s1 ys

/-- Bytes that are not terminators are appended to the line buffer while
there is room for them. -/
theorem poll_fill (bs : List Nat) :
    ∀ (s : FwState) (pre rest : List Nat), s.cmdBuf = pre ++ rest → s.cmdLen = pre.length →
      pre.length + bs.length ≤ 63 → bs.length ≤ rest.length →
      (∀ c ∈ bs, c < 256 ∧ c ≠ 13 ∧ c ≠ 10) →
      poll_uart_commands s bs = some { s with
        cmdBuf := pre ++ bs ++ rest.drop bs.length
        cmdLen := pre.length + bs.length } := by
  induction bs with
  | nil =>
    intro s pre rest hb hl _ _ _
    simp only [poll_uart_commands, List.append_nil, List.length_nil, List.drop_zero, Nat.add_zero]
    rw [← hb, ← hl]
  | cons c cs ih =>
    intro s pre rest hb hl hlen hrest hcs
    obtain ⟨hc1, hc2, hc3⟩ := hcs c (List.mem_cons_self _ _)
    have hlen' : pre.length + (cs.length + 1) ≤ 63 := by simpa using hlen
    cases rest with
    | nil => simp at hrest
    | cons r rest' =>
      have hmod : c % 256 = c := Nat.mod_eq_of_lt hc1
      have hterm : ¬ (c = 13 ∨ c = 10) := by omega
      have hroom : s.cmdLen < CMD_BUF_LEN - 1 := by
        show s.cmdLen < 63
        omega
      have hstep : poll_byte s c = some { s with
          cmdBuf := (pre ++ [c]) ++ rest', cmdLen := (pre ++ [c]).length } := by
        unfold poll_byte
        simp only [hmod, hterm, if_false, hroom, if_true]
        have e1 : (s.cmdLen + 1) % 65536 = s.cmdLen + 1 := Nat.mod_eq_of_lt (by omega)
        rw [e1, hb, hl]
        simp
      simp only [poll_uart_commands, hstep]
      rw [ih _ (pre ++ [c]) rest' rfl rfl (by simp; omega) (by simpa using hrest)
        (fun x hx => hcs x (List.mem_cons_of_mem _ hx))]
      simp [Nat.add_assoc, Nat.add_comm 1]

/-- Terminators received while the line buffer is empty change nothing. -/
theorem poll_terminators (tail : List Nat) (ht : ∀ c ∈ tail, c = 13 ∨ c = 10) :
    ∀ s : FwState, s.cmdLen = 0 → poll_uart_commands s tail = some s := by
  induction tail with
  | nil => intro s _; rfl
  | cons c cs ih =>
    intro s hs
    have hc := ht c (List.mem_cons_self _ _)
    have hmod : c % 256 = c := Nat.mod_eq_of_lt (by omega)
    have hstep : poll_byte s c = some s := by
      unfold poll_byte
      simp [hmod, hc, hs]
    simp only [poll_uart_commands, hstep]
    exact ih (fun x hx => ht x (List.mem_cons_of_mem _ hx)) s hs

theorem toU32_natCast (n : Nat) (h : n < 4294967296) : toU32 (n : Int) = n := by
  unfold toU32
  have : ((n : Int) % 4294967296) = (n : Int) := Int.emod_eq_of_lt (by omega) (by omega)
  rw [this]
  simp

/-- The token `FREQ:<n>` calls `set_frequency(n)`. -/
theorem process_token_freq (s : FwState) (f : Nat) (hf : f < 4294967296) :
    process_token s (lit "FREQ:" ++ decimal f) = set_frequency s f := by
  unfold process_token
  have h1 : strncmp_eq (lit "FREQ:" ++ decimal f) (lit "FREQ:") 5 = true := by
    simp [strncmp_eq, lit_FREQ]
  have h2 : (lit "FREQ:" ++ decimal f).drop 5 = decimal f := by
    simp [lit_FREQ]
  simp only [h1, if_true, h2, atoi_decimal, toU32_natCast f hf]

/-- The token `AMP:<n>` with `n <= 100` calls `set_amplitude(n)`. -/
theorem process_token_amp (s : FwState) (a : Nat) (ha : a ≤ 100) :
    process_token s (lit "AMP:" ++ decimal a) = some (set_amplitude s a) := by
  unfold process_token
  have h0 : strncmp_eq (lit "AMP:" ++ decimal a) (lit "FREQ:") 5 = false := by
    simp [strncmp_eq, lit_FREQ, lit_AMP]
  have h1 : strncmp_eq (lit "AMP:" ++ decimal a) (lit "AMP:") 4 = true := by
    simp [strncmp_eq, lit_AMP]
  have h2 : (lit "AMP:" ++ decimal a).drop 4 = decimal a := by
    simp [lit_AMP]
  have h3 : ¬ ((a : Int) < 0) := by omega
  have h4 : ¬ ((a : Int) > 100) := by omega
  have h5 : (a : Int).toNat % 256 = a := by
    rw [Int.toNat_ofNat]
    exact Nat.mod_eq_of_lt (by omega)
  simp only [h0, h1, if_true, h2, atoi_decimal, h3, h4, if_false, h5, Bool.false_eq_true]

/-- The tokens `WAVE:SINE`, `WAVE:TRI` and `WAVE:SQR` call `set_wave` with
mode 0, 1 and 2. -/
theorem process_token_wave (s : FwState) (w : List Nat) (m : Nat)
    (hw : (w = lit "SINE" ∧ m = 0) ∨ (w = lit "TRI" ∧ m = 1) ∨ (w = lit "SQR" ∧ m = 2)) :
    process_token s (lit "WAVE:" ++ w) = some (set_wave s m) := by
  rcases hw with ⟨rfl, rfl⟩ | ⟨rfl, rfl⟩ | ⟨rfl, rfl⟩ <;>
    simp [process_token, strncmp_eq, strcmp_eq, lit_FREQ, lit_AMP, lit_WAVE, lit_SINE, lit_TRI,
      lit_SQR]

theorem decimal_zero : decimal 0 = [48] := by decide
theorem decimal_one : decimal 1 = [49] := by simp [decimal]

/-- The token `EN:1` sets `wave_enabled`; the token `EN:0` clears it, writes
0 to the DAC and resets `waveIndex`. -/
theorem process_token_en (s : FwState) :
    process_token s (lit "EN:" ++ decimal 1) = some { s with wave_enabled := 1 } ∧
    process_token s (lit "EN:" ++ decimal 0) = some { s with
      wave_enabled := 0, hw := s.hw ++ [HwEvent.dacSetValue 0], waveIndex := 0 } := by
  have a1 : atoi [49] = 1 := by decide
  have a0 : atoi [48] = 0 := by decide
  constructor
  · simp [process_token, strncmp_eq, strcmp_eq, lit_FREQ, lit_AMP, lit_WAVE, lit_EN, decimal_one,
      a1]
  · simp [process_token, strncmp_eq, strcmp_eq, lit_FREQ, lit_AMP, lit_WAVE, lit_EN, decimal_zero,
      a0]

/-- Changing the amplitude and then the mode leaves the table of the new
mode scaled to the new amplitude. -/
theorem set_wave_set_amplitude (u : FwState) (a m : Nat) (hl : u.waveLUT.length = LUT_SIZE)
    (ha : a ≤ 100) (hm : m < 256)
    (hb : ∀ x ∈ selectedBase { u with waveMode := m }, x < 256) :
    set_wave (set_amplitude u a) m = { u with
      amp_percent := a
      waveMode := m
      waveLUT := ((List.range LUT_SIZE).map
        (fun i => (selectedBase { u with waveMode := m }).getD i 0 * a / 100)) } := by
  have ha1 : a % 256 = a := Nat.mod_eq_of_lt (by omega)
  have hm1 : m % 256 = m := Nat.mod_eq_of_lt hm
  have ha2 : ¬ (a > 100) := by omega
  have e1 : set_amplitude u a = { u with
      amp_percent := a
      waveLUT := ((List.range LUT_SIZE).map
        (fun i => scaleSample ((selectedBase u).getD i 0) a)) } := by
    unfold set_amplitude
    simp only [ha1, ha2, if_false]
    exact rebuild_lut_eq { u with amp_percent := a } hl ha
  rw [e1]
  unfold set_wave
  rw [hm1]
  rw [rebuild_lut_eq { ({ u with
      amp_percent := a
      waveLUT := ((List.range LUT_SIZE).map
        (fun i => scaleSample ((selectedBase u).getD i 0) a)) } : FwState) with waveMode := m }
    (by simp) ha]
  have e2 : (List.range LUT_SIZE).map
      (fun i => scaleSample ((selectedBase { u with waveMode := m }).getD i 0) a)
      = (List.range LUT_SIZE).map
        (fun i => (selectedBase { u with waveMode := m }).getD i 0 * a / 100) := by
    apply List.map_congr_left
    intro i _
    exact (scaleSample_of_byte _ _ (getD_lt_of_forall _ i hb) ha).1
  simp only [selectedBase] at e2 ⊢
  rw [e2]

theorem configLine_split (f a : Nat) (w : List Nat) (e : Nat) :
    configLine f a w e = (lit "FREQ:" ++ decimal f) ++ 44 :: ((lit "AMP:" ++ decimal a) ++
      44 :: ((lit "WAVE:" ++ w) ++ 44 :: (lit "EN:" ++ decimal e))) := by
  simp [configLine, lit_cAMP, lit_cWAVE, lit_cEN, lit_FREQ, lit_AMP, lit_WAVE, lit_EN,
    List.append_assoc]

theorem wave_name_chars (w : List Nat) (m : Nat)
    (hw : (w = lit "SINE" ∧ m = 0) ∨ (w = lit "TRI" ∧ m = 1) ∨ (w = lit "SQR" ∧ m = 2)) :
    w.length ≤ 4 ∧ m < 256 ∧ ∀ c ∈ w, 45 ≤ c ∧ c ≤ 90 := by
  rcases hw with ⟨rfl, rfl⟩ | ⟨rfl, rfl⟩ | ⟨rfl, rfl⟩ <;> decide

/-- The bytes of a configuration line are printable and none is a
terminator; the line has between 1 and 63 bytes. -/
theorem configLine_shape (f a e m : Nat) (w : List Nat) (hf : f ≤ 3000) (ha : a ≤ 100)
    (he : e ≤ 1)
    (hw : (w = lit "SINE" ∧ m = 0) ∨ (w = lit "TRI" ∧ m = 1) ∨ (w = lit "SQR" ∧ m = 2)) :
    (∀ c ∈ configLine f a w e, 44 ≤ c ∧ c ≤ 90) ∧
    1 ≤ (configLine f a w e).length ∧ (configLine f a w e).length ≤ 63 := by
  obtain ⟨hwl, _, hwc⟩ := wave_name_chars w m hw
  have l3000 : (Nat.digits 10 3000).length = 4 := by norm_num
  have l100 : (Nat.digits 10 100).length = 3 := by norm_num
  have l1 : (Nat.digits 10 1).length = 1 := by norm_num
  have hlf := decimal_length_le f 3000 hf (by decide)
  have hla := decimal_length_le a 100 ha (by decide)
  have hle := decimal_length_le e 1 he (by decide)
  refine ⟨?_, ?_, ?_⟩
  · intro c hc
    rw [configLine_split] at hc
    simp only [List.mem_append, List.mem_cons, lit_FREQ, lit_AMP, lit_WAVE, lit_EN] at hc
    rcases hc with (h | h) | h | (h | h) | h | (h | h) | h | h | h
    · simp at h; omega
    · have := decimal_digit f c h; omega
    · omega
    · simp at h; omega
    · have := decimal_digit a c h; omega
    · omega
    · simp at h; omega
    · have := hwc c h; omega
    · omega
    · simp at h; omega
    · have := decimal_digit e c h; omega
  · rw [configLine_split]
    simp [lit_FREQ]
  · rw [configLine_split]
    simp only [List.length_append, List.length_cons, lit_FREQ, lit_AMP, lit_WAVE, lit_EN,
      List.length_nil]
    omega

/-- The tokens `strtok` finds in a configuration line. -/
theorem configLine_tokens (f a e m : Nat) (w rest : List Nat)
    (hw : (w = lit "SINE" ∧ m = 0) ∨ (w = lit "TRI" ∧ m = 1) ∨ (w = lit "SQR" ∧ m = 2)) :
    strtok_tokens [] (configLine f a w e ++ 0 :: rest) =
      [lit "FREQ:" ++ decimal f, lit "AMP:" ++ decimal a, lit "WAVE:" ++ w,
       lit "EN:" ++ decimal e] := by
  obtain ⟨_, _, hwc⟩ := wave_name_chars w m hw
  have hdec : ∀ (n : Nat) (l : List Nat), (∀ c ∈ l, 45 ≤ c ∧ c ≤ 90) →
      ∀ c ∈ l ++ decimal n, c ≠ 0 ∧ c ≠ 44 := by
    intro n l hl c hc
    rcases List.mem_append.mp hc with h | h
    · have := hl c h; omega
    · have := decimal_digit n c h; omega
  have hw2 : ∀ c ∈ lit "WAVE:" ++ w, c ≠ 0 ∧ c ≠ 44 := by
    intro c hc
    rcases List.mem_append.mp hc with h | h
    · rw [lit_WAVE] at h; simp at h; omega
    · have := hwc c h; omega
  have c1 : ∀ c ∈ lit "FREQ:", 45 ≤ c ∧ c ≤ 90 := by decide
  have c2 : ∀ c ∈ lit "AMP:", 45 ≤ c ∧ c ≤ 90 := by decide
  have c4 : ∀ c ∈ lit "EN:", 45 ≤ c ∧ c ≤ 90 := by decide
  have n1 : lit "FREQ:" ++ decimal f ≠ [] := by simp [lit_FREQ]
  have n2 : lit "AMP:" ++ decimal a ≠ [] := by simp [lit_AMP]
  have n3 : lit "WAVE:" ++ w ≠ [] := by simp [lit_WAVE]
  have n4 : lit "EN:" ++ decimal e ≠ [] := by simp [lit_EN]
  rw [configLine_split]
  simp only [List.append_assoc, List.cons_append]
  rw [← List.append_assoc, strtok_tokens_comma _ _ n1 (hdec f _ c1)]
  rw [← List.append_assoc, strtok_tokens_comma _ _ n2 (hdec a _ c2)]
  rw [← List.append_assoc, strtok_tokens_comma _ _ n3 hw2]
  rw [← List.append_assoc, strtok_tokens_nul _ _ n4 (hdec e _ c4)]

/-- The four tokens of a configuration line, applied in order. -/
theorem process_config_tokens (v : FwState) (f a e m p : Nat) (w : List Nat)
    (hv : v.waveLUT.length = LUT_SIZE)
    (hb : ∀ x ∈ selectedBase { v with waveMode := m }, x < 256)
    (hf : f ≤ 3000) (ha : a ≤ 100) (he : e = 0 ∨ e = 1)
    (hw : (w = lit "SINE" ∧ m = 0) ∨ (w = lit "TRI" ∧ m = 1) ∨ (w = lit "SQR" ∧ m = 2))
    (hp : set_frequency_reload f = some p) :
    process_tokens v [lit "FREQ:" ++ decimal f, lit "AMP:" ++ decimal a, lit "WAVE:" ++ w,
        lit "EN:" ++ decimal e] =
      some { v with
        hw := v.hw ++ timerWrites p ++ (if e = 0 then [HwEvent.dacSetValue 0] else [])
        amp_percent := a
        waveMode := m
        waveLUT := ((List.range LUT_SIZE).map
          (fun i => (selectedBase { v with waveMode := m }).getD i 0 * a / 100))
        wave_enabled := e
        waveIndex := (if e = 0 then 0 else v.waveIndex) } := by
  obtain ⟨_, hm, _⟩ := wave_name_chars w m hw
  have h1 : process_token v (lit "FREQ:" ++ decimal f) =
      some { v with hw := v.hw ++ timerWrites p } := by
    rw [process_token_freq v f (by omega)]
    unfold set_frequency
    rw [hp]
  have h2 := process_token_amp { v with hw := v.hw ++ timerWrites p } a ha
  have h3 := process_token_wave (set_amplitude { v with hw := v.hw ++ timerWrites p } a) w m hw
  have h4 := set_wave_set_amplitude { v with hw := v.hw ++ timerWrites p } a m hv ha hm hb
  simp only [process_tokens, h1, h2, h3, h4]
  rcases he with rfl | rfl
  · rw [(process_token_en _).2]
    simp [selectedBase]
  · rw [(process_token_en _).1]
    simp [selectedBase]

/-- Claim C10. For `f` in [1,3000], `a` in [0,100], `w` one of `SINE`,
`TRI`, `SQR` and `e` in {0,1}, the bytes of the line
`FREQ:f,AMP:a,WAVE:w,EN:e` followed by one or more terminators, polled from
a state with an empty line buffer, program the timer as `set_frequency(f)`
does and leave `amp_percent = a`, `waveMode` the mode of `w`,
`wave_enabled = e` and `waveLUT` the table of that mode scaled to `a`
percent; the line buffer is empty again. -/
theorem config_line_applied (s : FwState) (f a e m : Nat) (w tail : List Nat)
    (hs : WellTyped s) (h0 : s.cmdLen = 0) (_hf1 : 1 ≤ f) (hf2 : f ≤ 3000) (ha : a ≤ 100)
    (he : e = 0 ∨ e = 1)
    (hw : (w = lit "SINE" ∧ m = 0) ∨ (w = lit "TRI" ∧ m = 1) ∨ (w = lit "SQR" ∧ m = 2))
    (ht1 : tail ≠ []) (ht2 : ∀ c ∈ tail, c = 13 ∨ c = 10) :
    ∃ s1 s2, set_frequency s f = some s1 ∧
      poll_uart_commands s (configLine f a w e ++ tail) = some s2 ∧
      s2.hw = s1.hw ++ (if e = 0 then [HwEvent.dacSetValue 0] else []) ∧
      s2.amp_percent = a ∧ s2.waveMode = m ∧ s2.wave_enabled = e ∧
      s2.waveLUT = (List.range LUT_SIZE).map
        (fun i => (selectedBase { s with waveMode := m }).getD i 0 * a / 100) ∧
      s2.cmdLen = 0 := by
  obtain ⟨_, _, _, _, _, hsin, _, htri, _, hsqr, hlut, _, _, _, _, _, _, _, _, hbuf, _, _⟩ := hs
  have hp := (set_frequency_reload_eq f).1
  generalize 1000000 / (min (max f 1) 3000 * 64) - 1 = p at hp
  have hbuf' : s.cmdBuf.length = 64 := hbuf
  have he1 : e ≤ 1 := by omega
  obtain ⟨hchars, hn1, hn2⟩ := configLine_shape f a e m w hf2 ha he1 hw
  have hbase : ∀ x ∈ selectedBase { s with waveMode := m }, x < 256 := by
    unfold selectedBase
    rcases hw with ⟨_, rfl⟩ | ⟨_, rfl⟩ | ⟨_, rfl⟩
    · simpa using hsin
    · simpa using htri
    · simpa using hsqr
  -- the line is stored in the buffer
  have hfill := poll_fill (configLine f a w e) s [] s.cmdBuf rfl h0
    (by simp only [List.length_nil]; omega) (by omega)
    (fun c hc => by have := hchars c hc; omega)
  simp only [List.nil_append, List.length_nil, Nat.zero_add] at hfill
  -- the first terminator dispatches it
  cases tail with
  | nil => exact absurd rfl ht1
  | cons t0 tl =>
    have ht0 := ht2 t0 (List.mem_cons_self _ _)
    have hmod : t0 % 256 = t0 := Nat.mod_eq_of_lt (by omega)
    have hdrop : s.cmdBuf.drop (configLine f a w e).length ≠ [] := by
      intro h
      have := List.drop_eq_nil_iff.mp h
      omega
    obtain ⟨x, rest, hxr⟩ := List.exists_cons_of_ne_nil hdrop
    have hset : (configLine f a w e ++ s.cmdBuf.drop (configLine f a w e).length).set
        (configLine f a w e).length 0 = configLine f a w e ++ 0 :: rest := by
      rw [hxr]
      simp [List.set_append]
    have htok := configLine_tokens f a e m w rest hw
    have hproc := fun B => process_config_tokens
      { s with cmdBuf := B, cmdLen := (configLine f a w e).length }
      f a e m p w hlut hbase hf2 ha he hw hp
    have hstep : ∃ B, poll_byte { s with
        cmdBuf := configLine f a w e ++ s.cmdBuf.drop (configLine f a w e).length
        cmdLen := (configLine f a w e).length } t0 =
        some { s with
          cmdBuf := B
          cmdLen := 0
          hw := s.hw ++ timerWrites p ++ (if e = 0 then [HwEvent.dacSetValue 0] else [])
          amp_percent := a
          waveMode := m
          waveLUT := ((List.range LUT_SIZE).map
            (fun i => (selectedBase { s with waveMode := m }).getD i 0 * a / 100))
          wave_enabled := e
          waveIndex := (if e = 0 then 0 else s.waveIndex) } := by
      refine ⟨strtok_buffer false (configLine f a w e ++ 0 :: rest), ?_⟩
      unfold poll_byte
      have hpos : (configLine f a w e).length > 0 := by omega
      simp only [hmod, ht0, if_true, hpos, hset, process_cmd, htok]
      rw [hproc]
      rfl
    obtain ⟨B, hstepB⟩ := hstep
    refine ⟨{ s with hw := s.hw ++ timerWrites p },
      { s with
        cmdBuf := B
        cmdLen := 0
        hw := s.hw ++ timerWrites p ++ (if e = 0 then [HwEvent.dacSetValue 0] else [])
        amp_percent := a
        waveMode := m
        waveLUT := ((List.range LUT_SIZE).map
          (fun i => (selectedBase { s with waveMode := m }).getD i 0 * a / 100))
        wave_enabled := e
        waveIndex := (if e = 0 then 0 else s.waveIndex) }, ?_, ?_, rfl, rfl, rfl, rfl, rfl, rfl⟩
    · unfold set_frequency
      rw [hp]
    · rw [poll_uart_commands_append, hfill]
      simp only [Option.bind, poll_uart_commands, hstepB]
      exact poll_terminators tl (fun c hc => ht2 c (List.mem_cons_of_mem _ hc)) _ rfl

set_option maxRecDepth 100000 in
theorem config_line_applied_witness :
    WellTyped bootTables ∧ bootTables.cmdLen = 0 ∧ 1 ≤ 500 ∧ 500 ≤ 3000 ∧ 50 ≤ 100 ∧
    ((1 : Nat) = 0 ∨ (1 : Nat) = 1) ∧
    ((lit "TRI" = lit "SINE" ∧ 1 = 0) ∨ (lit "TRI" = lit "TRI" ∧ 1 = 1) ∨
      (lit "TRI" = lit "SQR" ∧ 1 = 2)) ∧
    ([13, 10] ≠ []) ∧ (∀ c ∈ [13, 10], c = 13 ∨ c = 10) ∧
    configLine 500 50 (lit "TRI") 1 ++ [13, 10] = lit "FREQ:500,AMP:50,WAVE:TRI,EN:1\r\n" ∧
    ∃ s1 s2, set_frequency bootTables 500 = some s1 ∧
      poll_uart_commands bootTables (configLine 500 50 (lit "TRI") 1 ++ [13, 10]) = some s2 ∧
      s2.hw = s1.hw ++ (if 1 = 0 then [HwEvent.dacSetValue 0] else []) ∧
      s2.amp_percent = 50 ∧ s2.waveMode = 1 ∧ s2.wave_enabled = 1 ∧
      s2.waveLUT = (List.range LUT_SIZE).map
        (fun i => (selectedBase { bootTables with waveMode := 1 }).getD i 0 * 50 / 100) ∧
      s2.cmdLen = 0 :=
  ⟨by decide, rfl, by decide, by decide, by decide, Or.inr rfl, Or.inr (Or.inl ⟨rfl, rfl⟩),
   by decide, by decide,
   by simp [configLine, decimal, lit],
   config_line_applied bootTables 500 50 1 1 (lit "TRI") [13, 10] (by decide) rfl (by decide)
     (by decide) (by decide) (Or.inr rfl) (Or.inr (Or.inl ⟨rfl, rfl⟩)) (by decide) (by decide)⟩

/-! ## Command protocol: clamping, unknown tokens, truncation, order -/

theorem atoi_minus (cs : List Nat) : atoi (45 :: cs) = -(atoi_digits 0 cs : Int) := by
  unfold atoi
  have hdw : (45 :: cs).dropWhile isspace = 45 :: cs := by
    simp [List.dropWhile, isspace]
  rw [hdw]

/-- The roundtrip of `atoi` on signed decimal numerals. -/
theorem atoi_intDecimal (n : Int) : atoi (intDecimal n) = n := by
  unfold intDecimal
  by_cases hn : n < 0
  · simp only [hn, if_true]
    rw [atoi_minus, atoi_digits_decimal, Int.toNat_of_nonneg (by omega)]
    omega
  · simp only [hn, if_false]
    rw [atoi_decimal, Int.toNat_of_nonneg (by omega)]

/-- `set_amplitude(a)` for `a <= 100`: only `amp_percent` and `waveLUT`
change. -/
theorem set_amplitude_eq (s : FwState) (a : Nat) (hl : s.waveLUT.length = LUT_SIZE)
    (ha : a ≤ 100) :
    set_amplitude s a = { s with
      amp_percent := a
      waveLUT := ((List.range LUT_SIZE).map
        (fun i => scaleSample ((selectedBase s).getD i 0) a)) } := by
  have ha1 : a % 256 = a := Nat.mod_eq_of_lt (by omega)
  have ha2 : ¬ (a > 100) := by omega
  unfold set_amplitude
  simp only [ha1, ha2, if_false]
  exact rebuild_lut_eq { s with amp_percent := a } hl ha

/-- The token `AMP:<n>` calls `set_amplitude` with `n` clamped to [0,100]. -/
theorem process_token_amp_int (s : FwState) (n : Int) :
    process_token s (lit "AMP:" ++ intDecimal n)
      = some (set_amplitude s (max 0 (min n 100)).toNat) := by
  unfold process_token
  have h0 : strncmp_eq (lit "AMP:" ++ intDecimal n) (lit "FREQ:") 5 = false := by
    simp [strncmp_eq, lit_FREQ, lit_AMP]
  have h1 : strncmp_eq (lit "AMP:" ++ intDecimal n) (lit "AMP:") 4 = true := by
    simp [strncmp_eq, lit_AMP]
  have h2 : (lit "AMP:" ++ intDecimal n).drop 4 = intDecimal n := by
    simp [lit_AMP]
  simp only [h0, h1, if_true, h2, atoi_intDecimal, Bool.false_eq_true, if_false]
  apply congrArg some
  apply congrArg (set_amplitude s)
  by_cases hneg : n < 0
  · have e : max 0 (min n 100) = 0 := by omega
    simp [hneg, e]
  · by_cases hbig : n > 100
    · have e : max 0 (min n 100) = 100 := by omega
      simp [hneg, hbig, e]
    · have e : max 0 (min n 100) = n := by omega
      simp only [hneg, hbig, if_false, e]
      apply Nat.mod_eq_of_lt
      omega

/-- Claim C11. For every integer `n` in `int` range the token `AMP:<n>` is
accepted: it sets `amp_percent` to `n` clamped to [0,100] and refills
`waveLUT` from the selected base table at that percentage; nothing else
changes. -/
theorem amp_token_clamps (s : FwState) (n : Int) (hl : s.waveLUT.length = LUT_SIZE)
    (_hlo : -2147483648 ≤ n) (_hhi : n ≤ 2147483647) :
    (max 0 (min n 100)).toNat ≤ 100 ∧
    process_token s (lit "AMP:" ++ intDecimal n) = some { s with
      amp_percent := (max 0 (min n 100)).toNat
      waveLUT := ((List.range LUT_SIZE).map
        (fun i => scaleSample ((selectedBase s).getD i 0) (max 0 (min n 100)).toNat)) } := by
  have hc : (max 0 (min n 100)).toNat ≤ 100 := by omega
  refine ⟨hc, ?_⟩
  rw [process_token_amp_int, set_amplitude_eq s _ hl hc]

theorem amp_token_clamps_witness :
    bootTables.waveLUT.length = LUT_SIZE ∧ (-2147483648 : Int) ≤ 999 ∧
    (999 : Int) ≤ 2147483647 ∧
    lit "AMP:" ++ intDecimal 999 = lit "AMP:999" ∧
    (max 0 (min (999 : Int) 100)).toNat = 100 ∧
    (max 0 (min (999 : Int) 100)).toNat ≤ 100 ∧
    process_token bootTables (lit "AMP:" ++ intDecimal 999) = some { bootTables with
      amp_percent := (max 0 (min (999 : Int) 100)).toNat
      waveLUT := ((List.range LUT_SIZE).map
        (fun i => scaleSample ((selectedBase bootTables).getD i 0)
          (max 0 (min (999 : Int) 100)).toNat)) } :=
  ⟨by decide, by decide, by decide, by simp [intDecimal, decimal, lit], by decide,
   amp_token_clamps bootTables 999 (by decide) (by decide) (by decide)⟩

/-- A token that does not start with `p` fails the test `!strncmp(t, p, n)`,
for `n` the length of `p`. -/
theorem strncmp_eq_false (t p : List Nat) (n : Nat) (hn : p.length = n)
    (h : ∀ r, t ≠ p ++ r) : strncmp_eq t p n = false := by
  unfold strncmp_eq
  have hp : p.take n = p := List.take_of_length_le (by omega)
  rw [hp]
  apply beq_false_of_ne
  intro heq
  apply h (t.drop n)
  conv_lhs => rw [← List.take_append_drop n t]
  rw [heq]

/-- `strtok` writes nothing into a line that is a single token. -/
theorem strtok_buffer_token (t : List Nat) (ht : ∀ c ∈ t, c ≠ 0 ∧ c ≠ 44) :
    ∀ (b : Bool) (rest : List Nat), strtok_buffer b (t ++ 0 :: rest) = t ++ 0 :: rest := by
  induction t with
  | nil => intro b rest; simp [strtok_buffer]
  | cons c cs ih =>
    intro b rest
    have hc := ht c (List.mem_cons_self _ _)
    have hc0 : ¬ (c = 0) := hc.1
    have hc1 : ¬ (c = 44) := hc.2
    rw [List.cons_append]
    simp only [strtok_buffer, hc0, hc1, if_false]
    rw [ih (fun x hx => ht x (List.mem_cons_of_mem _ hx))]

/-- Claim C12. A token that starts with none of `FREQ:`, `AMP:`, `WAVE:`,
`EN:`, `MEAS:` leaves the whole state as it is, driver-call log included,
and the tokens after it are processed as if it were not there; a line that
consists of such a token alone leaves the whole state as it is. -/
theorem unknown_token_ignored (s : FwState) (t : List Nat) (ts : List (List Nat))
    (h1 : ∀ r, t ≠ lit "FREQ:" ++ r) (h2 : ∀ r, t ≠ lit "AMP:" ++ r)
    (h3 : ∀ r, t ≠ lit "WAVE:" ++ r) (h4 : ∀ r, t ≠ lit "EN:" ++ r)
    (h5 : ∀ r, t ≠ lit "MEAS:" ++ r) :
    process_token s t = some s ∧ process_tokens s (t :: ts) = process_tokens s ts ∧
    (∀ rest, t ≠ [] → (∀ c ∈ t, c ≠ 0 ∧ c ≠ 44) → s.cmdBuf = t ++ 0 :: rest →
      process_cmd s = some s) := by
  have e1 := strncmp_eq_false t (lit "FREQ:") 5 (by decide) h1
  have e2 := strncmp_eq_false t (lit "AMP:") 4 (by decide) h2
  have e3 := strncmp_eq_false t (lit "WAVE:") 5 (by decide) h3
  have e4 := strncmp_eq_false t (lit "EN:") 3 (by decide) h4
  have e5 := strncmp_eq_false t (lit "MEAS:") 5 (by decide) h5
  have key : process_token s t = some s := by
    unfold process_token
    simp only [e1, e2, e3, e4, e5, Bool.false_eq_true, if_false]
  refine ⟨key, ?_, ?_⟩
  · simp only [process_tokens, key]
  · intro rest hne hc hbuf
    unfold process_cmd
    rw [hbuf, strtok_tokens_nul t rest hne hc, strtok_buffer_token t hc, ← hbuf]
    show process_tokens s [t] = some s
    simp only [process_tokens, key]

theorem lit_FOO1 : lit "FOO:1" = [70, 79, 79, 58, 49] := by decide

set_option maxRecDepth 100000 in
theorem unknown_token_ignored_witness :
    (∀ r, lit "FOO:1" ≠ lit "FREQ:" ++ r) ∧ (∀ r, lit "FOO:1" ≠ lit "AMP:" ++ r) ∧
    (∀ r, lit "FOO:1" ≠ lit "WAVE:" ++ r) ∧ (∀ r, lit "FOO:1" ≠ lit "EN:" ++ r) ∧
    (∀ r, lit "FOO:1" ≠ lit "MEAS:" ++ r) ∧
    strtok_tokens [] (lit "FOO:1,AMP:999") = [lit "FOO:1", lit "AMP:999"] ∧
    (process_token bootTables (lit "FOO:1") = some bootTables ∧
      process_tokens bootTables [lit "FOO:1", lit "AMP:999"]
        = process_tokens bootTables [lit "AMP:999"] ∧
      (∀ rest, lit "FOO:1" ≠ [] → (∀ c ∈ lit "FOO:1", c ≠ 0 ∧ c ≠ 44) →
        bootTables.cmdBuf = lit "FOO:1" ++ 0 :: rest → process_cmd bootTables = some bootTables)) :=
  ⟨fun r h => by simp [lit_FOO1, lit_FREQ] at h,
   fun r h => by simp [lit_FOO1, lit_AMP] at h,
   fun r h => by simp [lit_FOO1, lit_WAVE] at h,
   fun r h => by simp [lit_FOO1, lit_EN] at h,
   fun r h => by simp [lit_FOO1, lit_MEAS] at h,
   by decide,
   unknown_token_ignored bootTables (lit "FOO:1") [lit "AMP:999"]
     (fun r h => by simp [lit_FOO1, lit_FREQ] at h)
     (fun r h => by simp [lit_FOO1, lit_AMP] at h)
     (fun r h => by simp [lit_FOO1, lit_WAVE] at h)
     (fun r h => by simp [lit_FOO1, lit_EN] at h)
     (fun r h => by simp [lit_FOO1, lit_MEAS] at h)⟩

/-- Bytes that arrive while the line buffer is full are dropped. -/
theorem poll_full (bs : List Nat) (hb : ∀ c ∈ bs, c < 256 ∧ c ≠ 13 ∧ c ≠ 10) :
    ∀ s : FwState, s.cmdLen = 63 → poll_uart_commands s bs = some s := by
  induction bs with
  | nil => intro s _; rfl
  | cons c cs ih =>
    intro s hs
    obtain ⟨hc1, hc2, hc3⟩ := hb c (List.mem_cons_self _ _)
    have hmod : c % 256 = c := Nat.mod_eq_of_lt hc1
    have hterm : ¬ (c = 13 ∨ c = 10) := by omega
    have hroom : ¬ (s.cmdLen < CMD_BUF_LEN - 1) := by
      show ¬ (s.cmdLen < 63)
      omega
    have hstep : poll_byte s c = some s := by
      unfold poll_byte
      simp only [hmod, hterm, if_false, hroom]
    simp only [poll_uart_commands, hstep]
    exact ih (fun x hx => hb x (List.mem_cons_of_mem _ hx)) s hs

theorem cstr_append_nul (t rest : List Nat) (ht : ∀ c ∈ t, c ≠ 0) :
    cstr (t ++ 0 :: rest) = t := by
  unfold cstr
  induction t with
  | nil => simp
  | cons c cs ih =>
    have hc : c ≠ 0 := ht c (List.mem_cons_self _ _)
    rw [List.cons_append, List.takeWhile_cons]
    simp only [hc, ne_eq, not_false_eq_true, decide_True, if_true]
    rw [ih (fun x hx => ht x (List.mem_cons_of_mem _ hx))]

/-- Claim C13. A line of `n >= 1` bytes, none of them NUL or a terminator,
followed by a terminator and polled from an empty line buffer, is
dispatched by one call of `process_cmd`, on a buffer whose string is the
first `min(n, 63)` bytes of the line; the bytes after the 63rd are
dropped. -/
theorem line_truncated (s : FwState) (bs : List Nat) (term : Nat)
    (h0 : s.cmdLen = 0) (hl : s.cmdBuf.length = CMD_BUF_LEN) (hn : 1 ≤ bs.length)
    (hb : ∀ c ∈ bs, c < 256 ∧ c ≠ 0 ∧ c ≠ 13 ∧ c ≠ 10) (ht : term = 13 ∨ term = 10) :
    cstr (bs.take 63 ++ 0 :: s.cmdBuf.drop (min bs.length 63 + 1)) = bs.take 63 ∧
    (bs.take 63).length = min bs.length 63 ∧
    poll_uart_commands s (bs ++ [term]) =
      (process_cmd { s with
        cmdBuf := bs.take 63 ++ 0 :: s.cmdBuf.drop (min bs.length 63 + 1)
        cmdLen := min bs.length 63 }).map (fun s1 => { s1 with cmdLen := 0 }) := by
  have hl' : s.cmdBuf.length = 64 := hl
  have hm : (bs.take 63).length = min bs.length 63 := by
    rw [List.length_take]
    omega
  have hb1 : ∀ c ∈ bs.take 63, c < 256 ∧ c ≠ 13 ∧ c ≠ 10 := by
    intro c hc
    have := hb c (List.mem_of_mem_take hc)
    omega
  have hb2 : ∀ c ∈ bs.drop 63, c < 256 ∧ c ≠ 13 ∧ c ≠ 10 := by
    intro c hc
    have := hb c (List.mem_of_mem_drop hc)
    omega
  refine ⟨cstr_append_nul _ _ (fun c hc => (hb c (List.mem_of_mem_take hc)).2.1), hm, ?_⟩
  -- the first 63 bytes are stored
  have hfill := poll_fill (bs.take 63) s [] s.cmdBuf rfl h0
    (by simp only [List.length_nil]; omega) (by omega) hb1
  simp only [List.nil_append, List.length_nil, Nat.zero_add, hm] at hfill
  -- the others are dropped
  have hrest : poll_uart_commands { s with
      cmdBuf := bs.take 63 ++ s.cmdBuf.drop (min bs.length 63)
      cmdLen := min bs.length 63 } (bs.drop 63) = some { s with
      cmdBuf := bs.take 63 ++ s.cmdBuf.drop (min bs.length 63)
      cmdLen := min bs.length 63 } := by
    rcases Nat.lt_or_ge 63 bs.length with hlong | hshort
    · exact poll_full _ hb2 _ (by show min bs.length 63 = 63; omega)
    · rw [List.drop_eq_nil_of_le hshort]
      rfl
  -- the terminator dispatches the line
  have hmod : term % 256 = term := Nat.mod_eq_of_lt (by omega)
  have hdrop : s.cmdBuf.drop (min bs.length 63) ≠ [] := by
    intro h
    have := List.drop_eq_nil_iff.mp h
    omega
  obtain ⟨x, rest, hxr⟩ := List.exists_cons_of_ne_nil hdrop
  have hrest2 : s.cmdBuf.drop (min bs.length 63 + 1) = rest := by
    rw [← List.drop_drop, hxr]
    rfl
  have hset : (bs.take 63 ++ s.cmdBuf.drop (min bs.length 63)).set (min bs.length 63) 0
      = bs.take 63 ++ 0 :: rest := by
    rw [hxr]
    simp [List.set_append, hm]
  have hpos : min bs.length 63 > 0 := by omega
  have hstep : poll_byte { s with
      cmdBuf := bs.take 63 ++ s.cmdBuf.drop (min bs.length 63)
      cmdLen := min bs.length 63 } term =
      (process_cmd { s with
        cmdBuf := bs.take 63 ++ 0 :: rest
        cmdLen := min bs.length 63 }).map (fun s1 => { s1 with cmdLen := 0 }) := by
    unfold poll_byte
    simp only [hmod, ht, if_true, hpos, hset]
    cases process_cmd { s with
      cmdBuf := bs.take 63 ++ 0 :: rest, cmdLen := min bs.length 63 } <;> rfl
  have hsplit : bs ++ [term] = bs.take 63 ++ (bs.drop 63 ++ [term]) := by
    rw [← List.append_assoc, List.take_append_drop]
  rw [hsplit, poll_uart_commands_append, hfill]
  simp only [Option.bind]
  rw [poll_uart_commands_append, hrest]
  simp only [Option.bind, poll_uart_commands, hstep, hrest2]
  cases (process_cmd { s with
    cmdBuf := bs.take 63 ++ 0 :: rest, cmdLen := min bs.length 63 }) <;> rfl

theorem line_truncated_witness :
    initState.cmdLen = 0 ∧ initState.cmdBuf.length = CMD_BUF_LEN ∧
    1 ≤ (List.replicate 70 65).length ∧
    (∀ c ∈ List.replicate 70 65, c < 256 ∧ c ≠ 0 ∧ c ≠ 13 ∧ c ≠ 10) ∧
    ((10 : Nat) = 13 ∨ (10 : Nat) = 10) ∧
    (List.replicate 70 65).take 63 = List.replicate 63 65 ∧
    (cstr ((List.replicate 70 65).take 63 ++
        0 :: initState.cmdBuf.drop (min (List.replicate 70 65).length 63 + 1))
      = (List.replicate 70 65).take 63 ∧
    ((List.replicate 70 65).take 63).length = min (List.replicate 70 65).length 63 ∧
    poll_uart_commands initState (List.replicate 70 65 ++ [10]) =
      (process_cmd { initState with
        cmdBuf := (List.replicate 70 65).take 63 ++
          0 :: initState.cmdBuf.drop (min (List.replicate 70 65).length 63 + 1)
        cmdLen := min (List.replicate 70 65).length 63 }).map
        (fun s1 => { s1 with cmdLen := 0 })) :=
  ⟨rfl, by decide, by decide,
   fun c hc => by rw [List.eq_of_mem_replicate hc]; decide,
   Or.inr rfl, by decide,
   line_truncated initState (List.replicate 70 65) 10 rfl (by decide) (by decide)
     (fun c hc => by rw [List.eq_of_mem_replicate hc]; decide) (Or.inr rfl)⟩

/-- The tokens `strtok` finds in a line of non-empty tokens joined by
commas are these tokens, in order. -/
theorem strtok_tokens_join (rest : List Nat) :
    ∀ ts : List (List Nat), (∀ t ∈ ts, t ≠ [] ∧ ∀ c ∈ t, c ≠ 0 ∧ c ≠ 44) →
      strtok_tokens [] (joinTokens ts ++ 0 :: rest) = ts
  | [], _ => by simp [joinTokens, strtok_tokens]
  | [t], h => by
    have ht := h t (List.mem_cons_self _ _)
    simp only [joinTokens]
    exact strtok_tokens_nul t rest ht.1 ht.2
  | t :: u :: ts, h => by
    have ht := h t (List.mem_cons_self _ _)
    have ih := strtok_tokens_join rest (u :: ts) (fun x hx => h x (List.mem_cons_of_mem _ hx))
    simp only [joinTokens, List.append_assoc, List.cons_append]
    rw [strtok_tokens_comma t _ ht.1 ht.2]
    simp only [joinTokens] at ih
    rw [ih]

theorem process_tokens_eq_foldlM (ts : List (List Nat)) :
    ∀ s : FwState, process_tokens s ts = ts.foldlM process_token s := by
  induction ts with
  | nil => intro s; rfl
  | cons t ts ih =>
    intro s
    rw [List.foldlM_cons]
    simp only [process_tokens]
    cases h : process_token s t with
    | none => rfl
    | some s1 => exact ih s1

/-- Claim C14. For a line of non-empty comma-free tokens `t1,...,tn` joined
by commas, `process_cmd` applies the effect of `t1`, then of `t2`, and so
on up to `tn`, each to the state the previous one left. -/
theorem tokens_in_order (s : FwState) (ts : List (List Nat)) (rest : List Nat)
    (hts : ∀ t ∈ ts, t ≠ [] ∧ ∀ c ∈ t, c ≠ 0 ∧ c ≠ 44)
    (hbuf : s.cmdBuf = joinTokens ts ++ 0 :: rest) :
    process_cmd s =
      ts.foldlM process_token { s with cmdBuf := strtok_buffer false s.cmdBuf } := by
  unfold process_cmd
  rw [process_tokens_eq_foldlM]
  conv_lhs => rw [hbuf, strtok_tokens_join rest ts hts, ← hbuf]

set_option maxRecDepth 100000 in
theorem tokens_in_order_witness :
    (∀ t ∈ [lit "AMP:10", lit "AMP:20"], t ≠ [] ∧ ∀ c ∈ t, c ≠ 0 ∧ c ≠ 44) ∧
    ampTwiceState.cmdBuf = joinTokens [lit "AMP:10", lit "AMP:20"] ++ 0 :: List.replicate 50 0 ∧
    cstr ampTwiceState.cmdBuf = lit "AMP:10,AMP:20" ∧
    process_cmd ampTwiceState =
      [lit "AMP:10", lit "AMP:20"].foldlM process_token
        { ampTwiceState with cmdBuf := strtok_buffer false ampTwiceState.cmdBuf } ∧
    (process_cmd ampTwiceState).map (fun s1 => s1.amp_percent) = some 20 :=
  ⟨by decide, by decide, by decide,
   tokens_in_order ampTwiceState [lit "AMP:10", lit "AMP:20"] (List.replicate 50 0)
     (by decide) (by decide),
   by decide⟩

/-! ## Enable and disable -/

theorem tickRun_succ_last (k : Nat) :
    ∀ s : FwState, tickRun (k + 1) s = WaveTimer_ISR (tickRun k s) := by
  induction k with
  | zero => intro s; rfl
  | succ k ih =>
    intro s
    show tickRun (k + 1) (WaveTimer_ISR s) = WaveTimer_ISR (tickRun k (WaveTimer_ISR s))
    exact ih (WaveTimer_ISR s)

theorem tick_disabled (s : FwState) (h : s.wave_enabled = 0) :
    WaveTimer_ISR s =
      { s with hw := s.hw ++ [HwEvent.timerReadStatus, HwEvent.dacSetValue 0] } := by
  simp [WaveTimer_ISR, h]

theorem tickRun_disabled (k : Nat) :
    ∀ s : FwState, s.wave_enabled = 0 →
      (tickRun k s).wave_enabled = 0 ∧ (tickRun k s).waveIndex = s.waveIndex ∧
      (tickRun k s).waveLUT = s.waveLUT := by
  induction k with
  | zero => intro s h; exact ⟨h, rfl, rfl⟩
  | succ k ih =>
    intro s h
    show (tickRun k (WaveTimer_ISR s)).wave_enabled = 0 ∧ _ ∧ _
    have hs := tick_disabled s h
    have h2 := ih (WaveTimer_ISR s) (by rw [hs]; exact h)
    have e1 : (WaveTimer_ISR s).waveIndex = s.waveIndex := by rw [hs]
    have e2 : (WaveTimer_ISR s).waveLUT = s.waveLUT := by rw [hs]
    exact ⟨h2.1, h2.2.1.trans e1, h2.2.2.trans e2⟩

theorem lit_EN0 : lit "EN:0" = [69, 78, 58, 48] := by decide
theorem lit_EN1 : lit "EN:1" = [69, 78, 58, 49] := by decide

/-- Claim C15. The token `EN:0` leaves `wave_enabled = 0` and
`waveIndex = 0` and writes 0 to the DAC. Every timer tick after it reads the
status register, writes 0 to the DAC and leaves `waveIndex` at 0. After any
number `k` of such ticks the token `EN:1` sets `wave_enabled = 1`, and the
first tick after it writes `waveLUT[0]` to the DAC and sets `waveIndex`
to 1. -/
theorem disable_then_enable (s : FwState) (k : Nat) :
    ∃ s0 s1, process_token s (lit "EN:0") = some s0 ∧
      s0.wave_enabled = 0 ∧ s0.waveIndex = 0 ∧ s0.hw = s.hw ++ [HwEvent.dacSetValue 0] ∧
      (∀ j, (tickRun j s0).wave_enabled = 0 ∧ (tickRun j s0).waveIndex = 0 ∧
        tickRun (j + 1) s0 = { tickRun j s0 with
          hw := (tickRun j s0).hw ++ [HwEvent.timerReadStatus, HwEvent.dacSetValue 0] }) ∧
      process_token (tickRun k s0) (lit "EN:1") = some s1 ∧
      s1 = { tickRun k s0 with wave_enabled := 1 } ∧ s1.waveLUT = s.waveLUT ∧
      WaveTimer_ISR s1 = { s1 with
        hw := s1.hw ++ [HwEvent.timerReadStatus, HwEvent.dacSetValue (s1.waveLUT.getD 0 0)]
        waveIndex := 1 } := by
  have a1 : atoi [49] = 1 := by decide
  have a0 : atoi [48] = 0 := by decide
  have hoff : ∀ u : FwState, process_token u (lit "EN:0") = some { u with
      wave_enabled := 0, hw := u.hw ++ [HwEvent.dacSetValue 0], waveIndex := 0 } := by
    intro u
    simp [process_token, strncmp_eq, strcmp_eq, lit_FREQ, lit_AMP, lit_WAVE, lit_EN, lit_EN0, a0]
  have hon : ∀ u : FwState, process_token u (lit "EN:1") = some { u with wave_enabled := 1 } := by
    intro u
    simp [process_token, strncmp_eq, strcmp_eq, lit_FREQ, lit_AMP, lit_WAVE, lit_EN, lit_EN1, a1]
  have hrun := fun j => tickRun_disabled j { s with
    wave_enabled := 0, hw := s.hw ++ [HwEvent.dacSetValue 0], waveIndex := 0 } rfl
  refine ⟨_, _, hoff s, rfl, rfl, rfl, ?_, hon _, rfl, (hrun k).2.2, ?_⟩
  · intro j
    refine ⟨(hrun j).1, (hrun j).2.1, ?_⟩
    rw [tickRun_succ_last]
    exact tick_disabled _ (hrun j).1
  · have hidx := (hrun k).2.1
    simp [WaveTimer_ISR, hidx, -List.getD_eq_getElem?_getD]

/-! ## Measurement engine: proofs -/

/-- A polling phase that meets the target at its read number `k`, after
`k` reads below it, returns `10 * k` after `k` delays. -/
theorem wait_loop_hit (adc : Nat → Int) (target : Int) (k : Nat) :
    ∀ (fuel j pos : Nat) (s : FwState), 10 * (j + k) < 500000 → k < fuel →
      (∀ i, i < k → adc (pos + i) < target) → target ≤ adc (pos + k) →
      wait_until_mv_loop adc target 500000 fuel (10 * j) pos s =
        some (10 * (j + k), pos + k + 1,
          { s with hw := s.hw ++ List.replicate k (HwEvent.delayUs SAMPLE_US) }) := by
  induction k with
  | zero =>
    intro fuel j pos s hj hf _ hhit
    obtain ⟨f, rfl⟩ := Nat.exists_eq_succ_of_ne_zero (by omega : fuel ≠ 0)
    have h1 : 10 * j < 500000 := by omega
    have h2 : adc pos ≥ target := hhit
    simp only [wait_until_mv_loop, h1, h2, if_true, List.replicate_zero, List.append_nil,
      Nat.add_zero]
  | succ k ih =>
    intro fuel j pos s hj hf hlow hhit
    obtain ⟨f, rfl⟩ := Nat.exists_eq_succ_of_ne_zero (by omega : fuel ≠ 0)
    have h1 : 10 * j < 500000 := by omega
    have h2 : ¬ (adc pos ≥ target) := by
      have := hlow 0 (by omega)
      simp only [Nat.add_zero] at this
      omega
    have h3 : (10 * j + SAMPLE_US) % 4294967296 = 10 * (j + 1) := by
      show (10 * j + 10) % 4294967296 = 10 * (j + 1)
      omega
    simp only [wait_until_mv_loop, h1, h2, if_true, if_false, h3]
    rw [ih f (j + 1) (pos + 1) _ (by omega) (by omega)
      (fun i hi => by have := hlow (i + 1) (by omega); rwa [Nat.add_assoc, Nat.add_comm 1 i])
      (by rwa [Nat.add_assoc, Nat.add_comm 1 k])]
    simp only [List.append_assoc, List.singleton_append, List.replicate_succ]
    have e1 : j + 1 + k = j + (k + 1) := by omega
    have e2 : pos + 1 + k + 1 = pos + (k + 1) + 1 := by omega
    rw [e1, e2]

/-- A polling phase whose reads all stay below the target returns the
sentinel after 50000 reads. -/
theorem wait_loop_timeout (adc : Nat → Int) (target : Int) (n : Nat) :
    ∀ (fuel j pos : Nat) (s : FwState), j + n = 50000 → n < fuel →
      (∀ i, i < n → adc (pos + i) < target) →
      wait_until_mv_loop adc target 500000 fuel (10 * j) pos s =
        some (U32_SENTINEL, pos + n,
          { s with hw := s.hw ++ List.replicate n (HwEvent.delayUs SAMPLE_US) }) := by
  induction n with
  | zero =>
    intro fuel j pos s hj hf _
    obtain ⟨f, rfl⟩ := Nat.exists_eq_succ_of_ne_zero (by omega : fuel ≠ 0)
    have h1 : ¬ (10 * j < 500000) := by omega
    simp only [wait_until_mv_loop, h1, if_false, List.replicate_zero, List.append_nil,
      Nat.add_zero]
  | succ n ih =>
    intro fuel j pos s hj hf hlow
    obtain ⟨f, rfl⟩ := Nat.exists_eq_succ_of_ne_zero (by omega : fuel ≠ 0)
    have h1 : 10 * j < 500000 := by omega
    have h2 : ¬ (adc pos ≥ target) := by
      have := hlow 0 (by omega)
      simp only [Nat.add_zero] at this
      omega
    have h3 : (10 * j + SAMPLE_US) % 4294967296 = 10 * (j + 1) := by
      show (10 * j + 10) % 4294967296 = 10 * (j + 1)
      omega
    simp only [wait_until_mv_loop, h1, h2, if_true, if_false, h3]
    rw [ih f (j + 1) (pos + 1) _ (by omega) (by omega)
      (fun i hi => by have := hlow (i + 1) (by omega); rwa [Nat.add_assoc, Nat.add_comm 1 i])]
    simp only [List.append_assoc, List.singleton_append, List.replicate_succ]
    have e2 : pos + 1 + n = pos + (n + 1) := by omega
    rw [e2]

/-- With a timeout of 500 ms and fuel for 50001 iterations a polling phase
returns: either `10 * k` for the first read `k < 50000` that meets the
target, or the sentinel when none of the first 50000 reads does. -/
theorem wait_until_mv_cases (fuel : Nat) (adc : Nat → Int) (pos : Nat) (s : FwState)
    (target : Int) (hf : 50001 ≤ fuel) :
    (∃ k, k < 50000 ∧ (∀ i, i < k → adc (pos + i) < target) ∧ target ≤ adc (pos + k) ∧
      wait_until_mv fuel adc pos s target TIMEOUT_MS =
        some (10 * k, pos + k + 1,
          { s with hw := s.hw ++ List.replicate k (HwEvent.delayUs SAMPLE_US) })) ∨
    ((∀ i, i < 50000 → adc (pos + i) < target) ∧
      wait_until_mv fuel adc pos s target TIMEOUT_MS =
        some (U32_SENTINEL, pos + 50000,
          { s with hw := s.hw ++ List.replicate 50000 (HwEvent.delayUs SAMPLE_US) })) := by
  have hto : (TIMEOUT_MS * 1000) % 4294967296 = 500000 := by decide
  unfold wait_until_mv
  rw [hto]
  by_cases h : ∃ k, k < 50000 ∧ target ≤ adc (pos + k)
  · left
    refine ⟨Nat.find h, (Nat.find_spec h).1, ?_, (Nat.find_spec h).2, ?_⟩
    · intro i hi
      have hmin := Nat.find_min h hi
      have hlt : i < 50000 := lt_trans hi (Nat.find_spec h).1
      by_contra hge
      exact hmin ⟨hlt, by omega⟩
    · have hk := (Nat.find_spec h).1
      have := wait_loop_hit adc target (Nat.find h) fuel 0 pos s (by omega) (by omega)
        (fun i hi => by
          have hmin := Nat.find_min h hi
          have hlt : i < 50000 := lt_trans hi hk
          by_contra hge
          exact hmin ⟨hlt, by omega⟩)
        (Nat.find_spec h).2
      simp only [Nat.mul_zero, Nat.zero_add] at this
      exact this
  · right
    have hlow : ∀ i, i < 50000 → adc (pos + i) < target := by
      intro i hi
      by_contra hge
      exact h ⟨i, hi, by omega⟩
    refine ⟨hlow, ?_⟩
    exact wait_loop_timeout adc target 50000 fuel 0 pos s (by omega) (by omega) hlow

/-- The capacitance in microfarads that the code computes from `dt`
microseconds, in exact arithmetic. -/
theorem measure_c_formula (dt : Nat) :
    IDAC_C_CURRENT_A * ((dt : ℚ) * (1 / 1000000)) / (((VEND_MV - VSTART_MV : Int) : ℚ) / 1000)
      * C_CAL_GAIN * 1000000 = 168 / 1000000 * (dt : ℚ) := by
  unfold IDAC_C_CURRENT_A IDAC_C_LSB_A C_CAL_GAIN
  have e1 : ((VEND_MV - VSTART_MV : Int) : ℚ) = 8 := by norm_num [VEND_MV, VSTART_MV]
  have e2 : ((IDAC_C_CODE : ℕ) : ℚ) = 12 := by norm_num [IDAC_C_CODE]
  rw [e1, e2]
  ring

/-- `Measure_C_Pin_uF` in terms of what its two polling phases return. -/
theorem measure_c_unfold (fuel : Nat) (adc : Nat → Int) (pos : Nat) (s : FwState)
    (t1 p1 t2 p2 : Nat) (s1 s2 : FwState)
    (h1 : wait_until_mv fuel adc pos (chargeStart s) VSTART_MV TIMEOUT_MS = some (t1, p1, s1))
    (h2 : wait_until_mv fuel adc p1 s1 VEND_MV TIMEOUT_MS = some (t2, p2, s2))
    (ht2 : t2 < 4294967296) :
    Measure_C_Pin_uF fuel adc pos s =
      some (if t1 = U32_SENTINEL ∨ t2 = U32_SENTINEL ∨ t2 ≤ t1 then
          (-1, p2, { s2 with hw := s2.hw ++ [HwEvent.idacSetValue 0,
            HwEvent.uartPut (lit "DBG_C: timeout or bad dt\r\n")] })
        else
          (168 / 1000000 * ((t2 - t1 : ℕ) : ℚ), p2, { s2 with hw := s2.hw ++
            [HwEvent.idacSetValue 0,
             HwEvent.uartPrintf (lit "DBG_C: dt=%lu us, C=%.3f uF\r\n")
               [((t2 - t1 : ℕ) : ℚ), 168 / 1000000 * ((t2 - t1 : ℕ) : ℚ)]] })) := by
  unfold Measure_C_Pin_uF
  simp only [h1, h2]
  by_cases hc : t1 = U32_SENTINEL ∨ t2 = U32_SENTINEL ∨ t2 ≤ t1
  · simp only [hc, if_true, List.append_assoc, List.singleton_append]
  · have hlt : t1 < t2 := by omega
    have hdt : (t2 + 4294967296 - t1) % 4294967296 = t2 - t1 := by omega
    simp only [hc, if_false, hdt, measure_c_formula, List.append_assoc, List.singleton_append]

/-- What a polling phase returns is a `uint32` value. -/
theorem wait_loop_lt (adc : Nat → Int) (target : Int) (timeout_us fuel : Nat) :
    ∀ (e pos : Nat) (s : FwState) (t p : Nat) (s1 : FwState), e < 4294967296 →
      wait_until_mv_loop adc target timeout_us fuel e pos s = some (t, p, s1) →
      t < 4294967296 := by
  induction fuel with
  | zero =>
    intro e pos s t p s1 _ h
    simp [wait_until_mv_loop] at h
  | succ f ih =>
    intro e pos s t p s1 he h
    unfold wait_until_mv_loop at h
    by_cases h1 : e < timeout_us
    · by_cases h2 : adc pos ≥ target
      · simp only [h1, h2, if_true, Option.some.injEq, Prod.mk.injEq] at h
        omega
      · simp only [h1, h2, if_true, if_false] at h
        exact ih _ _ _ t p s1 (Nat.mod_lt _ (by norm_num)) h
    · simp only [h1, if_false, Option.some.injEq, Prod.mk.injEq] at h
      have : U32_SENTINEL < 4294967296 := by decide
      omega

/-- A polling phase with a timeout of 500 ms and enough fuel returns, and
it returns the sentinel exactly when none of its 50000 reads meets the
target. -/
theorem wait_until_mv_total (fuel : Nat) (adc : Nat → Int) (pos : Nat) (s : FwState)
    (target : Int) (hf : 50001 ≤ fuel) :
    ∃ t p s1, wait_until_mv fuel adc pos s target TIMEOUT_MS = some (t, p, s1) ∧
      t < 4294967296 ∧
      (t = U32_SENTINEL ↔ ∀ i, i < 50000 → adc (pos + i) < target) := by
  rcases wait_until_mv_cases fuel adc pos s target hf with ⟨k, hk, _, hhit, h⟩ | ⟨hlow, h⟩
  · refine ⟨_, _, _, h, by omega, ?_⟩
    constructor
    · intro he
      have : U32_SENTINEL = 4294967295 := rfl
      omega
    · intro hall
      have := hall k hk
      omega
  · refine ⟨_, _, _, h, by decide, ?_⟩
    exact ⟨fun _ => hlow, fun _ => rfl⟩

/-- Claim C17. With fuel for both polling phases `Measure_C_Pin_uF`
returns. It returns -1 exactly when the first phase returned the sentinel,
or the second did, or `t2 <= t1`; in every other case the value is strictly
positive. The first phase returns the sentinel exactly when none of its
50000 reads reaches `VSTART_MV`, so a voltage that never reaches `VSTART_MV`
gives -1. -/
theorem measure_c_sentinel (fuel : Nat) (adc : Nat → Int) (pos : Nat) (s : FwState)
    (hf : 50001 ≤ fuel) :
    ∃ (t1 p1 : Nat) (s1 : FwState) (t2 p2 : Nat) (s2 : FwState) (c : ℚ) (s3 : FwState),
      wait_until_mv fuel adc pos (chargeStart s) VSTART_MV TIMEOUT_MS = some (t1, p1, s1) ∧
      wait_until_mv fuel adc p1 s1 VEND_MV TIMEOUT_MS = some (t2, p2, s2) ∧
      Measure_C_Pin_uF fuel adc pos s = some (c, p2, s3) ∧
      (c = -1 ↔ (t1 = U32_SENTINEL ∨ t2 = U32_SENTINEL ∨ t2 ≤ t1)) ∧
      (c ≠ -1 → 0 < c) ∧
      (t1 = U32_SENTINEL ↔ ∀ i, i < 50000 → adc (pos + i) < VSTART_MV) ∧
      ((∀ i, i < 50000 → adc (pos + i) < VSTART_MV) → c = -1) := by
  obtain ⟨t1, p1, s1, h1, _, hiff1⟩ := wait_until_mv_total fuel adc pos (chargeStart s) VSTART_MV hf
  obtain ⟨t2, p2, s2, h2, ht2, _⟩ := wait_until_mv_total fuel adc p1 s1 VEND_MV hf
  have hm := measure_c_unfold fuel adc pos s t1 p1 t2 p2 s1 s2 h1 h2 ht2
  by_cases hc : t1 = U32_SENTINEL ∨ t2 = U32_SENTINEL ∨ t2 ≤ t1
  · simp only [hc, if_true] at hm
    refine ⟨t1, p1, s1, t2, p2, s2, -1, _, h1, h2, hm, ?_, ?_, hiff1, ?_⟩
    · exact ⟨fun _ => hc, fun _ => rfl⟩
    · intro h; exact absurd rfl h
    · intro _; rfl
  · simp only [hc, if_false] at hm
    have hlt : t1 < t2 := by omega
    have hpos : (0 : ℚ) < 168 / 1000000 * ((t2 - t1 : ℕ) : ℚ) := by
      have h1' : (0 : ℚ) < ((t2 - t1 : ℕ) : ℚ) := by
        exact_mod_cast Nat.sub_pos_of_lt hlt
      positivity
    have hne : (168 / 1000000 * ((t2 - t1 : ℕ) : ℚ) : ℚ) ≠ -1 := by
      intro h
      rw [h] at hpos
      norm_num at hpos
    refine ⟨t1, p1, s1, t2, p2, s2, _, _, h1, h2, hm, ?_, ?_, hiff1, ?_⟩
    · exact ⟨fun h => absurd h hne, fun h => absurd h hc⟩
    · intro _; exact hpos
    · intro hall
      exact absurd (Or.inl (hiff1.mpr hall)) hc

theorem measure_c_sentinel_witness :
    50001 ≤ 50001 ∧
    ∃ (t1 p1 : Nat) (s1 : FwState) (t2 p2 : Nat) (s2 : FwState) (c : ℚ) (s3 : FwState),
      wait_until_mv 50001 flatReadings 0 (chargeStart initState) VSTART_MV TIMEOUT_MS
        = some (t1, p1, s1) ∧
      wait_until_mv 50001 flatReadings p1 s1 VEND_MV TIMEOUT_MS = some (t2, p2, s2) ∧
      Measure_C_Pin_uF 50001 flatReadings 0 initState = some (c, p2, s3) ∧
      (c = -1 ↔ (t1 = U32_SENTINEL ∨ t2 = U32_SENTINEL ∨ t2 ≤ t1)) ∧
      (c ≠ -1 → 0 < c) ∧
      (t1 = U32_SENTINEL ↔ ∀ i, i < 50000 → flatReadings (0 + i) < VSTART_MV) ∧
      ((∀ i, i < 50000 → flatReadings (0 + i) < VSTART_MV) → c = -1) :=
  ⟨by decide, measure_c_sentinel 50001 flatReadings 0 initState (by decide)⟩

/-- Claim C19. When the two polling phases return non-sentinel values
`t1 < t2`, `Measure_C_Pin_uF` returns
`I_ref * (t2 - t1) * 1e-6 / ((VEND_MV - VSTART_MV) / 1000) * C_CAL_GAIN * 1e6`
with `I_ref = 12 * 8e-6`, thresholds 2 and 10 and gain 0.014, which is
`0.000168 * (t2 - t1)`, the `float` arithmetic read as exact. -/
theorem measure_c_value (fuel : Nat) (adc : Nat → Int) (pos : Nat) (s : FwState)
    (t1 p1 t2 p2 : Nat) (s1 s2 : FwState)
    (h1 : wait_until_mv fuel adc pos (chargeStart s) VSTART_MV TIMEOUT_MS = some (t1, p1, s1))
    (h2 : wait_until_mv fuel adc p1 s1 VEND_MV TIMEOUT_MS = some (t2, p2, s2))
    (hn1 : t1 ≠ U32_SENTINEL) (hn2 : t2 ≠ U32_SENTINEL) (hlt : t1 < t2) :
    ∃ s3, Measure_C_Pin_uF fuel adc pos s =
      some (IDAC_C_CURRENT_A * (((t2 - t1 : ℕ) : ℚ) * (1 / 1000000))
          / (((VEND_MV - VSTART_MV : Int) : ℚ) / 1000) * C_CAL_GAIN * 1000000, p2, s3) ∧
      IDAC_C_CURRENT_A * (((t2 - t1 : ℕ) : ℚ) * (1 / 1000000))
          / (((VEND_MV - VSTART_MV : Int) : ℚ) / 1000) * C_CAL_GAIN * 1000000
        = 168 / 1000000 * (((t2 : ℚ) - (t1 : ℚ))) ∧
      IDAC_C_CURRENT_A = 12 * (8 / 1000000) ∧ VSTART_MV = 2 ∧ VEND_MV = 10 ∧
      C_CAL_GAIN = 14 / 1000 := by
  have ht2 : t2 < 4294967296 := wait_loop_lt adc VEND_MV _ fuel 0 p1 s1 t2 p2 s2 (by norm_num) h2
  have hm := measure_c_unfold fuel adc pos s t1 p1 t2 p2 s1 s2 h1 h2 ht2
  have hc : ¬ (t1 = U32_SENTINEL ∨ t2 = U32_SENTINEL ∨ t2 ≤ t1) := by
    intro h
    rcases h with h | h | h
    · exact hn1 h
    · exact hn2 h
    · omega
  simp only [hc, if_false] at hm
  have hsub : ((t2 - t1 : ℕ) : ℚ) = (t2 : ℚ) - (t1 : ℚ) := by
    rw [Nat.cast_sub (le_of_lt hlt)]
  have hform := measure_c_formula (t2 - t1)
  have hI : IDAC_C_CURRENT_A = 12 * (8 / 1000000) := by
    unfold IDAC_C_CURRENT_A IDAC_C_LSB_A
    norm_num [IDAC_C_CODE]
  rw [← hform] at hm
  exact ⟨_, hm, by rw [hform, hsub], hI, rfl, rfl, rfl⟩

set_option maxRecDepth 1000000 in
theorem measure_c_value_witness :
    wait_until_mv 50001 slowReadings 0 (chargeStart initState) VSTART_MV TIMEOUT_MS
      = some (0, 1, chargeStart initState) ∧
    wait_until_mv 50001 slowReadings 1 (chargeStart initState) VEND_MV TIMEOUT_MS
      = some (70, 9, { chargeStart initState with
          hw := (chargeStart initState).hw ++ List.replicate 7 (HwEvent.delayUs SAMPLE_US) }) ∧
    0 ≠ U32_SENTINEL ∧ 70 ≠ U32_SENTINEL ∧ 0 < 70 ∧
    ∃ s3, Measure_C_Pin_uF 50001 slowReadings 0 initState =
      some (IDAC_C_CURRENT_A * (((70 - 0 : ℕ) : ℚ) * (1 / 1000000))
          / (((VEND_MV - VSTART_MV : Int) : ℚ) / 1000) * C_CAL_GAIN * 1000000, 9, s3) ∧
      IDAC_C_CURRENT_A * (((70 - 0 : ℕ) : ℚ) * (1 / 1000000))
          / (((VEND_MV - VSTART_MV : Int) : ℚ) / 1000) * C_CAL_GAIN * 1000000
        = 168 / 1000000 * ((((70 : ℕ) : ℚ)) - (((0 : ℕ) : ℚ))) ∧
      IDAC_C_CURRENT_A = 12 * (8 / 1000000) ∧ VSTART_MV = 2 ∧ VEND_MV = 10 ∧
      C_CAL_GAIN = 14 / 1000 :=
  ⟨by decide, by decide, by decide, by decide, by decide,
   measure_c_value 50001 slowReadings 0 initState 0 1 70 9 (chargeStart initState)
     { chargeStart initState with
       hw := (chargeStart initState).hw ++ List.replicate 7 (HwEvent.delayUs SAMPLE_US) }
     (by decide) (by decide) (by decide) (by decide) (by decide)⟩

set_option maxRecDepth 1000000 in
/-- Claim C18 fails on the code: each polling phase restarts its clock at 0,
so `t2` counts from the end of the first phase and not from the start of
charging. With readings that reach `VSTART_MV` at read 3 and `VEND_MV` at
read 5 the phases return `t1 = 30` and `t2 = 10`, and the measurement fails
with -1 where the crossings are 20 microseconds apart. With readings that
reach `VSTART_MV` at read 0 and `VEND_MV` at read 8 they return `t1 = 0` and
`t2 = 70`, and the value is computed from 70 microseconds, not from 80. -/
theorem measure_c_restarts_clock :
    ((∀ i, i < 3 → rampReadings i < VSTART_MV) ∧ VSTART_MV ≤ rampReadings 3 ∧
      (∀ i, i < 5 → rampReadings i < VEND_MV) ∧ VEND_MV ≤ rampReadings 5 ∧
      ∃ s1 s2 s3,
        wait_until_mv 50001 rampReadings 0 (chargeStart initState) VSTART_MV TIMEOUT_MS
          = some (30, 4, s1) ∧
        wait_until_mv 50001 rampReadings 4 s1 VEND_MV TIMEOUT_MS = some (10, 6, s2) ∧
        Measure_C_Pin_uF 50001 rampReadings 0 initState = some (-1, 6, s3)) ∧
    ((∀ i, i < 0 → slowReadings i < VSTART_MV) ∧ VSTART_MV ≤ slowReadings 0 ∧
      (∀ i, i < 8 → slowReadings i < VEND_MV) ∧ VEND_MV ≤ slowReadings 8 ∧
      ∃ s1 s2 s3,
        wait_until_mv 50001 slowReadings 0 (chargeStart initState) VSTART_MV TIMEOUT_MS
          = some (0, 1, s1) ∧
        wait_until_mv 50001 slowReadings 1 s1 VEND_MV TIMEOUT_MS = some (70, 9, s2) ∧
        Measure_C_Pin_uF 50001 slowReadings 0 initState
          = some (168 / 1000000 * (((70 : ℕ) : ℚ)), 9, s3) ∧
        (168 / 1000000 * (((70 : ℕ) : ℚ)) : ℚ) ≠ 168 / 1000000 * (10 * ((8 : ℚ) - 0))) := by
  have r1 : wait_until_mv 50001 rampReadings 0 (chargeStart initState) VSTART_MV TIMEOUT_MS
      = some (30, 4, { chargeStart initState with
          hw := (chargeStart initState).hw ++ List.replicate 3 (HwEvent.delayUs SAMPLE_US) }) := by
    decide
  have r2 : wait_until_mv 50001 rampReadings 4 { chargeStart initState with
        hw := (chargeStart initState).hw ++ List.replicate 3 (HwEvent.delayUs SAMPLE_US) }
      VEND_MV TIMEOUT_MS
      = some (10, 6, { chargeStart initState with
          hw := (chargeStart initState).hw ++ List.replicate 3 (HwEvent.delayUs SAMPLE_US)
            ++ List.replicate 1 (HwEvent.delayUs SAMPLE_US) }) := by
    decide
  have q1 : wait_until_mv 50001 slowReadings 0 (chargeStart initState) VSTART_MV TIMEOUT_MS
      = some (0, 1, chargeStart initState) := by
    decide
  have q2 : wait_until_mv 50001 slowReadings 1 (chargeStart initState) VEND_MV TIMEOUT_MS
      = some (70, 9, { chargeStart initState with
          hw := (chargeStart initState).hw ++ List.replicate 7 (HwEvent.delayUs SAMPLE_US) }) := by
    decide
  have m1 := measure_c_unfold 50001 rampReadings 0 initState 30 4 10 6 _ _ r1 r2 (by decide)
  have m2 := measure_c_unfold 50001 slowReadings 0 initState 0 1 70 9 _ _ q1 q2 (by decide)
  have c1 : (30 = U32_SENTINEL ∨ 10 = U32_SENTINEL ∨ 10 ≤ 30) := by decide
  have c2 : ¬ (0 = U32_SENTINEL ∨ 70 = U32_SENTINEL ∨ 70 ≤ 0) := by decide
  simp only [c1, if_true] at m1
  simp only [c2, if_false] at m2
  refine ⟨⟨by decide, by decide, by decide, by decide, _, _, _, r1, r2, m1⟩,
    ⟨by decide, by decide, by decide, by decide, _, _, _, q1, q2, m2, ?_⟩⟩
  norm_num

/-! ## Foreground loop: measurement requests -/

theorem lit_MEAS_R : lit "MEAS:R" = [77, 69, 65, 83, 58, 82] := by decide
theorem lit_MEAS_C : lit "MEAS:C" = [77, 69, 65, 83, 58, 67] := by decide
theorem lit_R : lit "R" = [82] := by decide
theorem lit_C : lit "C" = [67] := by decide

/-- The tokens `MEAS:R` and `MEAS:C` set their request flag and nothing
else. -/
theorem process_token_meas (s : FwState) :
    process_token s (lit "MEAS:R") = some { s with meas_r_request := 1 } ∧
    process_token s (lit "MEAS:C") = some { s with meas_c_request := 1 } := by
  constructor
  · simp [process_token, strncmp_eq, strcmp_eq, lit_FREQ, lit_AMP, lit_WAVE, lit_EN, lit_MEAS,
      lit_MEAS_R, lit_R]
  · simp [process_token, strncmp_eq, strcmp_eq, lit_FREQ, lit_AMP, lit_WAVE, lit_EN, lit_MEAS,
      lit_MEAS_C, lit_R, lit_C]

/-- A polling phase only adds delays to the log of driver calls. -/
theorem wait_until_mv_shape (fuel : Nat) (adc : Nat → Int) (pos : Nat) (s : FwState)
    (target : Int) (hf : 50001 ≤ fuel) :
    ∃ t p k, wait_until_mv fuel adc pos s target TIMEOUT_MS =
        some (t, p, { s with hw := s.hw ++ List.replicate k (HwEvent.delayUs SAMPLE_US) }) ∧
      t < 4294967296 := by
  rcases wait_until_mv_cases fuel adc pos s target hf with ⟨k, hk, _, _, h⟩ | ⟨_, h⟩
  · exact ⟨_, _, k, h, by omega⟩
  · exact ⟨_, _, 50000, h, by decide⟩

/-- With enough fuel `Measure_C_Pin_uF` returns; it selects channel 1 first
and makes no other multiplexer call. -/
theorem measure_c_total (fuel : Nat) (adc : Nat → Int) (pos : Nat) (s : FwState)
    (hf : 50001 ≤ fuel) :
    ∃ c p evs, Measure_C_Pin_uF fuel adc pos s =
        some (c, p, { s with hw := s.hw ++ HwEvent.amuxFastSelect 1 :: evs }) ∧
      ∀ ch, HwEvent.amuxFastSelect ch ∉ evs := by
  obtain ⟨t1, p1, k1, h1, _⟩ := wait_until_mv_shape fuel adc pos (chargeStart s) VSTART_MV hf
  obtain ⟨t2, p2, k2, h2, ht2⟩ := wait_until_mv_shape fuel adc p1 _ VEND_MV hf
  have hm := measure_c_unfold fuel adc pos s t1 p1 t2 p2 _ _ h1 h2 ht2
  by_cases hc : t1 = U32_SENTINEL ∨ t2 = U32_SENTINEL ∨ t2 ≤ t1
  · simp only [hc, if_true] at hm
    refine ⟨-1, p2, [HwEvent.idacSetValue 0, HwEvent.pinCStrong, HwEvent.pinCWrite 0,
      HwEvent.delayMs DISCHARGE_MS, HwEvent.pinCHiZ, HwEvent.delayUs 50,
      HwEvent.idacSetPolaritySource, HwEvent.idacSetValue IDAC_C_CODE]
      ++ List.replicate k1 (HwEvent.delayUs SAMPLE_US)
      ++ List.replicate k2 (HwEvent.delayUs SAMPLE_US)
      ++ [HwEvent.idacSetValue 0, HwEvent.uartPut (lit "DBG_C: timeout or bad dt\r\n")], ?_, ?_⟩
    · rw [hm]
      simp [chargeStart]
    · intro ch hmem
      simp [List.mem_replicate] at hmem
  · simp only [hc, if_false] at hm
    refine ⟨168 / 1000000 * ((t2 - t1 : ℕ) : ℚ), p2,
      [HwEvent.idacSetValue 0, HwEvent.pinCStrong, HwEvent.pinCWrite 0,
      HwEvent.delayMs DISCHARGE_MS, HwEvent.pinCHiZ, HwEvent.delayUs 50,
      HwEvent.idacSetPolaritySource, HwEvent.idacSetValue IDAC_C_CODE]
      ++ List.replicate k1 (HwEvent.delayUs SAMPLE_US)
      ++ List.replicate k2 (HwEvent.delayUs SAMPLE_US)
      ++ [HwEvent.idacSetValue 0,
          HwEvent.uartPrintf (lit "DBG_C: dt=%lu us, C=%.3f uF\r\n")
            [((t2 - t1 : ℕ) : ℚ), 168 / 1000000 * ((t2 - t1 : ℕ) : ℚ)]], ?_, ?_⟩
    · rw [hm]
      simp [chargeStart]
    · intro ch hmem
      simp [List.mem_replicate] at hmem

/-- `Measure_R_Pin` takes one reading; it selects channel 0 first and makes
no other multiplexer call. -/
theorem measure_r_shape (adc : Nat → Int) (pos : Nat) (s : FwState) :
    ∃ r evs, Measure_R_Pin adc pos s =
        (r, pos + 1, { s with hw := s.hw ++ HwEvent.amuxFastSelect 0 :: evs }) ∧
      ∀ ch, HwEvent.amuxFastSelect ch ∉ evs := by
  refine ⟨(Measure_R_Pin adc pos s).1,
    [HwEvent.pinRHiZ, HwEvent.idacSetPolaritySource, HwEvent.idacSetValue IDAC_R_CODE,
     HwEvent.delayMs 20, HwEvent.adcWaitResult,
     HwEvent.uartPrintf (lit "DBG_R: mv=%ld, Rraw=%ld, Rcal=%ld\r\n")
      [((adc pos : Int) : ℚ),
       (truncToInt (if ((adc pos : Int) : ℚ) / 1000 / IDAC_R_CURRENT_A < 0 then 0
          else ((adc pos : Int) : ℚ) / 1000 / IDAC_R_CURRENT_A) : ℚ),
       (truncToInt ((if ((adc pos : Int) : ℚ) / 1000 / IDAC_R_CURRENT_A < 0 then 0
          else ((adc pos : Int) : ℚ) / 1000 / IDAC_R_CURRENT_A) * R_CAL_GAIN) : ℚ)]], ?_, ?_⟩
  · simp only [Measure_R_Pin, List.append_assoc, List.cons_append, List.nil_append]
  · intro ch hmem
    simp at hmem

/-- The resistance branch clears its flag and, if the flag was set, runs
`Measure_R_Pin` once, which selects channel 0 once. -/
theorem service_r_spec (adc : Nat → Int) (pos : Nat) (s : FwState) :
    ∃ p evs, service_r adc pos s = (p, { s with meas_r_request := 0, hw := s.hw ++ evs }) ∧
      evs.count (HwEvent.amuxFastSelect 0) = (if s.meas_r_request ≠ 0 then 1 else 0) ∧
      evs.count (HwEvent.amuxFastSelect 1) = 0 := by
  unfold service_r
  by_cases h : s.meas_r_request ≠ 0
  · rw [if_pos h, if_pos h]
    obtain ⟨r, evs, hm, hno⟩ := measure_r_shape adc pos { s with meas_r_request := 0 }
    rw [hm]
    refine ⟨pos + 1,
      HwEvent.amuxFastSelect 0 :: evs ++ [HwEvent.uartPrintf (lit "R_GND:%ld\r\n") [(r : ℚ)]],
      ?_, ?_, ?_⟩
    · simp
    · have h0 : evs.count (HwEvent.amuxFastSelect 0) = 0 :=
        List.count_eq_zero_of_not_mem (hno 0)
      simp [List.count_cons, List.count_append, h0]
    · have h1 : evs.count (HwEvent.amuxFastSelect 1) = 0 :=
        List.count_eq_zero_of_not_mem (hno 1)
      simp [List.count_cons, List.count_append, h1]
  · have h0 : s.meas_r_request = 0 := by simpa using h
    rw [if_neg h, if_neg h]
    refine ⟨pos, [], ?_, by simp, by simp⟩
    cases s
    simp_all

/-- The capacitance branch clears its flag and, if the flag was set, runs
`Measure_C_Pin_uF` once, which selects channel 1 once. -/
theorem service_c_spec (fuel : Nat) (adc : Nat → Int) (pos : Nat) (s : FwState)
    (hf : 50001 ≤ fuel) :
    ∃ p evs, service_c fuel adc pos s =
        some (p, { s with meas_c_request := 0, hw := s.hw ++ evs }) ∧
      evs.count (HwEvent.amuxFastSelect 1) = (if s.meas_c_request ≠ 0 then 1 else 0) ∧
      evs.count (HwEvent.amuxFastSelect 0) = 0 := by
  unfold service_c
  by_cases h : s.meas_c_request ≠ 0
  · rw [if_pos h, if_pos h]
    obtain ⟨c, p, evs, hm, hno⟩ := measure_c_total fuel adc pos { s with meas_c_request := 0 } hf
    rw [hm]
    refine ⟨p, HwEvent.amuxFastSelect 1 :: evs ++ [HwEvent.uartPrintf (lit "C_uF:%.3f\r\n") [c]],
      ?_, ?_, ?_⟩
    · simp
    · have h1 : evs.count (HwEvent.amuxFastSelect 1) = 0 :=
        List.count_eq_zero_of_not_mem (hno 1)
      simp [List.count_cons, List.count_append, h1]
    · have h0 : evs.count (HwEvent.amuxFastSelect 0) = 0 :=
        List.count_eq_zero_of_not_mem (hno 0)
      simp [List.count_cons, List.count_append, h0]
  · have h0 : s.meas_c_request = 0 := by simpa using h
    rw [if_neg h, if_neg h]
    refine ⟨pos, [], ?_, by simp, by simp⟩
    cases s
    simp_all

/-- The frame branch clears the ready flag and makes no multiplexer call. -/
theorem drainFrame_spec (s : FwState) :
    ∃ evs, drainFrame s = { s with frameReady := 0, hw := s.hw ++ evs } ∧
      ∀ ch, evs.count (HwEvent.amuxFastSelect ch) = 0 := by
  unfold drainFrame
  by_cases h : s.frameReady ≠ 0
  · rw [if_pos h]
    exact ⟨_, rfl, fun ch => by simp [List.count_cons]⟩
  · have h0 : s.frameReady = 0 := by simpa using h
    rw [if_neg h]
    refine ⟨[], ?_, fun ch => by simp⟩
    cases s
    simp_all

/-- One pass of the foreground loop after command polling: both request
flags and the ready flag end at 0, and each measurement has run once if its
flag was set and not at all otherwise. -/
theorem app_task_service_spec (fuel : Nat) (adc : Nat → Int) (pos : Nat) (s : FwState)
    (hf : 50001 ≤ fuel) :
    ∃ p evs, app_task_service fuel adc pos s =
        some (p, { s with
          meas_r_request := 0, meas_c_request := 0, frameReady := 0, hw := s.hw ++ evs }) ∧
      evs.count (HwEvent.amuxFastSelect 0) = (if s.meas_r_request ≠ 0 then 1 else 0) ∧
      evs.count (HwEvent.amuxFastSelect 1) = (if s.meas_c_request ≠ 0 then 1 else 0) := by
  obtain ⟨p1, e1, hr, hr0, hr1⟩ := service_r_spec adc pos s
  obtain ⟨p2, e2, hc, hc1, hc0⟩ := service_c_spec fuel adc p1
    { s with meas_r_request := 0, hw := s.hw ++ e1 } hf
  obtain ⟨e3, hd, hd0⟩ := drainFrame_spec
    { s with meas_r_request := 0, meas_c_request := 0, hw := s.hw ++ e1 ++ e2 }
  unfold app_task_service
  rw [hr]
  simp only [hc]
  refine ⟨p2, e1 ++ e2 ++ e3, ?_, ?_, ?_⟩
  · rw [hd]
    simp [List.append_assoc]
  · simp only [List.count_append, hr0, hc0, hd0 0]
    simp
  · simp only [List.count_append, hr1, hc1, hd0 1]
    simp

/-- Claim C16. The token `MEAS:R` sets `meas_r_request` to 1 and changes
nothing else, so processing it again, in the same line or in a later one,
leaves the state it already produced. The next pass of the foreground loop
then runs the resistance measurement exactly once (one selection of
multiplexer channel 0) and leaves the flag at 0. The same holds for
`MEAS:C`, `meas_c_request` and channel 1. -/
theorem meas_requests_coalesce (fuel : Nat) (adc : Nat → Int) (pos : Nat) (s : FwState)
    (hf : 50001 ≤ fuel) :
    (process_tokens s [lit "MEAS:R"] = some { s with meas_r_request := 1 } ∧
      process_tokens s [lit "MEAS:R", lit "MEAS:R"] = some { s with meas_r_request := 1 } ∧
      process_token { s with meas_r_request := 1 } (lit "MEAS:R")
        = some { s with meas_r_request := 1 } ∧
      ∃ p s1, app_task_service fuel adc pos { s with meas_r_request := 1 } = some (p, s1) ∧
        s1.meas_r_request = 0 ∧
        s1.hw.count (HwEvent.amuxFastSelect 0) = s.hw.count (HwEvent.amuxFastSelect 0) + 1) ∧
    (process_tokens s [lit "MEAS:C"] = some { s with meas_c_request := 1 } ∧
      process_tokens s [lit "MEAS:C", lit "MEAS:C"] = some { s with meas_c_request := 1 } ∧
      process_token { s with meas_c_request := 1 } (lit "MEAS:C")
        = some { s with meas_c_request := 1 } ∧
      ∃ p s1, app_task_service fuel adc pos { s with meas_c_request := 1 } = some (p, s1) ∧
        s1.meas_c_request = 0 ∧
        s1.hw.count (HwEvent.amuxFastSelect 1) = s.hw.count (HwEvent.amuxFastSelect 1) + 1) := by
  have hR := fun u => (process_token_meas u).1
  have hC := fun u => (process_token_meas u).2
  refine ⟨⟨?_, ?_, hR _, ?_⟩, ⟨?_, ?_, hC _, ?_⟩⟩
  · simp only [process_tokens, hR]
  · simp only [process_tokens, hR]
  · obtain ⟨p, evs, h, h0, _⟩ := app_task_service_spec fuel adc pos { s with meas_r_request := 1 } hf
    refine ⟨p, _, h, rfl, ?_⟩
    simp only [List.count_append, h0]
    simp
  · simp only [process_tokens, hC]
  · simp only [process_tokens, hC]
  · obtain ⟨p, evs, h, _, h1⟩ := app_task_service_spec fuel adc pos { s with meas_c_request := 1 } hf
    refine ⟨p, _, h, rfl, ?_⟩
    simp only [List.count_append, h1]
    simp

theorem meas_requests_coalesce_witness :
    50001 ≤ 50001 ∧
    (process_tokens initState [lit "MEAS:R"] = some { initState with meas_r_request := 1 } ∧
      process_tokens initState [lit "MEAS:R", lit "MEAS:R"]
        = some { initState with meas_r_request := 1 } ∧
      process_token { initState with meas_r_request := 1 } (lit "MEAS:R")
        = some { initState with meas_r_request := 1 } ∧
      ∃ p s1, app_task_service 50001 flatReadings 0 { initState with meas_r_request := 1 }
          = some (p, s1) ∧
        s1.meas_r_request = 0 ∧
        s1.hw.count (HwEvent.amuxFastSelect 0)
          = initState.hw.count (HwEvent.amuxFastSelect 0) + 1) ∧
    (process_tokens initState [lit "MEAS:C"] = some { initState with meas_c_request := 1 } ∧
      process_tokens initState [lit "MEAS:C", lit "MEAS:C"]
        = some { initState with meas_c_request := 1 } ∧
      process_token { initState with meas_c_request := 1 } (lit "MEAS:C")
        = some { initState with meas_c_request := 1 } ∧
      ∃ p s1, app_task_service 50001 flatReadings 0 { initState with meas_c_request := 1 }
          = some (p, s1) ∧
        s1.meas_c_request = 0 ∧
        s1.hw.count (HwEvent.amuxFastSelect 1)
          = initState.hw.count (HwEvent.amuxFastSelect 1) + 1) :=
  ⟨by decide, meas_requests_coalesce 50001 flatReadings 0 initState (by decide)⟩

/-! ## Triangle table -/

/-- A loop of stores into `triBase` is a loop of stores into a list. -/
theorem tri_fold (f g : Nat → Nat) (n : Nat) (s : FwState) :
    (List.range n).foldl (fun st i => { st with triBase := st.triBase.set (f i) (g i) }) s
    = { s with triBase := ((List.range n).foldl (fun acc i => acc.set (f i) (g i)) s.triBase) } := by
  induction n with
  | zero => rfl
  | succ n ih =>
    rw [List.range_succ, List.foldl_append, List.foldl_append, ih]
    rfl

/-- Stores at `pre.length + i` leave the first `pre.length` entries alone. -/
theorem foldl_set_offset (g : Nat → Nat) (pre : List Nat) (n : Nat) (rest : List Nat) :
    (List.range n).foldl (fun acc i => acc.set (pre.length + i) (g i)) (pre ++ rest)
    = pre ++ (List.range n).foldl (fun acc i => acc.set i (g i)) rest := by
  induction n with
  | zero => rfl
  | succ n ih =>
    rw [List.range_succ, List.foldl_append, List.foldl_append, ih]
    simp [List.set_append]

/-- The table `build_tri` leaves in `triBase`. -/
theorem build_tri_eq (s : FwState) (hl : s.triBase.length = LUT_SIZE) :
    build_tri s = { s with triBase :=
      ((List.range 32).map (fun i => 255 * i / 31)
        ++ (List.range 32).map (fun i => 255 - 255 * i / 31)) } := by
  have hl' : s.triBase.length = 64 := hl
  have hh : (LUT_SIZE / 2) % 65536 = 32 := by decide
  unfold build_tri
  simp only [hh]
  rw [tri_fold (fun i => i) (fun i => ((255 * i) / (32 - 1)) % 256) 32 s]
  rw [tri_fold (fun i => 32 + i)
    (fun i => ((255 + 4294967296 - (255 * i) / (32 - 1)) % 4294967296) % 256) 32 _]
  simp only []
  rw [foldl_set_range _ 32 s.triBase (by omega)]
  have hlen : ((List.range 32).map (fun i => ((255 * i) / (32 - 1)) % 256)).length = 32 := by
    simp
  have h2 := foldl_set_offset
    (fun i => ((255 + 4294967296 - (255 * i) / (32 - 1)) % 4294967296) % 256)
    ((List.range 32).map (fun i => ((255 * i) / (32 - 1)) % 256)) 32 (s.triBase.drop 32)
  rw [hlen] at h2
  rw [h2, foldl_set_range _ 32 (s.triBase.drop 32) (by rw [List.length_drop]; omega)]
  have hd : (s.triBase.drop 32).drop 32 = [] := by
    apply List.drop_eq_nil_of_le
    rw [List.length_drop]
    omega
  rw [hd, List.append_nil]
  have m1 : (List.range 32).map (fun i => ((255 * i) / (32 - 1)) % 256)
      = (List.range 32).map (fun i => 255 * i / 31) := by
    apply List.map_congr_left
    intro i hi
    have : i < 32 := List.mem_range.mp hi
    show 255 * i / 31 % 256 = 255 * i / 31
    omega
  have m2 : (List.range 32).map
      (fun i => ((255 + 4294967296 - (255 * i) / (32 - 1)) % 4294967296) % 256)
      = (List.range 32).map (fun i => 255 - 255 * i / 31) := by
    apply List.map_congr_left
    intro i hi
    have : i < 32 := List.mem_range.mp hi
    show (255 + 4294967296 - 255 * i / 31) % 4294967296 % 256 = 255 - 255 * i / 31
    omega
  rw [m1, m2]

/-- Claim C20. After `build_tri`, for every `i < 32`, `triBase[i]` is
`255 * i / 31` rounded down and `triBase[32 + i]` is 255 minus that; the
table starts at 0, holds 255 at indices 31 and 32 and ends at 0, and every
value computed lies in [0,255], so the casts to 8 bits change nothing. -/
theorem build_tri_table (s : FwState) (hl : s.triBase.length = LUT_SIZE) :
    (∀ i : Nat, i < 32 →
      (build_tri s).triBase[i]? = some (255 * i / 31) ∧
      (build_tri s).triBase[32 + i]? = some (255 - 255 * i / 31) ∧
      255 * i / 31 ≤ 255 ∧
      255 * i / 31 = ⌊(255 * (i : ℚ)) / 31⌋₊) ∧
    (build_tri s).triBase[0]? = some 0 ∧ (build_tri s).triBase[31]? = some 255 ∧
    (build_tri s).triBase[32]? = some 255 ∧ (build_tri s).triBase[63]? = some 0 ∧
    (build_tri s).triBase.length = LUT_SIZE := by
  rw [build_tri_eq s hl]
  have key : ∀ i, i < 32 →
      ((List.range 32).map (fun i => 255 * i / 31)
        ++ (List.range 32).map (fun i => 255 - 255 * i / 31))[i]? = some (255 * i / 31) ∧
      ((List.range 32).map (fun i => 255 * i / 31)
        ++ (List.range 32).map (fun i => 255 - 255 * i / 31))[32 + i]?
        = some (255 - 255 * i / 31) := by
    intro i hi
    constructor
    · rw [List.getElem?_append_left (by simp; omega)]
      simp [List.getElem?_range hi]
    · rw [List.getElem?_append_right (by simp)]
      simp [List.getElem?_range hi]
  refine ⟨?_, ?_, ?_, ?_, ?_, ?_⟩
  · intro i hi
    refine ⟨(key i hi).1, (key i hi).2, by omega, ?_⟩
    have h := Nat.floor_div_eq_div (α := ℚ) (255 * i) 31
    push_cast at h
    exact h.symm
  · exact (key 0 (by omega)).1
  · exact (key 31 (by omega)).1
  · exact (key 0 (by omega)).2
  · exact (key 31 (by omega)).2
  · simp

theorem build_tri_table_witness :
    initState.triBase.length = LUT_SIZE ∧
    ((∀ i : Nat, i < 32 →
      (build_tri initState).triBase[i]? = some (255 * i / 31) ∧
      (build_tri initState).triBase[32 + i]? = some (255 - 255 * i / 31) ∧
      255 * i / 31 ≤ 255 ∧
      255 * i / 31 = ⌊(255 * (i : ℚ)) / 31⌋₊) ∧
    (build_tri initState).triBase[0]? = some 0 ∧ (build_tri initState).triBase[31]? = some 255 ∧
    (build_tri initState).triBase[32]? = some 255 ∧ (build_tri initState).triBase[63]? = some 0 ∧
    (build_tri initState).triBase.length = LUT_SIZE) :=
  ⟨by decide, build_tri_table initState (by decide)⟩

/-! ## Square table -/

/-- A loop of stores into `sqrBase` is a loop of stores into a list. -/
theorem sqr_fold (f g : Nat → Nat) (idx : List Nat) :
    ∀ s : FwState,
      idx.foldl (fun st i => { st with sqrBase := st.sqrBase.set (f i) (g i) }) s
      = { s with sqrBase := (idx.foldl (fun acc i => acc.set (f i) (g i)) s.sqrBase) } := by
  induction idx with
  | nil => intro s; rfl
  | cons i idx ih =>
    intro s
    simp only [List.foldl_cons]
    rw [ih]

/-- The table `build_sqr` leaves in `sqrBase`. -/
theorem build_sqr_eq (s : FwState) (hl : s.sqrBase.length = LUT_SIZE) :
    build_sqr s = { s with sqrBase :=
      ((List.range 32).map (fun _ => 0) ++ (List.range 32).map (fun _ => 255)) } := by
  have hl' : s.sqrBase.length = 64 := hl
  have hh : (LUT_SIZE / 2) % 65536 = 32 := by decide
  have hn : LUT_SIZE - 32 = 32 := by decide
  unfold build_sqr
  simp only [hh, hn]
  rw [sqr_fold (fun i => i) (fun _ => 0) (List.range 32) s]
  rw [sqr_fold (fun i => i) (fun _ => 255) (List.range' 32 32) _]
  simp only []
  rw [foldl_set_range _ 32 s.sqrBase (by omega)]
  rw [List.range'_eq_map_range, List.foldl_map]
  have hlen : ((List.range 32).map (fun _ => (0 : Nat))).length = 32 := by simp
  have h2 := foldl_set_offset (fun _ => 255) ((List.range 32).map (fun _ => (0 : Nat))) 32
    (s.sqrBase.drop 32)
  rw [hlen] at h2
  rw [h2, foldl_set_range _ 32 (s.sqrBase.drop 32) (by rw [List.length_drop]; omega)]
  have hd : (s.sqrBase.drop 32).drop 32 = [] := by
    apply List.drop_eq_nil_of_le
    rw [List.length_drop]
    omega
  rw [hd, List.append_nil]

/-- Claim C21. After `build_sqr`, `sqrBase[i]` is 0 for `i < 32` and 255 for
`32 <= i < 64`. -/
theorem build_sqr_table (s : FwState) (hl : s.sqrBase.length = LUT_SIZE) :
    (∀ i : Nat, i < LUT_SIZE →
      (build_sqr s).sqrBase[i]? = some (if i < 32 then 0 else 255)) ∧
    (build_sqr s).sqrBase.length = LUT_SIZE := by
  rw [build_sqr_eq s hl]
  refine ⟨?_, by simp⟩
  intro i hi
  have hi' : i < 64 := hi
  by_cases h : i < 32
  · simp only [h, if_true]
    rw [List.getElem?_append_left (by simp; omega)]
    simp only [List.getElem?_map, List.getElem?_range h, Option.map_some']
  · simp only [h, if_false]
    rw [List.getElem?_append_right (by simp; omega)]
    have h2 : i - 32 < 32 := by omega
    simp only [List.length_map, List.length_range, List.getElem?_map, List.getElem?_range h2,
      Option.map_some']

theorem build_sqr_table_witness :
    initState.sqrBase.length = LUT_SIZE ∧
    ((∀ i : Nat, i < LUT_SIZE →
      (build_sqr initState).sqrBase[i]? = some (if i < 32 then 0 else 255)) ∧
    (build_sqr initState).sqrBase.length = LUT_SIZE) :=
  ⟨by decide, build_sqr_table initState (by decide)⟩

/-! ## Polling phase: bound and result -/

/-- Claim C29. With fuel for 50001 iterations, `wait_until_mv(target, 500)`
returns after at most 50000 reads. If read number `k < 50000` is the first
that reaches the target it returns `10 * k` after `k + 1` reads; it returns
the sentinel exactly when none of the first 50000 reads reaches the target;
a result other than the sentinel is a multiple of 10 below 500000. -/
theorem wait_until_mv_bounded (fuel : Nat) (adc : Nat → Int) (pos : Nat) (s : FwState)
    (target : Int) (hf : 50001 ≤ fuel) :
    ∃ t p s1, wait_until_mv fuel adc pos s target TIMEOUT_MS = some (t, p, s1) ∧
      p ≤ pos + 50000 ∧
      (∀ k, k < 50000 → (∀ i, i < k → adc (pos + i) < target) → target ≤ adc (pos + k) →
        t = 10 * k ∧ p = pos + k + 1) ∧
      (t = U32_SENTINEL ↔ ∀ i, i < 50000 → adc (pos + i) < target) ∧
      (t ≠ U32_SENTINEL → 10 ∣ t ∧ t < 500000) := by
  have hsent : U32_SENTINEL = 4294967295 := rfl
  rcases wait_until_mv_cases fuel adc pos s target hf with ⟨k0, hk0, hlow0, hhit0, h⟩ | ⟨hlow, h⟩
  · refine ⟨_, _, _, h, by omega, ?_, ?_, ?_⟩
    · intro k hk hlowk hhitk
      have hkk : k = k0 := by
        rcases Nat.lt_trichotomy k k0 with hlt | heq | hgt
        · have := hlow0 k hlt
          omega
        · exact heq
        · have := hlowk k0 hgt
          omega
      subst hkk
      exact ⟨rfl, rfl⟩
    · constructor
      · intro he
        omega
      · intro hall
        have := hall k0 hk0
        omega
    · intro _
      exact ⟨Dvd.intro k0 rfl, by omega⟩
  · refine ⟨_, _, _, h, by omega, ?_, ?_, ?_⟩
    · intro k hk _ hhitk
      have := hlow k hk
      omega
    · exact ⟨fun _ => hlow, fun _ => rfl⟩
    · intro hne
      exact absurd rfl hne

theorem wait_until_mv_bounded_witness :
    50001 ≤ 50001 ∧
    ∃ t p s1, wait_until_mv 50001 rampReadings 0 initState VEND_MV TIMEOUT_MS
        = some (t, p, s1) ∧
      p ≤ 0 + 50000 ∧
      (∀ k, k < 50000 → (∀ i, i < k → rampReadings (0 + i) < VEND_MV) →
        VEND_MV ≤ rampReadings (0 + k) → t = 10 * k ∧ p = 0 + k + 1) ∧
      (t = U32_SENTINEL ↔ ∀ i, i < 50000 → rampReadings (0 + i) < VEND_MV) ∧
      (t ≠ U32_SENTINEL → 10 ∣ t ∧ t < 500000) :=
  ⟨by decide, wait_until_mv_bounded 50001 rampReadings 0 initState VEND_MV (by decide)⟩

/-! ## Resistance measurement -/

theorem truncToInt_nonneg_mono (x y : ℚ) (hx : 0 ≤ x) (hxy : x ≤ y) :
    0 ≤ truncToInt x ∧ truncToInt x ≤ truncToInt y ∧ truncToInt x = ⌊x⌋ := by
  have hy : 0 ≤ y := le_trans hx hxy
  unfold truncToInt
  rw [if_pos hx, if_pos hy]
  exact ⟨Int.floor_nonneg.mpr hx, Int.floor_le_floor hxy, rfl⟩

/-- The value `Measure_R_Pin` returns, as a function of the reading. -/
theorem measure_r_value (adc : Nat → Int) (pos : Nat) (s : FwState) :
    (Measure_R_Pin adc pos s).1
      = truncToInt (68 * max 0 (((adc pos : Int) : ℚ) / 1000 / (414 / 1000000))) ∧
    (Measure_R_Pin adc pos s).2.1 = pos + 1 := by
  refine ⟨?_, rfl⟩
  simp only [Measure_R_Pin, IDAC_R_CURRENT_A, R_CAL_GAIN]
  by_cases h : ((adc pos : Int) : ℚ) / 1000 / (414 / 1000000) < 0
  · simp only [h, if_true]
    rw [max_eq_left (le_of_lt h)]
    norm_num
  · simp only [h, if_false]
    rw [max_eq_right (not_lt.mp h), mul_comm]

/-- Claim C24. `Measure_R_Pin` takes one reading `mv` and returns
`trunc(68 * max(0, (mv / 1000) / 0.000414))`, the `float` arithmetic read as
exact: 0 for every `mv <= 0`, never negative, and non-decreasing in `mv`.
It always returns a value. -/
theorem measure_r_monotone (adc : Nat → Int) (pos : Nat) (s : FwState) :
    (Measure_R_Pin adc pos s).1
      = truncToInt (68 * max 0 (((adc pos : Int) : ℚ) / 1000 / (414 / 1000000))) ∧
    (Measure_R_Pin adc pos s).2.1 = pos + 1 ∧
    (adc pos ≤ 0 → (Measure_R_Pin adc pos s).1 = 0) ∧
    0 ≤ (Measure_R_Pin adc pos s).1 ∧
    (∀ (adc2 : Nat → Int) (pos2 : Nat) (s2 : FwState), adc pos ≤ adc2 pos2 →
      (Measure_R_Pin adc pos s).1 ≤ (Measure_R_Pin adc2 pos2 s2).1) := by
  have hv := measure_r_value adc pos s
  have hpos : ∀ m : Int, (0 : ℚ) ≤ 68 * max 0 ((m : ℚ) / 1000 / (414 / 1000000)) :=
    fun m => mul_nonneg (by norm_num) (le_max_left _ _)
  have hmono : ∀ m1 m2 : Int, m1 ≤ m2 →
      68 * max 0 ((m1 : ℚ) / 1000 / (414 / 1000000))
        ≤ 68 * max 0 ((m2 : ℚ) / 1000 / (414 / 1000000)) := by
    intro m1 m2 h
    have hc : (m1 : ℚ) ≤ (m2 : ℚ) := by exact_mod_cast h
    apply mul_le_mul_of_nonneg_left _ (by norm_num)
    apply max_le_max (le_refl _)
    apply div_le_div_of_nonneg_right _ (by norm_num)
    exact div_le_div_of_nonneg_right hc (by norm_num)
  refine ⟨hv.1, hv.2, ?_, ?_, ?_⟩
  · intro hle
    rw [hv.1]
    have hc : ((adc pos : Int) : ℚ) ≤ 0 := by exact_mod_cast hle
    have hq : ((adc pos : Int) : ℚ) / 1000 / (414 / 1000000) ≤ 0 := by
      apply div_nonpos_of_nonpos_of_nonneg _ (by norm_num)
      exact div_nonpos_of_nonpos_of_nonneg hc (by norm_num)
    rw [max_eq_left hq]
    simp [truncToInt]
  · rw [hv.1]
    exact (truncToInt_nonneg_mono _ _ (hpos _) (le_refl _)).1
  · intro adc2 pos2 s2 hle
    rw [hv.1, (measure_r_value adc2 pos2 s2).1]
    exact (truncToInt_nonneg_mono _ _ (hpos _) (hmono _ _ hle)).2.1

/-! ## Foreground loop: one pass in full -/

theorem fmt_dbgR_ne : (lit "DBG_R: mv=%ld, Rraw=%ld, Rcal=%ld\r\n" == lit "R_GND:%ld\r\n") = false ∧
    (lit "DBG_R: mv=%ld, Rraw=%ld, Rcal=%ld\r\n" == lit "C_uF:%.3f\r\n") = false ∧
    (lit "DBG_C: dt=%lu us, C=%.3f uF\r\n" == lit "R_GND:%ld\r\n") = false ∧
    (lit "DBG_C: dt=%lu us, C=%.3f uF\r\n" == lit "C_uF:%.3f\r\n") = false ∧
    (lit "R_GND:%ld\r\n" == lit "C_uF:%.3f\r\n") = false ∧
    (lit "C_uF:%.3f\r\n" == lit "R_GND:%ld\r\n") = false := by
  decide

/-- The driver calls of `Measure_R_Pin`: channel 0 is selected first, and
no call after it selects a channel or sends a result line. -/
theorem measure_r_events (adc : Nat → Int) (pos : Nat) (s : FwState) :
    ∃ r evs, Measure_R_Pin adc pos s =
        (r, pos + 1, { s with hw := s.hw ++ HwEvent.amuxFastSelect 0 :: evs }) ∧
      (∀ ch, evs.count (HwEvent.amuxFastSelect ch) = 0) ∧
      evs.countP isResultR = 0 ∧ evs.countP isResultC = 0 := by
  refine ⟨(Measure_R_Pin adc pos s).1,
    [HwEvent.pinRHiZ, HwEvent.idacSetPolaritySource, HwEvent.idacSetValue IDAC_R_CODE,
     HwEvent.delayMs 20, HwEvent.adcWaitResult,
     HwEvent.uartPrintf (lit "DBG_R: mv=%ld, Rraw=%ld, Rcal=%ld\r\n")
      [((adc pos : Int) : ℚ),
       (truncToInt (if ((adc pos : Int) : ℚ) / 1000 / IDAC_R_CURRENT_A < 0 then 0
          else ((adc pos : Int) : ℚ) / 1000 / IDAC_R_CURRENT_A) : ℚ),
       (truncToInt ((if ((adc pos : Int) : ℚ) / 1000 / IDAC_R_CURRENT_A < 0 then 0
          else ((adc pos : Int) : ℚ) / 1000 / IDAC_R_CURRENT_A) * R_CAL_GAIN) : ℚ)]], ?_, ?_, ?_, ?_⟩
  · simp only [Measure_R_Pin, List.append_assoc, List.cons_append, List.nil_append]
  · intro ch
    simp [List.count_cons]
  · simp [List.countP_cons, isResultR, fmt_dbgR_ne.1]
  · simp [List.countP_cons, isResultC, fmt_dbgR_ne.2.1]

/-- The driver calls of `Measure_C_Pin_uF`: channel 1 is selected first,
and no call after it selects a channel or sends a result line. -/
theorem measure_c_events (fuel : Nat) (adc : Nat → Int) (pos : Nat) (s : FwState)
    (hf : 50001 ≤ fuel) :
    ∃ c p evs, Measure_C_Pin_uF fuel adc pos s =
        some (c, p, { s with hw := s.hw ++ HwEvent.amuxFastSelect 1 :: evs }) ∧
      (∀ ch, evs.count (HwEvent.amuxFastSelect ch) = 0) ∧
      evs.countP isResultR = 0 ∧ evs.countP isResultC = 0 := by
  obtain ⟨t1, p1, k1, h1, _⟩ := wait_until_mv_shape fuel adc pos (chargeStart s) VSTART_MV hf
  obtain ⟨t2, p2, k2, h2, ht2⟩ := wait_until_mv_shape fuel adc p1 _ VEND_MV hf
  have hm := measure_c_unfold fuel adc pos s t1 p1 t2 p2 _ _ h1 h2 ht2
  have hrep : ∀ k : Nat, (∀ ch, (List.replicate k (HwEvent.delayUs SAMPLE_US)).count
        (HwEvent.amuxFastSelect ch) = 0) ∧
      (List.replicate k (HwEvent.delayUs SAMPLE_US)).countP isResultR = 0 ∧
      (List.replicate k (HwEvent.delayUs SAMPLE_US)).countP isResultC = 0 := by
    intro k
    refine ⟨fun ch => ?_, ?_, ?_⟩
    · apply List.count_eq_zero_of_not_mem
      intro hmem
      have := List.eq_of_mem_replicate hmem
      cases this
    · rw [List.countP_eq_zero]
      intro e he
      rw [List.eq_of_mem_replicate he]
      simp [isResultR]
    · rw [List.countP_eq_zero]
      intro e he
      rw [List.eq_of_mem_replicate he]
      simp [isResultC]
  by_cases hc : t1 = U32_SENTINEL ∨ t2 = U32_SENTINEL ∨ t2 ≤ t1
  · simp only [hc, if_true] at hm
    refine ⟨-1, p2, [HwEvent.idacSetValue 0, HwEvent.pinCStrong, HwEvent.pinCWrite 0,
      HwEvent.delayMs DISCHARGE_MS, HwEvent.pinCHiZ, HwEvent.delayUs 50,
      HwEvent.idacSetPolaritySource, HwEvent.idacSetValue IDAC_C_CODE]
      ++ List.replicate k1 (HwEvent.delayUs SAMPLE_US)
      ++ List.replicate k2 (HwEvent.delayUs SAMPLE_US)
      ++ [HwEvent.idacSetValue 0, HwEvent.uartPut (lit "DBG_C: timeout or bad dt\r\n")],
      ?_, ?_, ?_, ?_⟩
    · rw [hm]
      simp [chargeStart]
    · intro ch
      simp only [List.count_append, (hrep k1).1 ch, (hrep k2).1 ch]
      simp [List.count_cons]
    · simp only [List.countP_append, (hrep k1).2.1, (hrep k2).2.1]
      simp [List.countP_cons, isResultR]
    · simp only [List.countP_append, (hrep k1).2.2, (hrep k2).2.2]
      simp [List.countP_cons, isResultC]
  · simp only [hc, if_false] at hm
    refine ⟨168 / 1000000 * ((t2 - t1 : ℕ) : ℚ), p2,
      [HwEvent.idacSetValue 0, HwEvent.pinCStrong, HwEvent.pinCWrite 0,
      HwEvent.delayMs DISCHARGE_MS, HwEvent.pinCHiZ, HwEvent.delayUs 50,
      HwEvent.idacSetPolaritySource, HwEvent.idacSetValue IDAC_C_CODE]
      ++ List.replicate k1 (HwEvent.delayUs SAMPLE_US)
      ++ List.replicate k2 (HwEvent.delayUs SAMPLE_US)
      ++ [HwEvent.idacSetValue 0,
          HwEvent.uartPrintf (lit "DBG_C: dt=%lu us, C=%.3f uF\r\n")
            [((t2 - t1 : ℕ) : ℚ), 168 / 1000000 * ((t2 - t1 : ℕ) : ℚ)]], ?_, ?_, ?_, ?_⟩
    · rw [hm]
      simp [chargeStart]
    · intro ch
      simp only [List.count_append, (hrep k1).1 ch, (hrep k2).1 ch]
      simp [List.count_cons]
    · simp only [List.countP_append, (hrep k1).2.1, (hrep k2).2.1]
      simp [List.countP_cons, isResultR, fmt_dbgR_ne.2.2.1]
    · simp only [List.countP_append, (hrep k1).2.2, (hrep k2).2.2]
      simp [List.countP_cons, isResultC, fmt_dbgR_ne.2.2.2.1]

/-- The resistance branch in full. -/
theorem service_r_full (adc : Nat → Int) (pos : Nat) (s : FwState) :
    ∃ p eR, service_r adc pos s = (p, { s with meas_r_request := 0, hw := s.hw ++ eR }) ∧
      (s.meas_r_request = 0 → eR = [] ∧ p = pos) ∧
      (s.meas_r_request ≠ 0 → ∃ r evs,
        Measure_R_Pin adc pos { s with meas_r_request := 0 }
          = (r, pos + 1, { s with meas_r_request := 0, hw := s.hw ++ evs }) ∧
        eR = evs ++ [HwEvent.uartPrintf (lit "R_GND:%ld\r\n") [(r : ℚ)]]) ∧
      eR.count (HwEvent.amuxFastSelect 0) = (if s.meas_r_request ≠ 0 then 1 else 0) ∧
      eR.countP isResultR = (if s.meas_r_request ≠ 0 then 1 else 0) ∧
      eR.count (HwEvent.amuxFastSelect 1) = 0 ∧ eR.countP isResultC = 0 := by
  unfold service_r
  by_cases h : s.meas_r_request ≠ 0
  · simp only [if_pos h]
    obtain ⟨r, evs, hm, ha, hr, hc⟩ := measure_r_events adc pos { s with meas_r_request := 0 }
    rw [hm]
    refine ⟨pos + 1,
      HwEvent.amuxFastSelect 0 :: evs ++ [HwEvent.uartPrintf (lit "R_GND:%ld\r\n") [(r : ℚ)]],
      ?_, ?_, ?_, ?_, ?_, ?_, ?_⟩
    · simp
    · intro h0; exact absurd h0 h
    · intro _
      exact ⟨r, HwEvent.amuxFastSelect 0 :: evs, rfl, rfl⟩
    · simp [List.count_cons, List.count_append, ha 0]
    · simp [List.countP_cons, List.countP_append, hr, isResultR]
    · simp [List.count_cons, List.count_append, ha 1]
    · simp [List.countP_cons, List.countP_append, hc, isResultC, fmt_dbgR_ne.2.2.2.2.1]
  · have h0 : s.meas_r_request = 0 := by simpa using h
    simp only [if_neg h]
    refine ⟨pos, [], ?_, fun _ => ⟨rfl, rfl⟩, fun h1 => absurd h0 h1, by simp, by simp, by simp,
      by simp⟩
    cases s
    simp_all

/-- The capacitance branch in full. -/
theorem service_c_full (fuel : Nat) (adc : Nat → Int) (pos : Nat) (s : FwState)
    (hf : 50001 ≤ fuel) :
    ∃ p eC, service_c fuel adc pos s =
        some (p, { s with meas_c_request := 0, hw := s.hw ++ eC }) ∧
      (s.meas_c_request = 0 → eC = [] ∧ p = pos) ∧
      (s.meas_c_request ≠ 0 → ∃ c evs,
        Measure_C_Pin_uF fuel adc pos { s with meas_c_request := 0 }
          = some (c, p, { s with meas_c_request := 0, hw := s.hw ++ evs }) ∧
        eC = evs ++ [HwEvent.uartPrintf (lit "C_uF:%.3f\r\n") [c]]) ∧
      eC.count (HwEvent.amuxFastSelect 1) = (if s.meas_c_request ≠ 0 then 1 else 0) ∧
      eC.countP isResultC = (if s.meas_c_request ≠ 0 then 1 else 0) ∧
      eC.count (HwEvent.amuxFastSelect 0) = 0 ∧ eC.countP isResultR = 0 := by
  unfold service_c
  by_cases h : s.meas_c_request ≠ 0
  · simp only [if_pos h]
    obtain ⟨c, p, evs, hm, ha, hr, hc⟩ :=
      measure_c_events fuel adc pos { s with meas_c_request := 0 } hf
    rw [hm]
    refine ⟨p, HwEvent.amuxFastSelect 1 :: evs ++ [HwEvent.uartPrintf (lit "C_uF:%.3f\r\n") [c]],
      ?_, ?_, ?_, ?_, ?_, ?_, ?_⟩
    · simp
    · intro h0; exact absurd h0 h
    · intro _
      exact ⟨c, HwEvent.amuxFastSelect 1 :: evs, rfl, rfl⟩
    · simp [List.count_cons, List.count_append, ha 1]
    · simp [List.countP_cons, List.countP_append, hc, isResultC]
    · simp [List.count_cons, List.count_append, ha 0]
    · simp [List.countP_cons, List.countP_append, hr, isResultR, fmt_dbgR_ne.2.2.2.2.2]
  · have h0 : s.meas_c_request = 0 := by simpa using h
    simp only [if_neg h]
    refine ⟨pos, [], ?_, fun _ => ⟨rfl, rfl⟩, fun h1 => absurd h0 h1, by simp, by simp, by simp,
      by simp⟩
    cases s
    simp_all

/-- The frame branch in full: a ready frame is sent as header and buffer
and the flag is cleared; without a ready frame nothing happens. -/
theorem drainFrame_full (s : FwState) (hl : s.sampleBuffer.length = FRAME_SAMPLES) :
    drainFrame s = { s with
      frameReady := 0
      hw := s.hw ++ (if s.frameReady ≠ 0 then
        [HwEvent.uartPut [0xAA, 252], HwEvent.uartPut s.sampleBuffer] else []) } := by
  unfold drainFrame
  have ht : s.sampleBuffer.take FRAME_SAMPLES = s.sampleBuffer :=
    List.take_of_length_le (by rw [hl])
  by_cases h : s.frameReady ≠ 0
  · rw [if_pos h, if_pos h, ht]
    rfl
  · have h0 : s.frameReady = 0 := by simpa using h
    rw [if_neg h, if_neg h]
    cases s
    simp_all

/-! ## Command polling leaves the sampler alone -/

theorem rebuild_lut_scope (s : FwState) :
    (rebuild_lut s).sampleBuffer = s.sampleBuffer ∧ (rebuild_lut s).frameReady = s.frameReady := by
  unfold rebuild_lut
  by_cases h : s.amp_percent > 100
  · simp only [h, if_true]
    rw [rebuild_fold]
    exact ⟨rfl, rfl⟩
  · simp only [h, if_false]
    rw [rebuild_fold]
    exact ⟨rfl, rfl⟩

theorem set_amplitude_scope (s : FwState) (a : Nat) :
    (set_amplitude s a).sampleBuffer = s.sampleBuffer ∧
    (set_amplitude s a).frameReady = s.frameReady := by
  unfold set_amplitude
  by_cases h : a % 256 > 100
  · simp only [h, if_true]
    exact rebuild_lut_scope _
  · simp only [h, if_false]
    exact rebuild_lut_scope _

theorem set_wave_scope (s : FwState) (m : Nat) :
    (set_wave s m).sampleBuffer = s.sampleBuffer ∧ (set_wave s m).frameReady = s.frameReady := by
  unfold set_wave
  exact rebuild_lut_scope _

/-- `set_frequency` always returns and only adds its timer calls to the log. -/
theorem set_frequency_total (s : FwState) (f : Nat) :
    ∃ p, set_frequency s f = some { s with hw := s.hw ++ timerWrites p } := by
  obtain ⟨h, _, _⟩ := set_frequency_reload_eq f
  unfold set_frequency
  rw [h]
  exact ⟨_, rfl⟩

/-- One token always returns and leaves the sample buffer and the ready
flag as they are. -/
theorem process_token_scope (s : FwState) (t : List Nat) :
    ∃ s1, process_token s t = some s1 ∧ s1.sampleBuffer = s.sampleBuffer ∧
      s1.frameReady = s.frameReady := by
  unfold process_token
  by_cases h1 : strncmp_eq t (lit "FREQ:") 5 = true
  · rw [if_pos h1]
    obtain ⟨p, hp⟩ := set_frequency_total s (toU32 (atoi (t.drop 5)))
    exact ⟨_, hp, rfl, rfl⟩
  rw [if_neg h1]
  by_cases h2 : strncmp_eq t (lit "AMP:") 4 = true
  · rw [if_pos h2]
    exact ⟨_, rfl, set_amplitude_scope _ _⟩
  rw [if_neg h2]
  by_cases h3 : strncmp_eq t (lit "WAVE:") 5 = true
  · rw [if_pos h3]
    simp only []
    split_ifs
    · exact ⟨_, rfl, set_wave_scope _ _⟩
    · exact ⟨_, rfl, set_wave_scope _ _⟩
    · exact ⟨_, rfl, set_wave_scope _ _⟩
    · exact ⟨_, rfl, rfl, rfl⟩
  rw [if_neg h3]
  by_cases h4 : strncmp_eq t (lit "EN:") 3 = true
  · rw [if_pos h4]
    simp only []
    split_ifs
    · exact ⟨_, rfl, rfl, rfl⟩
    · exact ⟨_, rfl, rfl, rfl⟩
  rw [if_neg h4]
  by_cases h5 : strncmp_eq t (lit "MEAS:") 5 = true
  · rw [if_pos h5]
    simp only []
    split_ifs
    · exact ⟨_, rfl, rfl, rfl⟩
    · exact ⟨_, rfl, rfl, rfl⟩
    · exact ⟨_, rfl, rfl, rfl⟩
  rw [if_neg h5]
  exact ⟨_, rfl, rfl, rfl⟩

theorem process_tokens_scope (ts : List (List Nat)) :
    ∀ s : FwState, ∃ s1, process_tokens s ts = some s1 ∧ s1.sampleBuffer = s.sampleBuffer ∧
      s1.frameReady = s.frameReady := by
  induction ts with
  | nil => intro s; exact ⟨s, rfl, rfl, rfl⟩
  | cons t ts ih =>
    intro s
    obtain ⟨s1, h1, hb1, hf1⟩ := process_token_scope s t
    obtain ⟨s2, h2, hb2, hf2⟩ := ih s1
    refine ⟨s2, ?_, hb2.trans hb1, hf2.trans hf1⟩
    simp only [process_tokens, h1, h2]

theorem poll_byte_scope (s : FwState) (c : Nat) :
    ∃ s1, poll_byte s c = some s1 ∧ s1.sampleBuffer = s.sampleBuffer ∧
      s1.frameReady = s.frameReady := by
  unfold poll_byte
  simp only []
  split_ifs
  · obtain ⟨s1, h1, hb1, hf1⟩ := process_tokens_scope
      (strtok_tokens [] (s.cmdBuf.set s.cmdLen 0))
      { s with cmdBuf := strtok_buffer false (s.cmdBuf.set s.cmdLen 0) }
    refine ⟨{ s1 with cmdLen := 0 }, ?_, hb1, hf1⟩
    simp only [process_cmd, h1]
  · exact ⟨_, rfl, rfl, rfl⟩
  · exact ⟨_, rfl, rfl, rfl⟩
  · exact ⟨_, rfl, rfl, rfl⟩

/-- Command polling always returns and leaves the sample buffer and the
ready flag as they are. -/
theorem poll_uart_commands_scope (rx : List Nat) :
    ∀ s : FwState, ∃ s1, poll_uart_commands s rx = some s1 ∧
      s1.sampleBuffer = s.sampleBuffer ∧ s1.frameReady = s.frameReady := by
  induction rx with
  | nil => intro s; exact ⟨s, rfl, rfl, rfl⟩
  | cons c rx ih =>
    intro s
    obtain ⟨s1, h1, hb1, hf1⟩ := poll_byte_scope s c
    obtain ⟨s2, h2, hb2, hf2⟩ := ih s1
    refine ⟨s2, ?_, hb2.trans hb1, hf2.trans hf1⟩
    simp only [poll_uart_commands, h1, h2]

/-- The frame branch clears the ready flag, selects no channel and sends no
result line. -/
theorem drainFrame_events (s : FwState) :
    ∃ evs, drainFrame s = { s with frameReady := 0, hw := s.hw ++ evs } ∧
      (∀ ch, evs.count (HwEvent.amuxFastSelect ch) = 0) ∧
      evs.countP isResultR = 0 ∧ evs.countP isResultC = 0 := by
  unfold drainFrame
  by_cases h : s.frameReady ≠ 0
  · rw [if_pos h]
    exact ⟨_, rfl, fun ch => by simp [List.count_cons], by simp [List.countP_cons, isResultR],
      by simp [List.countP_cons, isResultC]⟩
  · have h0 : s.frameReady = 0 := by simpa using h
    rw [if_neg h]
    refine ⟨[], ?_, fun ch => by simp, by simp, by simp⟩
    cases s
    simp_all

/-! ## Frame packet -/

/-- Claim C22. One iteration of the `app_task` loop, started with a full
buffer of 252 samples: command polling returns a state `s1` with the sample
buffer and `frameReady` as before; the two measurement branches return a
state `sC` and add nothing to the log when no measurement is requested; and
the iteration ends in `sC` with `frameReady = 0` and, when `frameReady` was
not 0, with exactly two more UART writes in the log, the header `0xAA`, 252
(the frame length, which is below 256) and then the 252 bytes of
`sampleBuffer` in index order. When `frameReady` was 0 the frame branch adds
nothing. The sample buffer is the same at the end. -/
theorem frame_packet (fuel : Nat) (adc : Nat → Int) (pos : Nat) (s : FwState) (rx : List Nat)
    (hf : 50001 ≤ fuel) (hl : s.sampleBuffer.length = FRAME_SAMPLES) :
    ∃ s1 p1 sR p2 sC, poll_uart_commands s rx = some s1 ∧
      s1.frameReady = s.frameReady ∧ s1.sampleBuffer = s.sampleBuffer ∧
      service_r adc pos s1 = (p1, sR) ∧ service_c fuel adc p1 sR = some (p2, sC) ∧
      (s1.meas_r_request = 0 → s1.meas_c_request = 0 → sC = s1) ∧
      sC.frameReady = s.frameReady ∧ sC.sampleBuffer = s.sampleBuffer ∧
      app_task_iter fuel adc pos s rx = some (p2, { sC with
        frameReady := 0
        hw := sC.hw ++ (if s.frameReady ≠ 0 then
          [HwEvent.uartPut [0xAA, 252], HwEvent.uartPut s.sampleBuffer] else []) }) ∧
      FRAME_SAMPLES = 252 ∧ FRAME_SAMPLES < 256 ∧
      (∀ i, i < 252 → ∃ b, s.sampleBuffer[i]? = some b) := by
  obtain ⟨s1, hp, hb1, hf1⟩ := poll_uart_commands_scope rx s
  obtain ⟨p1, eR, hr, hr0, _⟩ := service_r_full adc pos s1
  obtain ⟨p2, eC, hc, hc0, _⟩ := service_c_full fuel adc p1
    { s1 with meas_r_request := 0, hw := s1.hw ++ eR } hf
  have hd := drainFrame_full
    { s1 with meas_r_request := 0, meas_c_request := 0, hw := s1.hw ++ eR ++ eC }
    (by rw [← hl, ← hb1])
  refine ⟨s1, p1, _, p2, _, hp, hf1, hb1, hr, hc, ?_, hf1, hb1, ?_, rfl, by decide, ?_⟩
  · intro h1 h2
    obtain ⟨e1, _⟩ := hr0 h1
    obtain ⟨e2, _⟩ := hc0 h2
    subst e1
    subst e2
    cases s1
    simp_all
  · unfold app_task_iter app_task_service
    simp only [hp, hr, hc]
    rw [hd]
    simp only [hb1, hf1]
  · intro i hi
    have hlt : i < s.sampleBuffer.length := by
      rw [hl]
      exact hi
    exact ⟨_, List.getElem?_eq_getElem hlt⟩

set_option maxRecDepth 100000 in
theorem frame_packet_witness :
    50001 ≤ 50001 ∧ latchedState.sampleBuffer.length = FRAME_SAMPLES ∧
    ∃ s1 p1 sR p2 sC, poll_uart_commands latchedState [] = some s1 ∧
      s1.frameReady = latchedState.frameReady ∧ s1.sampleBuffer = latchedState.sampleBuffer ∧
      service_r flatReadings 0 s1 = (p1, sR) ∧
      service_c 50001 flatReadings p1 sR = some (p2, sC) ∧
      (s1.meas_r_request = 0 → s1.meas_c_request = 0 → sC = s1) ∧
      sC.frameReady = latchedState.frameReady ∧ sC.sampleBuffer = latchedState.sampleBuffer ∧
      app_task_iter 50001 flatReadings 0 latchedState [] = some (p2, { sC with
        frameReady := 0
        hw := sC.hw ++ (if latchedState.frameReady ≠ 0 then
          [HwEvent.uartPut [0xAA, 252], HwEvent.uartPut latchedState.sampleBuffer] else []) }) ∧
      FRAME_SAMPLES = 252 ∧ FRAME_SAMPLES < 256 ∧
      (∀ i, i < 252 → ∃ b, latchedState.sampleBuffer[i]? = some b) :=
  ⟨by decide, rfl, frame_packet 50001 flatReadings 0 latchedState [] (by decide) rfl⟩

/-! ## Measurement requests -/

/-- Claim C23. One iteration of the `app_task` loop: command polling returns
a state `s1`. The resistance branch leaves `meas_r_request = 0`; if the flag
was set in `s1` it calls `Measure_R_Pin` once, on a state in which the flag
is already 0, and then sends one `R_GND` line with the value returned; if
the flag was clear it does nothing. The capacitance branch runs after it
and does the same with `meas_c_request`, `Measure_C_Pin_uF` and the `C_uF`
line. The log of the iteration is the events of the resistance branch, then
those of the capacitance branch, then those of the frame branch; in it
multiplexer channel 0 is selected and an `R_GND` line is sent once if
`meas_r_request` was set and not at all otherwise, and likewise channel 1
and the `C_uF` line for `meas_c_request`. Both flags are 0 at the end. -/
theorem requests_serviced (fuel : Nat) (adc : Nat → Int) (pos : Nat) (s : FwState)
    (rx : List Nat) (hf : 50001 ≤ fuel) :
    ∃ s1 pR eR pC eC eF, poll_uart_commands s rx = some s1 ∧
      service_r adc pos s1 = (pR, { s1 with meas_r_request := 0, hw := s1.hw ++ eR }) ∧
      (s1.meas_r_request = 0 → eR = [] ∧ pR = pos) ∧
      (s1.meas_r_request ≠ 0 → ∃ r evs,
        Measure_R_Pin adc pos { s1 with meas_r_request := 0 }
          = (r, pos + 1, { s1 with meas_r_request := 0, hw := s1.hw ++ evs }) ∧
        eR = evs ++ [HwEvent.uartPrintf (lit "R_GND:%ld\r\n") [(r : ℚ)]]) ∧
      service_c fuel adc pR { s1 with meas_r_request := 0, hw := s1.hw ++ eR } =
        some (pC, { s1 with meas_r_request := 0, meas_c_request := 0, hw := s1.hw ++ eR ++ eC }) ∧
      (s1.meas_c_request = 0 → eC = [] ∧ pC = pR) ∧
      (s1.meas_c_request ≠ 0 → ∃ c evs,
        Measure_C_Pin_uF fuel adc pR
            { s1 with meas_r_request := 0, meas_c_request := 0, hw := s1.hw ++ eR }
          = some (c, pC,
            { s1 with meas_r_request := 0, meas_c_request := 0, hw := s1.hw ++ eR ++ evs }) ∧
        eC = evs ++ [HwEvent.uartPrintf (lit "C_uF:%.3f\r\n") [c]]) ∧
      app_task_iter fuel adc pos s rx = some (pC, { s1 with
        meas_r_request := 0, meas_c_request := 0, frameReady := 0,
        hw := s1.hw ++ (eR ++ eC ++ eF) }) ∧
      (eR ++ eC ++ eF).count (HwEvent.amuxFastSelect 0)
        = (if s1.meas_r_request ≠ 0 then 1 else 0) ∧
      (eR ++ eC ++ eF).countP isResultR = (if s1.meas_r_request ≠ 0 then 1 else 0) ∧
      (eR ++ eC ++ eF).count (HwEvent.amuxFastSelect 1)
        = (if s1.meas_c_request ≠ 0 then 1 else 0) ∧
      (eR ++ eC ++ eF).countP isResultC = (if s1.meas_c_request ≠ 0 then 1 else 0) ∧
      eR.count (HwEvent.amuxFastSelect 1) = 0 ∧ eR.countP isResultC = 0 ∧
      eC.count (HwEvent.amuxFastSelect 0) = 0 ∧ eC.countP isResultR = 0 := by
  obtain ⟨s1, hp, _, _⟩ := poll_uart_commands_scope rx s
  obtain ⟨pR, eR, hr, hr0, hr1, hra, hrr, hrx, hry⟩ := service_r_full adc pos s1
  obtain ⟨pC, eC, hc, hc0, hc1, hca, hcr, hcx, hcy⟩ := service_c_full fuel adc pR
    { s1 with meas_r_request := 0, hw := s1.hw ++ eR } hf
  obtain ⟨eF, hd, hd0, hdR⟩ := drainFrame_events
    { s1 with meas_r_request := 0, meas_c_request := 0, hw := s1.hw ++ eR ++ eC }
  refine ⟨s1, pR, eR, pC, eC, eF, hp, hr, hr0, hr1, hc, hc0, hc1, ?_, ?_, ?_, ?_, ?_,
    hrx, hry, hcx, hcy⟩
  · unfold app_task_iter app_task_service
    simp only [hp, hr, hc]
    rw [hd]
    simp [List.append_assoc]
  · simp only [List.count_append, hra, hcx, hd0 0]
    simp
  · simp only [List.countP_append, hrr, hcy, hdR.1]
    simp
  · simp only [List.count_append, hrx, hca, hd0 1]
    simp
  · simp only [List.countP_append, hry, hcr, hdR.2]
    simp

theorem requests_serviced_witness :
    50001 ≤ 50001 ∧
    ∃ s1 pR eR pC eC eF, poll_uart_commands initState (lit "MEAS:R,MEAS:C\n") = some s1 ∧
      service_r flatReadings 0 s1 = (pR, { s1 with meas_r_request := 0, hw := s1.hw ++ eR }) ∧
      (s1.meas_r_request = 0 → eR = [] ∧ pR = 0) ∧
      (s1.meas_r_request ≠ 0 → ∃ r evs,
        Measure_R_Pin flatReadings 0 { s1 with meas_r_request := 0 }
          = (r, 0 + 1, { s1 with meas_r_request := 0, hw := s1.hw ++ evs }) ∧
        eR = evs ++ [HwEvent.uartPrintf (lit "R_GND:%ld\r\n") [(r : ℚ)]]) ∧
      service_c 50001 flatReadings pR { s1 with meas_r_request := 0, hw := s1.hw ++ eR } =
        some (pC, { s1 with meas_r_request := 0, meas_c_request := 0, hw := s1.hw ++ eR ++ eC }) ∧
      (s1.meas_c_request = 0 → eC = [] ∧ pC = pR) ∧
      (s1.meas_c_request ≠ 0 → ∃ c evs,
        Measure_C_Pin_uF 50001 flatReadings pR
            { s1 with meas_r_request := 0, meas_c_request := 0, hw := s1.hw ++ eR }
          = some (c, pC,
            { s1 with meas_r_request := 0, meas_c_request := 0, hw := s1.hw ++ eR ++ evs }) ∧
        eC = evs ++ [HwEvent.uartPrintf (lit "C_uF:%.3f\r\n") [c]]) ∧
      app_task_iter 50001 flatReadings 0 initState (lit "MEAS:R,MEAS:C\n") = some (pC, { s1 with
        meas_r_request := 0, meas_c_request := 0, frameReady := 0,
        hw := s1.hw ++ (eR ++ eC ++ eF) }) ∧
      (eR ++ eC ++ eF).count (HwEvent.amuxFastSelect 0)
        = (if s1.meas_r_request ≠ 0 then 1 else 0) ∧
      (eR ++ eC ++ eF).countP isResultR = (if s1.meas_r_request ≠ 0 then 1 else 0) ∧
      (eR ++ eC ++ eF).count (HwEvent.amuxFastSelect 1)
        = (if s1.meas_c_request ≠ 0 then 1 else 0) ∧
      (eR ++ eC ++ eF).countP isResultC = (if s1.meas_c_request ≠ 0 then 1 else 0) ∧
      eR.count (HwEvent.amuxFastSelect 1) = 0 ∧ eR.countP isResultC = 0 ∧
      eC.count (HwEvent.amuxFastSelect 0) = 0 ∧ eC.countP isResultR = 0 :=
  ⟨by decide, requests_serviced 50001 flatReadings 0 initState (lit "MEAS:R,MEAS:C\n")
    (by decide)⟩

/-! ## Arguments that are not numbers or not names -/

theorem atoi_digits_no_digit (l : List Nat) (h : startsWithDigit l = false) :
    atoi_digits 0 l = 0 := by
  cases l with
  | nil => rfl
  | cons c cs =>
    have hc : ¬ (48 ≤ c ∧ c ≤ 57) := by simpa [startsWithDigit] using h
    simp only [atoi_digits, hc, if_false]

/-- `atoi` returns 0 for a text without a digit after white space and
sign. -/
theorem atoi_no_digit (t : List Nat) (h : startsWithDigit (afterSign t) = false) :
    atoi t = 0 := by
  unfold afterSign at h
  unfold atoi
  generalize t.dropWhile isspace = d at h
  split at h
  · simp only [atoi_digits_no_digit _ h]
    rfl
  · simp only [atoi_digits_no_digit _ h]
    rfl
  · simp only [atoi_digits_no_digit _ h]
    rfl

/-- The token `FREQ:<text>` calls `set_frequency` with `(uint32)atoi(text)`. -/
theorem process_token_freq_text (s : FwState) (text : List Nat) :
    process_token s (lit "FREQ:" ++ text) = set_frequency s (toU32 (atoi text)) := by
  unfold process_token
  have h1 : strncmp_eq (lit "FREQ:" ++ text) (lit "FREQ:") 5 = true := by
    simp [strncmp_eq, lit_FREQ]
  have h2 : (lit "FREQ:" ++ text).drop 5 = text := by
    simp [lit_FREQ]
  simp only [h1, if_true, h2]

/-- The token `AMP:<text>` calls `set_amplitude` with `atoi(text)` clamped
to [0,100]. -/
theorem process_token_amp_text (s : FwState) (text : List Nat) :
    process_token s (lit "AMP:" ++ text)
      = some (set_amplitude s ((if (if atoi text < 0 then 0 else atoi text) > 100 then 100
          else (if atoi text < 0 then 0 else atoi text)).toNat % 256)) := by
  unfold process_token
  have h0 : strncmp_eq (lit "AMP:" ++ text) (lit "FREQ:") 5 = false := by
    simp [strncmp_eq, lit_FREQ, lit_AMP]
  have h1 : strncmp_eq (lit "AMP:" ++ text) (lit "AMP:") 4 = true := by
    simp [strncmp_eq, lit_AMP]
  have h2 : (lit "AMP:" ++ text).drop 4 = text := by
    simp [lit_AMP]
  simp only [h0, h1, if_true, h2, Bool.false_eq_true, if_false]

/-- The token `EN:<text>` tests `atoi(text)`. -/
theorem process_token_en_text (s : FwState) (text : List Nat) :
    process_token s (lit "EN:" ++ text)
      = (if atoi text ≠ 0 then some { s with wave_enabled := 1 }
         else some { s with
           wave_enabled := 0, hw := s.hw ++ [HwEvent.dacSetValue 0], waveIndex := 0 }) := by
  unfold process_token
  have h0 : strncmp_eq (lit "EN:" ++ text) (lit "FREQ:") 5 = false := by
    simp [strncmp_eq, lit_FREQ, lit_EN]
  have h1 : strncmp_eq (lit "EN:" ++ text) (lit "AMP:") 4 = false := by
    simp [strncmp_eq, lit_AMP, lit_EN]
  have h2 : strncmp_eq (lit "EN:" ++ text) (lit "WAVE:") 5 = false := by
    simp [strncmp_eq, lit_WAVE, lit_EN]
  have h3 : strncmp_eq (lit "EN:" ++ text) (lit "EN:") 3 = true := by
    simp [strncmp_eq, lit_EN]
  have h4 : (lit "EN:" ++ text).drop 3 = text := by
    simp [lit_EN]
  simp only [h0, h1, h2, h3, if_true, h4, Bool.false_eq_true, if_false]

/-- The token `WAVE:<text>` compares the text with the three names. -/
theorem process_token_wave_text (s : FwState) (text : List Nat) :
    process_token s (lit "WAVE:" ++ text)
      = (if text = lit "SINE" then some (set_wave s 0)
         else if text = lit "TRI" then some (set_wave s 1)
         else if text = lit "SQR" then some (set_wave s 2)
         else some s) := by
  unfold process_token
  have h0 : strncmp_eq (lit "WAVE:" ++ text) (lit "FREQ:") 5 = false := by
    simp [strncmp_eq, lit_FREQ, lit_WAVE]
  have h1 : strncmp_eq (lit "WAVE:" ++ text) (lit "AMP:") 4 = false := by
    simp [strncmp_eq, lit_AMP, lit_WAVE]
  have h2 : strncmp_eq (lit "WAVE:" ++ text) (lit "WAVE:") 5 = true := by
    simp [strncmp_eq, lit_WAVE]
  have h3 : (lit "WAVE:" ++ text).drop 5 = text := by
    simp [lit_WAVE]
  simp only [h0, h1, h2, if_true, h3, Bool.false_eq_true, if_false, strcmp_eq, beq_iff_eq]

/-- A line that is a single token is processed as that token. -/
theorem process_cmd_single (s : FwState) (t rest : List Nat) (hne : t ≠ [])
    (hc : ∀ c ∈ t, c ≠ 0 ∧ c ≠ 44) (hbuf : s.cmdBuf = t ++ 0 :: rest) :
    process_cmd s = process_token s t := by
  unfold process_cmd
  rw [hbuf, strtok_tokens_nul t rest hne hc, strtok_buffer_token t hc, ← hbuf]
  show process_tokens s [t] = process_token s t
  simp only [process_tokens]
  cases process_token s t <;> rfl

theorem lit_abc : lit "abc" = [97, 98, 99] := by decide

/-- The reload value is the same for every request of 3000 Hz or more. -/
theorem set_frequency_high (s : FwState) (f : Nat) (hf : 3000 ≤ f) :
    set_frequency s f = set_frequency s 3000 := by
  obtain ⟨h, _, _⟩ := set_frequency_reload_eq f
  obtain ⟨h3, _, _⟩ := set_frequency_reload_eq 3000
  have e : min (max f 1) 3000 = min (max 3000 1) 3000 := by omega
  unfold set_frequency
  rw [h, h3, e]

/-- The settings of `set_frequency` at the two ends of its range. -/
theorem set_frequency_ends (s : FwState) :
    set_frequency s 0 = some { s with hw := s.hw ++ timerWrites 15624 } ∧
    set_frequency s 1 = some { s with hw := s.hw ++ timerWrites 15624 } ∧
    set_frequency s 3000 = some { s with hw := s.hw ++ timerWrites 4 } := by
  have e0 : set_frequency_reload 0 = some 15624 := by decide
  have e1 : set_frequency_reload 1 = some 15624 := by decide
  have e3 : set_frequency_reload 3000 = some 4 := by decide
  refine ⟨?_, ?_, ?_⟩
  · unfold set_frequency
    rw [e0]
  · unfold set_frequency
    rw [e1]
  · unfold set_frequency
    rw [e3]

/-- Claim C25. For every argument text that has no decimal digit after its
leading white space and sign, `atoi` returns 0 and the token `FREQ:<text>`
calls `set_frequency(0)`, which programs the timer exactly as
`set_frequency(1)` does: stop, counter 0, period register 15624, start. -/
theorem freq_non_numeric (s : FwState) (text : List Nat)
    (h : startsWithDigit (afterSign text) = false) :
    atoi text = 0 ∧
    process_token s (lit "FREQ:" ++ text) = set_frequency s 0 ∧
    process_token s (lit "FREQ:" ++ text) = set_frequency s 1 ∧
    set_frequency s 1 = some { s with hw := s.hw ++
      [HwEvent.timerStop, HwEvent.timerWriteCounter 0, HwEvent.timerWritePeriod 15624,
       HwEvent.timerStart] } := by
  have h0 := atoi_no_digit text h
  have hz : toU32 0 = 0 := by decide
  obtain ⟨e0, e1, _⟩ := set_frequency_ends s
  have hp : process_token s (lit "FREQ:" ++ text) = set_frequency s 0 := by
    rw [process_token_freq_text, h0, hz]
  refine ⟨h0, hp, ?_, ?_⟩
  · rw [hp, e0, e1]
  · rw [e1]
    rfl

theorem freq_non_numeric_witness :
    startsWithDigit (afterSign (lit "abc")) = false ∧
    (atoi (lit "abc") = 0 ∧
    process_token initState (lit "FREQ:" ++ lit "abc") = set_frequency initState 0 ∧
    process_token initState (lit "FREQ:" ++ lit "abc") = set_frequency initState 1 ∧
    set_frequency initState 1 = some { initState with hw := initState.hw ++
      [HwEvent.timerStop, HwEvent.timerWriteCounter 0, HwEvent.timerWritePeriod 15624,
       HwEvent.timerStart] }) :=
  ⟨by decide, freq_non_numeric initState (lit "abc") (by decide)⟩

/-- Claim C26. A token `WAVE:<text>` whose text is none of `SINE`, `TRI`,
`SQR` leaves the whole state as it is, and so does a line that consists of
this token alone. The tokens `WAVE:SINE`, `WAVE:TRI` and `WAVE:SQR` set
`waveMode` to 0, 1 and 2 and refill `waveLUT` from `sineBase`, `triBase`
and `sqrBase` at the current `amp_percent`, and change nothing else. -/
theorem wave_token (s : FwState) (text : List Nat) (hl : s.waveLUT.length = LUT_SIZE)
    (hp : s.amp_percent ≤ 100) :
    (text ≠ lit "SINE" → text ≠ lit "TRI" → text ≠ lit "SQR" →
      process_token s (lit "WAVE:" ++ text) = some s ∧
      ∀ rest, (∀ c ∈ text, c ≠ 0 ∧ c ≠ 44) → s.cmdBuf = lit "WAVE:" ++ text ++ 0 :: rest →
        process_cmd s = some s) ∧
    process_token s (lit "WAVE:" ++ lit "SINE") = some { s with
      waveMode := 0
      waveLUT := (List.range LUT_SIZE).map
        (fun i => scaleSample (s.sineBase.getD i 0) s.amp_percent) } ∧
    process_token s (lit "WAVE:" ++ lit "TRI") = some { s with
      waveMode := 1
      waveLUT := (List.range LUT_SIZE).map
        (fun i => scaleSample (s.triBase.getD i 0) s.amp_percent) } ∧
    process_token s (lit "WAVE:" ++ lit "SQR") = some { s with
      waveMode := 2
      waveLUT := (List.range LUT_SIZE).map
        (fun i => scaleSample (s.sqrBase.getD i 0) s.amp_percent) } := by
  have hne1 : lit "TRI" ≠ lit "SINE" := by decide
  have hne2 : lit "SQR" ≠ lit "SINE" := by decide
  have hne3 : lit "SQR" ≠ lit "TRI" := by decide
  refine ⟨?_, ?_, ?_, ?_⟩
  · intro h1 h2 h3
    have key : process_token s (lit "WAVE:" ++ text) = some s := by
      rw [process_token_wave_text, if_neg h1, if_neg h2, if_neg h3]
    refine ⟨key, ?_⟩
    intro rest hc hbuf
    have hc2 : ∀ c ∈ lit "WAVE:" ++ text, c ≠ 0 ∧ c ≠ 44 := by
      intro c hmem
      rcases List.mem_append.mp hmem with hm | hm
      · rw [lit_WAVE] at hm
        simp at hm
        omega
      · exact hc c hm
    have hne : lit "WAVE:" ++ text ≠ [] := by
      rw [lit_WAVE]
      simp
    rw [process_cmd_single s (lit "WAVE:" ++ text) rest hne hc2 hbuf, key]
  · rw [process_token_wave_text, if_pos rfl]
    unfold set_wave
    rw [rebuild_lut_eq { s with waveMode := 0 % 256 } hl hp]
    rfl
  · rw [process_token_wave_text, if_neg hne1, if_pos rfl]
    unfold set_wave
    rw [rebuild_lut_eq { s with waveMode := 1 % 256 } hl hp]
    rfl
  · rw [process_token_wave_text, if_neg hne2, if_neg hne3, if_pos rfl]
    unfold set_wave
    rw [rebuild_lut_eq { s with waveMode := 2 % 256 } hl hp]
    rfl

set_option maxRecDepth 100000 in
theorem wave_token_witness :
    bootTables.waveLUT.length = LUT_SIZE ∧ bootTables.amp_percent ≤ 100 ∧
    ((lit "sine" ≠ lit "SINE" → lit "sine" ≠ lit "TRI" → lit "sine" ≠ lit "SQR" →
      process_token bootTables (lit "WAVE:" ++ lit "sine") = some bootTables ∧
      ∀ rest, (∀ c ∈ lit "sine", c ≠ 0 ∧ c ≠ 44) → bootTables.cmdBuf = lit "WAVE:" ++ lit "sine" ++ 0 :: rest →
        process_cmd bootTables = some bootTables) ∧
    process_token bootTables (lit "WAVE:" ++ lit "SINE") = some { bootTables with
      waveMode := 0
      waveLUT := (List.range LUT_SIZE).map
        (fun i => scaleSample (bootTables.sineBase.getD i 0) bootTables.amp_percent) } ∧
    process_token bootTables (lit "WAVE:" ++ lit "TRI") = some { bootTables with
      waveMode := 1
      waveLUT := (List.range LUT_SIZE).map
        (fun i => scaleSample (bootTables.triBase.getD i 0) bootTables.amp_percent) } ∧
    process_token bootTables (lit "WAVE:" ++ lit "SQR") = some { bootTables with
      waveMode := 2
      waveLUT := (List.range LUT_SIZE).map
        (fun i => scaleSample (bootTables.sqrBase.getD i 0) bootTables.amp_percent) }) :=
  ⟨by decide, by decide, wave_token bootTables (lit "sine") (by decide) (by decide)⟩

/-! ## Enable and amplitude tokens without a number -/

theorem scaleSample_zero (b : Nat) : scaleSample b 0 = 0 := by
  simp [scaleSample]

/-- `set_amplitude(0)` fills the active table with zeros. -/
theorem set_amplitude_zero (s : FwState) (hl : s.waveLUT.length = LUT_SIZE) :
    set_amplitude s 0 = { s with amp_percent := 0, waveLUT := List.replicate LUT_SIZE 0 } := by
  rw [set_amplitude_eq s 0 hl (by omega)]
  have : (List.range LUT_SIZE).map (fun i => scaleSample ((selectedBase s).getD i 0) 0)
      = List.replicate LUT_SIZE 0 := by
    simp only [scaleSample_zero]
    decide
  rw [this]

/-- The token `AMP:<text>` for a text that `atoi` reads as 0. -/
theorem process_token_amp_zero (s : FwState) (text : List Nat) (h0 : atoi text = 0) :
    process_token s (lit "AMP:" ++ text) = some (set_amplitude s 0) := by
  rw [process_token_amp_text, h0]
  rfl

/-- Claim C27 fails as stated. With the output enabled, the phase cursor at
63 and the amplitude at 100 percent, the token `EN:abc` clears
`wave_enabled`, resets `waveIndex` to 0 and writes 0 to the DAC, and so does
the token `EN:` with an empty argument; the token `AMP:abc` sets
`amp_percent` to 0 and the active table entry 63 falls from 255 to 0, and so
does `AMP:` with an empty argument. Neither `abc` nor the empty text is the
decimal numeral of an integer. -/
theorem malformed_en_amp_not_ignored :
    lastPhaseState.wave_enabled = 1 ∧ lastPhaseState.waveIndex = 63 ∧
    lastPhaseState.amp_percent = 100 ∧ lastPhaseState.waveLUT.getD 63 0 = 255 ∧
    lastPhaseState.hw = [] ∧
    (∀ n : Int, lit "abc" ≠ intDecimal n) ∧ (∀ n : Int, lit "" ≠ intDecimal n) ∧
    (∃ s1, process_token lastPhaseState (lit "EN:abc") = some s1 ∧
      s1.wave_enabled = 0 ∧ s1.waveIndex = 0 ∧ s1.hw = [HwEvent.dacSetValue 0]) ∧
    (∃ s1, process_token lastPhaseState (lit "EN:") = some s1 ∧
      s1.wave_enabled = 0 ∧ s1.waveIndex = 0 ∧ s1.hw = [HwEvent.dacSetValue 0]) ∧
    (∃ s1, process_token lastPhaseState (lit "AMP:abc") = some s1 ∧
      s1.amp_percent = 0 ∧ s1.waveLUT.getD 63 0 = 0) ∧
    (∃ s1, process_token lastPhaseState (lit "AMP:") = some s1 ∧
      s1.amp_percent = 0 ∧ s1.waveLUT.getD 63 0 = 0) := by
  have hl : lastPhaseState.waveLUT.length = LUT_SIZE := by decide
  have a1 : atoi (lit "abc") = 0 := by decide
  have a2 : atoi (lit "") = 0 := by decide
  have e1 : lit "EN:abc" = lit "EN:" ++ lit "abc" := by decide
  have e2 : lit "EN:" = lit "EN:" ++ lit "" := by decide
  have e3 : lit "AMP:abc" = lit "AMP:" ++ lit "abc" := by decide
  have e4 : lit "AMP:" = lit "AMP:" ++ lit "" := by decide
  refine ⟨by decide, by decide, by decide, by decide, by decide, ?_, ?_, ?_, ?_, ?_, ?_⟩
  · intro n hn
    unfold intDecimal at hn
    split_ifs at hn
    · rw [lit_abc] at hn
      injection hn with h1 _
      omega
    · have := decimal_digit n.toNat 97 (by rw [← hn, lit_abc]; simp)
      omega
  · intro n hn
    have e : lit "" = [] := rfl
    rw [e] at hn
    unfold intDecimal at hn
    split_ifs at hn
    exact decimal_ne_nil n.toNat hn.symm
  · rw [e1, process_token_en_text, a1]
    exact ⟨_, rfl, rfl, rfl, rfl⟩
  · rw [e2, process_token_en_text, a2]
    exact ⟨_, rfl, rfl, rfl, rfl⟩
  · rw [e3, process_token_amp_zero _ _ a1, set_amplitude_zero _ hl]
    exact ⟨_, rfl, rfl, by decide⟩
  · rw [e4, process_token_amp_zero _ _ a2, set_amplitude_zero _ hl]
    exact ⟨_, rfl, rfl, by decide⟩

/-- Claim C27, amended. For every argument text that has no decimal digit
after its leading white space and sign (an empty or alphabetic text, for
example), the token `EN:<text>` acts as `EN:0`: it clears `wave_enabled`,
writes 0 to the DAC and resets `waveIndex`. The token `AMP:<text>` acts as
`AMP:0`: it sets `amp_percent` to 0 and fills the active table with zeros.
Neither changes anything else. -/
theorem malformed_en_amp (s : FwState) (text : List Nat)
    (h : startsWithDigit (afterSign text) = false) (hl : s.waveLUT.length = LUT_SIZE) :
    process_token s (lit "EN:" ++ text) = some { s with
      wave_enabled := 0, hw := s.hw ++ [HwEvent.dacSetValue 0], waveIndex := 0 } ∧
    process_token s (lit "EN:" ++ text) = process_token s (lit "EN:0") ∧
    process_token s (lit "AMP:" ++ text) = some { s with
      amp_percent := 0, waveLUT := List.replicate LUT_SIZE 0 } ∧
    process_token s (lit "AMP:" ++ text) = process_token s (lit "AMP:0") := by
  have h0 := atoi_no_digit text h
  have a0 : atoi (lit "0") = 0 := by decide
  have e1 : lit "EN:0" = lit "EN:" ++ lit "0" := by decide
  have e2 : lit "AMP:0" = lit "AMP:" ++ lit "0" := by decide
  have hen : process_token s (lit "EN:" ++ text) = some { s with
      wave_enabled := 0, hw := s.hw ++ [HwEvent.dacSetValue 0], waveIndex := 0 } := by
    rw [process_token_en_text, h0]
    rfl
  have hamp : process_token s (lit "AMP:" ++ text) = some { s with
      amp_percent := 0, waveLUT := List.replicate LUT_SIZE 0 } := by
    rw [process_token_amp_zero _ _ h0, set_amplitude_zero s hl]
  refine ⟨hen, ?_, hamp, ?_⟩
  · rw [hen, e1, process_token_en_text, a0]
    rfl
  · rw [hamp, e2, process_token_amp_zero _ _ a0, set_amplitude_zero s hl]

set_option maxRecDepth 100000 in
theorem malformed_en_amp_witness :
    startsWithDigit (afterSign (lit "abc")) = false ∧
    lastPhaseState.waveLUT.length = LUT_SIZE ∧
    (process_token lastPhaseState (lit "EN:" ++ lit "abc") = some { lastPhaseState with
      wave_enabled := 0, hw := lastPhaseState.hw ++ [HwEvent.dacSetValue 0], waveIndex := 0 } ∧
    process_token lastPhaseState (lit "EN:" ++ lit "abc")
      = process_token lastPhaseState (lit "EN:0") ∧
    process_token lastPhaseState (lit "AMP:" ++ lit "abc") = some { lastPhaseState with
      amp_percent := 0, waveLUT := List.replicate LUT_SIZE 0 } ∧
    process_token lastPhaseState (lit "AMP:" ++ lit "abc")
      = process_token lastPhaseState (lit "AMP:0")) :=
  ⟨by decide, by decide, malformed_en_amp lastPhaseState (lit "abc") (by decide) (by decide)⟩

/-! ## Negative frequency arguments -/

/-- The token `FREQ:<n>` for a negative `n` of type `int` asks for 3000 Hz:
the cast to `uint32` comes before the clamp. -/
theorem process_token_freq_negative (s : FwState) (n : Int) (hlo : -2147483648 ≤ n)
    (hn : n < 0) :
    process_token s (lit "FREQ:" ++ intDecimal n) = set_frequency s 3000 := by
  rw [process_token_freq_text, atoi_intDecimal]
  apply set_frequency_high
  unfold toU32
  omega

/-- Claim C28 fails on the code. The argument of `FREQ:` is cast to
`uint32` before `set_frequency` clamps it, so a negative `n` arrives as
`n + 2^32` and is clamped from above: the token `FREQ:-5` programs the
period register with 4, the 3000 Hz setting, where `set_frequency(1)`
programs it with 15624; and every negative `n` of type `int` gives the
3000 Hz setting. -/
theorem freq_negative_wraps :
    lit "FREQ:-5" = lit "FREQ:" ++ intDecimal (-5) ∧
    toU32 (atoi (intDecimal (-5))) = 4294967291 ∧
    process_token initState (lit "FREQ:-5") = some { initState with hw := timerWrites 4 } ∧
    set_frequency initState 3000 = some { initState with hw := timerWrites 4 } ∧
    set_frequency initState 1 = some { initState with hw := timerWrites 15624 } ∧
    process_token initState (lit "FREQ:-5") ≠ set_frequency initState 1 ∧
    (∀ (s : FwState) (n : Int), -2147483648 ≤ n → n < 0 →
      process_token s (lit "FREQ:" ++ intDecimal n) = set_frequency s 3000 ∧
      set_frequency s 3000 ≠ set_frequency s 1) := by
  have hd : intDecimal (-5) = [45, 53] := by
    simp [intDecimal, decimal]
  have hl : lit "FREQ:-5" = lit "FREQ:" ++ intDecimal (-5) := by
    rw [hd]
    decide
  have hne : ∀ s : FwState, set_frequency s 3000 ≠ set_frequency s 1 := by
    intro s heq
    obtain ⟨_, e1, e3⟩ := set_frequency_ends s
    rw [e1, e3] at heq
    have h2 := congrArg (fun o => o.map (fun u => u.hw.length)) heq
    simp [timerWrites] at h2
    have h3 := congrArg (fun o => o.map (fun u => u.hw.drop s.hw.length)) heq
    simp [timerWrites] at h3
  obtain ⟨_, e1, e3⟩ := set_frequency_ends initState
  have hp : process_token initState (lit "FREQ:-5") = some { initState with hw := timerWrites 4 } := by
    rw [hl, process_token_freq_negative initState (-5) (by decide) (by decide), e3]
    rfl
  refine ⟨hl, ?_, hp, ?_, ?_, ?_, ?_⟩
  · rw [atoi_intDecimal]
    decide
  · rw [e3]
    rfl
  · rw [e1]
    rfl
  · rw [hl, process_token_freq_negative initState (-5) (by decide) (by decide)]
    exact hne initState
  · intro s n hlo hn
    exact ⟨process_token_freq_negative s n hlo hn, hne s⟩

/-! ## Sine table -/

/-- `my_sin_approx` on an argument that needs no wrapping. -/
theorem my_sin_approx_low (f : Nat) (t : ℚ) (h0 : -SIN_PI ≤ t) (h1 : t ≤ SIN_PI) :
    my_sin_approx (f + 1) t = some (t - t * (t * t) / 6 + t * (t * t) * (t * t) / 120) := by
  have a : ¬ (t > SIN_PI) := not_lt.mpr h1
  have b : ¬ (t < -SIN_PI) := not_lt.mpr h0
  simp only [my_sin_approx, wrap_down, wrap_up, a, b, if_false]

/-- `my_sin_approx` on an argument that the first loop wraps once. -/
theorem my_sin_approx_high (f : Nat) (t : ℚ) (h0 : SIN_PI < t) (h1 : t ≤ SIN_PI + SIN_TWO_PI) :
    my_sin_approx (f + 2) t = some ((t - SIN_TWO_PI) - (t - SIN_TWO_PI) *
      ((t - SIN_TWO_PI) * (t - SIN_TWO_PI)) / 6 + (t - SIN_TWO_PI) *
      ((t - SIN_TWO_PI) * (t - SIN_TWO_PI)) * ((t - SIN_TWO_PI) * (t - SIN_TWO_PI)) / 120) := by
  have a : t > SIN_PI := h0
  have a2 : ¬ (t - SIN_TWO_PI > SIN_PI) := by
    rw [gt_iff_lt, not_lt]
    linarith
  have b : ¬ (t - SIN_TWO_PI < -SIN_PI) := by
    rw [not_lt]
    have : SIN_TWO_PI = SIN_PI + SIN_PI := by norm_num [SIN_PI, SIN_TWO_PI]
    linarith
  simp only [my_sin_approx, wrap_down, wrap_up, a, a2, b, if_true, if_false]

/-- The byte stored for a sample whose scaled value lies in `[n, n + 1)`. -/
theorem sine_sample_eq (fuel i : Nat) (x : ℚ) (n : Nat)
    (hx : my_sin_approx fuel (SIN_TWO_PI * (i : ℚ) / (LUT_SIZE : ℚ)) = some x)
    (h1 : (n : ℚ) ≤ 128 + 127 * x) (h2 : 128 + 127 * x < (n : ℚ) + 1) (hn : n ≤ 255) :
    sine_sample fuel i = some n := by
  have hpos : (0 : ℚ) ≤ 128 + 127 * x := le_trans (Nat.cast_nonneg n) h1
  have hfl : ⌊128 + 127 * x⌋ = (n : Int) := by
    rw [Int.floor_eq_iff]
    exact ⟨by exact_mod_cast h1, by exact_mod_cast h2⟩
  have ht : truncToInt (128 + 127 * x) = (n : Int) := by
    unfold truncToInt
    rw [if_pos hpos, hfl]
  unfold sine_sample
  simp only [hx, ht]
  have c1 : ¬ ((n : Int) < 0) := by omega
  have c2 : ¬ ((n : Int) > 255) := by omega
  simp only [c1, c2, if_false, Int.toNat_ofNat]
  congr 1
  omega

set_option maxHeartbeats 2000000 in
/-- Every entry that the loop of `build_sine` computes, given fuel for two
iterations of each loop of `my_sin_approx`. -/
theorem sine_sample_table (f i : Nat) (hi : i < 64) :
    sine_sample (f + 2) i = some (sineTable.getD i 0) := by
  interval_cases i
  · exact sine_sample_eq _ 0 _ 128 (my_sin_approx_low _ _ (by norm_num [SIN_PI, SIN_TWO_PI]) (by norm_num [SIN_PI, SIN_TWO_PI]))
      (by norm_num [SIN_PI, SIN_TWO_PI]) (by norm_num [SIN_PI, SIN_TWO_PI]) (by norm_num)
  · exact sine_sample_eq _ 1 _ 140 (my_sin_approx_low _ _ (by norm_num [SIN_PI, SIN_TWO_PI]) (by norm_num [SIN_PI, SIN_TWO_PI]))
      (by norm_num [SIN_PI, SIN_TWO_PI]) (by norm_num [SIN_PI, SIN_TWO_PI]) (by norm_num)
  · exact sine_sample_eq _ 2 _ 152 (my_sin_approx_low _ _ (by norm_num [SIN_PI, SIN_TWO_PI]) (by norm_num [SIN_PI, SIN_TWO_PI]))
      (by norm_num [SIN_PI, SIN_TWO_PI]) (by norm_num [SIN_PI, SIN_TWO_PI]) (by norm_num)
  · exact sine_sample_eq _ 3 _ 164 (my_sin_approx_low _ _ (by norm_num [SIN_PI, SIN_TWO_PI]) (by norm_num [SIN_PI, SIN_TWO_PI]))
      (by norm_num [SIN_PI, SIN_TWO_PI]) (by norm_num [SIN_PI, SIN_TWO_PI]) (by norm_num)
  · exact sine_sample_eq _ 4 _ 176 (my_sin_approx_low _ _ (by norm_num [SIN_PI, SIN_TWO_PI]) (by norm_num [SIN_PI, SIN_TWO_PI]))
      (by norm_num [SIN_PI, SIN_TWO_PI]) (by norm_num [SIN_PI, SIN_TWO_PI]) (by norm_num)
  · exact sine_sample_eq _ 5 _ 187 (my_sin_approx_low _ _ (by norm_num [SIN_PI, SIN_TWO_PI]) (by norm_num [SIN_PI, SIN_TWO_PI]))
      (by norm_num [SIN_PI, SIN_TWO_PI]) (by norm_num [SIN_PI, SIN_TWO_PI]) (by norm_num)
  · exact sine_sample_eq _ 6 _ 198 (my_sin_approx_low _ _ (by norm_num [SIN_PI, SIN_TWO_PI]) (by norm_num [SIN_PI, SIN_TWO_PI]))
      (by norm_num [SIN_PI, SIN_TWO_PI]) (by norm_num [SIN_PI, SIN_TWO_PI]) (by norm_num)
  · exact sine_sample_eq _ 7 _ 208 (my_sin_approx_low _ _ (by norm_num [SIN_PI, SIN_TWO_PI]) (by norm_num [SIN_PI, SIN_TWO_PI]))
      (by norm_num [SIN_PI, SIN_TWO_PI]) (by norm_num [SIN_PI, SIN_TWO_PI]) (by norm_num)
  · exact sine_sample_eq _ 8 _ 217 (my_sin_approx_low _ _ (by norm_num [SIN_PI, SIN_TWO_PI]) (by norm_num [SIN_PI, SIN_TWO_PI]))
      (by norm_num [SIN_PI, SIN_TWO_PI]) (by norm_num [SIN_PI, SIN_TWO_PI]) (by norm_num)
  · exact sine_sample_eq _ 9 _ 226 (my_sin_approx_low _ _ (by norm_num [SIN_PI, SIN_TWO_PI]) (by norm_num [SIN_PI, SIN_TWO_PI]))
      (by norm_num [SIN_PI, SIN_TWO_PI]) (by norm_num [SIN_PI, SIN_TWO_PI]) (by norm_num)
  · exact sine_sample_eq _ 10 _ 233 (my_sin_approx_low _ _ (by norm_num [SIN_PI, SIN_TWO_PI]) (by norm_num [SIN_PI, SIN_TWO_PI]))
      (by norm_num [SIN_PI, SIN_TWO_PI]) (by norm_num [SIN_PI, SIN_TWO_PI]) (by norm_num)
  · exact sine_sample_eq _ 11 _ 240 (my_sin_approx_low _ _ (by norm_num [SIN_PI, SIN_TWO_PI]) (by norm_num [SIN_PI, SIN_TWO_PI]))
      (by norm_num [SIN_PI, SIN_TWO_PI]) (by norm_num [SIN_PI, SIN_TWO_PI]) (by norm_num)
  · exact sine_sample_eq _ 12 _ 245 (my_sin_approx_low _ _ (by norm_num [SIN_PI, SIN_TWO_PI]) (by norm_num [SIN_PI, SIN_TWO_PI]))
      (by norm_num [SIN_PI, SIN_TWO_PI]) (by norm_num [SIN_PI, SIN_TWO_PI]) (by norm_num)
  · exact sine_sample_eq _ 13 _ 249 (my_sin_approx_low _ _ (by norm_num [SIN_PI, SIN_TWO_PI]) (by norm_num [SIN_PI, SIN_TWO_PI]))
      (by norm_num [SIN_PI, SIN_TWO_PI]) (by norm_num [SIN_PI, SIN_TWO_PI]) (by norm_num)
  · exact sine_sample_eq _ 14 _ 252 (my_sin_approx_low _ _ (by norm_num [SIN_PI, SIN_TWO_PI]) (by norm_num [SIN_PI, SIN_TWO_PI]))
      (by norm_num [SIN_PI, SIN_TWO_PI]) (by norm_num [SIN_PI, SIN_TWO_PI]) (by norm_num)
  · exact sine_sample_eq _ 15 _ 254 (my_sin_approx_low _ _ (by norm_num [SIN_PI, SIN_TWO_PI]) (by norm_num [SIN_PI, SIN_TWO_PI]))
      (by norm_num [SIN_PI, SIN_TWO_PI]) (by norm_num [SIN_PI, SIN_TWO_PI]) (by norm_num)
  · exact sine_sample_eq _ 16 _ 255 (my_sin_approx_low _ _ (by norm_num [SIN_PI, SIN_TWO_PI]) (by norm_num [SIN_PI, SIN_TWO_PI]))
      (by norm_num [SIN_PI, SIN_TWO_PI]) (by norm_num [SIN_PI, SIN_TWO_PI]) (by norm_num)
  · exact sine_sample_eq _ 17 _ 255 (my_sin_approx_low _ _ (by norm_num [SIN_PI, SIN_TWO_PI]) (by norm_num [SIN_PI, SIN_TWO_PI]))
      (by norm_num [SIN_PI, SIN_TWO_PI]) (by norm_num [SIN_PI, SIN_TWO_PI]) (by norm_num)
  · exact sine_sample_eq _ 18 _ 253 (my_sin_approx_low _ _ (by norm_num [SIN_PI, SIN_TWO_PI]) (by norm_num [SIN_PI, SIN_TWO_PI]))
      (by norm_num [SIN_PI, SIN_TWO_PI]) (by norm_num [SIN_PI, SIN_TWO_PI]) (by norm_num)
  · exact sine_sample_eq _ 19 _ 251 (my_sin_approx_low _ _ (by norm_num [SIN_PI, SIN_TWO_PI]) (by norm_num [SIN_PI, SIN_TWO_PI]))
      (by norm_num [SIN_PI, SIN_TWO_PI]) (by norm_num [SIN_PI, SIN_TWO_PI]) (by norm_num)
  · exact sine_sample_eq _ 20 _ 248 (my_sin_approx_low _ _ (by norm_num [SIN_PI, SIN_TWO_PI]) (by norm_num [SIN_PI, SIN_TWO_PI]))
      (by norm_num [SIN_PI, SIN_TWO_PI]) (by norm_num [SIN_PI, SIN_TWO_PI]) (by norm_num)
  · exact sine_sample_eq _ 21 _ 243 (my_sin_approx_low _ _ (by norm_num [SIN_PI, SIN_TWO_PI]) (by norm_num [SIN_PI, SIN_TWO_PI]))
      (by norm_num [SIN_PI, SIN_TWO_PI]) (by norm_num [SIN_PI, SIN_TWO_PI]) (by norm_num)
  · exact sine_sample_eq _ 22 _ 238 (my_sin_approx_low _ _ (by norm_num [SIN_PI, SIN_TWO_PI]) (by norm_num [SIN_PI, SIN_TWO_PI]))
      (by norm_num [SIN_PI, SIN_TWO_PI]) (by norm_num [SIN_PI, SIN_TWO_PI]) (by norm_num)
  · exact sine_sample_eq _ 23 _ 233 (my_sin_approx_low _ _ (by norm_num [SIN_PI, SIN_TWO_PI]) (by norm_num [SIN_PI, SIN_TWO_PI]))
      (by norm_num [SIN_PI, SIN_TWO_PI]) (by norm_num [SIN_PI, SIN_TWO_PI]) (by norm_num)
  · exact sine_sample_eq _ 24 _ 227 (my_sin_approx_low _ _ (by norm_num [SIN_PI, SIN_TWO_PI]) (by norm_num [SIN_PI, SIN_TWO_PI]))
      (by norm_num [SIN_PI, SIN_TWO_PI]) (by norm_num [SIN_PI, SIN_TWO_PI]) (by norm_num)
  · exact sine_sample_eq _ 25 _ 221 (my_sin_approx_low _ _ (by norm_num [SIN_PI, SIN_TWO_PI]) (by norm_num [SIN_PI, SIN_TWO_PI]))
      (by norm_num [SIN_PI, SIN_TWO_PI]) (by norm_num [SIN_PI, SIN_TWO_PI]) (by norm_num)
  · exact sine_sample_eq _ 26 _ 214 (my_sin_approx_low _ _ (by norm_num [SIN_PI, SIN_TWO_PI]) (by norm_num [SIN_PI, SIN_TWO_PI]))
      (by norm_num [SIN_PI, SIN_TWO_PI]) (by norm_num [SIN_PI, SIN_TWO_PI]) (by norm_num)
  · exact sine_sample_eq _ 27 _ 208 (my_sin_approx_low _ _ (by norm_num [SIN_PI, SIN_TWO_PI]) (by norm_num [SIN_PI, SIN_TWO_PI]))
      (by norm_num [SIN_PI, SIN_TWO_PI]) (by norm_num [SIN_PI, SIN_TWO_PI]) (by norm_num)
  · exact sine_sample_eq _ 28 _ 203 (my_sin_approx_low _ _ (by norm_num [SIN_PI, SIN_TWO_PI]) (by norm_num [SIN_PI, SIN_TWO_PI]))
      (by norm_num [SIN_PI, SIN_TWO_PI]) (by norm_num [SIN_PI, SIN_TWO_PI]) (by norm_num)
  · exact sine_sample_eq _ 29 _ 199 (my_sin_approx_low _ _ (by norm_num [SIN_PI, SIN_TWO_PI]) (by norm_num [SIN_PI, SIN_TWO_PI]))
      (by norm_num [SIN_PI, SIN_TWO_PI]) (by norm_num [SIN_PI, SIN_TWO_PI]) (by norm_num)
  · exact sine_sample_eq _ 30 _ 195 (my_sin_approx_low _ _ (by norm_num [SIN_PI, SIN_TWO_PI]) (by norm_num [SIN_PI, SIN_TWO_PI]))
      (by norm_num [SIN_PI, SIN_TWO_PI]) (by norm_num [SIN_PI, SIN_TWO_PI]) (by norm_num)
  · exact sine_sample_eq _ 31 _ 194 (my_sin_approx_low _ _ (by norm_num [SIN_PI, SIN_TWO_PI]) (by norm_num [SIN_PI, SIN_TWO_PI]))
      (by norm_num [SIN_PI, SIN_TWO_PI]) (by norm_num [SIN_PI, SIN_TWO_PI]) (by norm_num)
  · exact sine_sample_eq _ 32 _ 194 (my_sin_approx_low _ _ (by norm_num [SIN_PI, SIN_TWO_PI]) (by norm_num [SIN_PI, SIN_TWO_PI]))
      (by norm_num [SIN_PI, SIN_TWO_PI]) (by norm_num [SIN_PI, SIN_TWO_PI]) (by norm_num)
  · exact sine_sample_eq _ 33 _ 61 (my_sin_approx_high _ _ (by norm_num [SIN_PI, SIN_TWO_PI]) (by norm_num [SIN_PI, SIN_TWO_PI]))
      (by norm_num [SIN_PI, SIN_TWO_PI]) (by norm_num [SIN_PI, SIN_TWO_PI]) (by norm_num)
  · exact sine_sample_eq _ 34 _ 60 (my_sin_approx_high _ _ (by norm_num [SIN_PI, SIN_TWO_PI]) (by norm_num [SIN_PI, SIN_TWO_PI]))
      (by norm_num [SIN_PI, SIN_TWO_PI]) (by norm_num [SIN_PI, SIN_TWO_PI]) (by norm_num)
  · exact sine_sample_eq _ 35 _ 56 (my_sin_approx_high _ _ (by norm_num [SIN_PI, SIN_TWO_PI]) (by norm_num [SIN_PI, SIN_TWO_PI]))
      (by norm_num [SIN_PI, SIN_TWO_PI]) (by norm_num [SIN_PI, SIN_TWO_PI]) (by norm_num)
  · exact sine_sample_eq _ 36 _ 52 (my_sin_approx_high _ _ (by norm_num [SIN_PI, SIN_TWO_PI]) (by norm_num [SIN_PI, SIN_TWO_PI]))
      (by norm_num [SIN_PI, SIN_TWO_PI]) (by norm_num [SIN_PI, SIN_TWO_PI]) (by norm_num)
  · exact sine_sample_eq _ 37 _ 47 (my_sin_approx_high _ _ (by norm_num [SIN_PI, SIN_TWO_PI]) (by norm_num [SIN_PI, SIN_TWO_PI]))
      (by norm_num [SIN_PI, SIN_TWO_PI]) (by norm_num [SIN_PI, SIN_TWO_PI]) (by norm_num)
  · exact sine_sample_eq _ 38 _ 41 (my_sin_approx_high _ _ (by norm_num [SIN_PI, SIN_TWO_PI]) (by norm_num [SIN_PI, SIN_TWO_PI]))
      (by norm_num [SIN_PI, SIN_TWO_PI]) (by norm_num [SIN_PI, SIN_TWO_PI]) (by norm_num)
  · exact sine_sample_eq _ 39 _ 34 (my_sin_approx_high _ _ (by norm_num [SIN_PI, SIN_TWO_PI]) (by norm_num [SIN_PI, SIN_TWO_PI]))
      (by norm_num [SIN_PI, SIN_TWO_PI]) (by norm_num [SIN_PI, SIN_TWO_PI]) (by norm_num)
  · exact sine_sample_eq _ 40 _ 28 (my_sin_approx_high _ _ (by norm_num [SIN_PI, SIN_TWO_PI]) (by norm_num [SIN_PI, SIN_TWO_PI]))
      (by norm_num [SIN_PI, SIN_TWO_PI]) (by norm_num [SIN_PI, SIN_TWO_PI]) (by norm_num)
  · exact sine_sample_eq _ 41 _ 22 (my_sin_approx_high _ _ (by norm_num [SIN_PI, SIN_TWO_PI]) (by norm_num [SIN_PI, SIN_TWO_PI]))
      (by norm_num [SIN_PI, SIN_TWO_PI]) (by norm_num [SIN_PI, SIN_TWO_PI]) (by norm_num)
  · exact sine_sample_eq _ 42 _ 17 (my_sin_approx_high _ _ (by norm_num [SIN_PI, SIN_TWO_PI]) (by norm_num [SIN_PI, SIN_TWO_PI]))
      (by norm_num [SIN_PI, SIN_TWO_PI]) (by norm_num [SIN_PI, SIN_TWO_PI]) (by norm_num)
  · exact sine_sample_eq _ 43 _ 12 (my_sin_approx_high _ _ (by norm_num [SIN_PI, SIN_TWO_PI]) (by norm_num [SIN_PI, SIN_TWO_PI]))
      (by norm_num [SIN_PI, SIN_TWO_PI]) (by norm_num [SIN_PI, SIN_TWO_PI]) (by norm_num)
  · exact sine_sample_eq _ 44 _ 7 (my_sin_approx_high _ _ (by norm_num [SIN_PI, SIN_TWO_PI]) (by norm_num [SIN_PI, SIN_TWO_PI]))
      (by norm_num [SIN_PI, SIN_TWO_PI]) (by norm_num [SIN_PI, SIN_TWO_PI]) (by norm_num)
  · exact sine_sample_eq _ 45 _ 4 (my_sin_approx_high _ _ (by norm_num [SIN_PI, SIN_TWO_PI]) (by norm_num [SIN_PI, SIN_TWO_PI]))
      (by norm_num [SIN_PI, SIN_TWO_PI]) (by norm_num [SIN_PI, SIN_TWO_PI]) (by norm_num)
  · exact sine_sample_eq _ 46 _ 2 (my_sin_approx_high _ _ (by norm_num [SIN_PI, SIN_TWO_PI]) (by norm_num [SIN_PI, SIN_TWO_PI]))
      (by norm_num [SIN_PI, SIN_TWO_PI]) (by norm_num [SIN_PI, SIN_TWO_PI]) (by norm_num)
  · exact sine_sample_eq _ 47 _ 0 (my_sin_approx_high _ _ (by norm_num [SIN_PI, SIN_TWO_PI]) (by norm_num [SIN_PI, SIN_TWO_PI]))
      (by norm_num [SIN_PI, SIN_TWO_PI]) (by norm_num [SIN_PI, SIN_TWO_PI]) (by norm_num)
  · exact sine_sample_eq _ 48 _ 0 (my_sin_approx_high _ _ (by norm_num [SIN_PI, SIN_TWO_PI]) (by norm_num [SIN_PI, SIN_TWO_PI]))
      (by norm_num [SIN_PI, SIN_TWO_PI]) (by norm_num [SIN_PI, SIN_TWO_PI]) (by norm_num)
  · exact sine_sample_eq _ 49 _ 1 (my_sin_approx_high _ _ (by norm_num [SIN_PI, SIN_TWO_PI]) (by norm_num [SIN_PI, SIN_TWO_PI]))
      (by norm_num [SIN_PI, SIN_TWO_PI]) (by norm_num [SIN_PI, SIN_TWO_PI]) (by norm_num)
  · exact sine_sample_eq _ 50 _ 3 (my_sin_approx_high _ _ (by norm_num [SIN_PI, SIN_TWO_PI]) (by norm_num [SIN_PI, SIN_TWO_PI]))
      (by norm_num [SIN_PI, SIN_TWO_PI]) (by norm_num [SIN_PI, SIN_TWO_PI]) (by norm_num)
  · exact sine_sample_eq _ 51 _ 6 (my_sin_approx_high _ _ (by norm_num [SIN_PI, SIN_TWO_PI]) (by norm_num [SIN_PI, SIN_TWO_PI]))
      (by norm_num [SIN_PI, SIN_TWO_PI]) (by norm_num [SIN_PI, SIN_TWO_PI]) (by norm_num)
  · exact sine_sample_eq _ 52 _ 10 (my_sin_approx_high _ _ (by norm_num [SIN_PI, SIN_TWO_PI]) (by norm_num [SIN_PI, SIN_TWO_PI]))
      (by norm_num [SIN_PI, SIN_TWO_PI]) (by norm_num [SIN_PI, SIN_TWO_PI]) (by norm_num)
  · exact sine_sample_eq _ 53 _ 15 (my_sin_approx_high _ _ (by norm_num [SIN_PI, SIN_TWO_PI]) (by norm_num [SIN_PI, SIN_TWO_PI]))
      (by norm_num [SIN_PI, SIN_TWO_PI]) (by norm_num [SIN_PI, SIN_TWO_PI]) (by norm_num)
  · exact sine_sample_eq _ 54 _ 22 (my_sin_approx_high _ _ (by norm_num [SIN_PI, SIN_TWO_PI]) (by norm_num [SIN_PI, SIN_TWO_PI]))
      (by norm_num [SIN_PI, SIN_TWO_PI]) (by norm_num [SIN_PI, SIN_TWO_PI]) (by norm_num)
  · exact sine_sample_eq _ 55 _ 29 (my_sin_approx_high _ _ (by norm_num [SIN_PI, SIN_TWO_PI]) (by norm_num [SIN_PI, SIN_TWO_PI]))
      (by norm_num [SIN_PI, SIN_TWO_PI]) (by norm_num [SIN_PI, SIN_TWO_PI]) (by norm_num)
  · exact sine_sample_eq _ 56 _ 38 (my_sin_approx_high _ _ (by norm_num [SIN_PI, SIN_TWO_PI]) (by norm_num [SIN_PI, SIN_TWO_PI]))
      (by norm_num [SIN_PI, SIN_TWO_PI]) (by norm_num [SIN_PI, SIN_TWO_PI]) (by norm_num)
  · exact sine_sample_eq _ 57 _ 47 (my_sin_approx_high _ _ (by norm_num [SIN_PI, SIN_TWO_PI]) (by norm_num [SIN_PI, SIN_TWO_PI]))
      (by norm_num [SIN_PI, SIN_TWO_PI]) (by norm_num [SIN_PI, SIN_TWO_PI]) (by norm_num)
  · exact sine_sample_eq _ 58 _ 57 (my_sin_approx_high _ _ (by norm_num [SIN_PI, SIN_TWO_PI]) (by norm_num [SIN_PI, SIN_TWO_PI]))
      (by norm_num [SIN_PI, SIN_TWO_PI]) (by norm_num [SIN_PI, SIN_TWO_PI]) (by norm_num)
  · exact sine_sample_eq _ 59 _ 68 (my_sin_approx_high _ _ (by norm_num [SIN_PI, SIN_TWO_PI]) (by norm_num [SIN_PI, SIN_TWO_PI]))
      (by norm_num [SIN_PI, SIN_TWO_PI]) (by norm_num [SIN_PI, SIN_TWO_PI]) (by norm_num)
  · exact sine_sample_eq _ 60 _ 79 (my_sin_approx_high _ _ (by norm_num [SIN_PI, SIN_TWO_PI]) (by norm_num [SIN_PI, SIN_TWO_PI]))
      (by norm_num [SIN_PI, SIN_TWO_PI]) (by norm_num [SIN_PI, SIN_TWO_PI]) (by norm_num)
  · exact sine_sample_eq _ 61 _ 91 (my_sin_approx_high _ _ (by norm_num [SIN_PI, SIN_TWO_PI]) (by norm_num [SIN_PI, SIN_TWO_PI]))
      (by norm_num [SIN_PI, SIN_TWO_PI]) (by norm_num [SIN_PI, SIN_TWO_PI]) (by norm_num)
  · exact sine_sample_eq _ 62 _ 103 (my_sin_approx_high _ _ (by norm_num [SIN_PI, SIN_TWO_PI]) (by norm_num [SIN_PI, SIN_TWO_PI]))
      (by norm_num [SIN_PI, SIN_TWO_PI]) (by norm_num [SIN_PI, SIN_TWO_PI]) (by norm_num)
  · exact sine_sample_eq _ 63 _ 115 (my_sin_approx_high _ _ (by norm_num [SIN_PI, SIN_TWO_PI]) (by norm_num [SIN_PI, SIN_TWO_PI]))
      (by norm_num [SIN_PI, SIN_TWO_PI]) (by norm_num [SIN_PI, SIN_TWO_PI]) (by norm_num)

/-- Bounds of the sine on the first quarter of the grid of 64 points. -/
theorem sin_quarter (k : Nat) (hk : k ≤ 16) :
    (k : ℝ) / 16 ≤ Real.sin (Real.pi * k / 32) ∧ Real.sin (Real.pi * k / 32) ≤ 1 ∧
    Real.sin (Real.pi * k / 32) ≤ 31416 / 10000 * k / 32 := by
  have hk' : (k : ℝ) ≤ 16 := by exact_mod_cast hk
  have hk0 : (0 : ℝ) ≤ k := Nat.cast_nonneg k
  have hpi := Real.pi_pos
  have hx0 : 0 ≤ Real.pi * k / 32 := by positivity
  have hx1 : Real.pi * k / 32 ≤ Real.pi / 2 := by
    have : Real.pi * k ≤ Real.pi * 16 := mul_le_mul_of_nonneg_left hk' hpi.le
    linarith
  refine ⟨?_, Real.sin_le_one _, ?_⟩
  · have h := Real.mul_le_sin hx0 hx1
    have e : 2 / Real.pi * (Real.pi * k / 32) = (k : ℝ) / 16 := by
      field_simp
      ring
    rw [e] at h
    exact h
  · have h := Real.sin_le hx0
    have h4 := Real.pi_lt_d4
    have : Real.pi * k ≤ 31416 / 10000 * k := by
      apply mul_le_mul_of_nonneg_right _ hk0
      norm_num at h4
      linarith
    linarith

/-- Bounds of the sine on the upper half of the grid. -/
theorem sin_grid_pos (i k : Nat) (hk : k ≤ 16) (h : i = k ∨ i + k = 32) :
    (k : ℝ) / 16 ≤ Real.sin (2 * Real.pi * i / 64) ∧ Real.sin (2 * Real.pi * i / 64) ≤ 1 ∧
    Real.sin (2 * Real.pi * i / 64) ≤ 31416 / 10000 * k / 32 := by
  have hq := sin_quarter k hk
  rcases h with h | h
  · subst h
    have e : 2 * Real.pi * (i : ℝ) / 64 = Real.pi * i / 32 := by ring
    rw [e]
    exact hq
  · have hi : (i : ℝ) = 32 - k := by
      have : ((i + k : ℕ) : ℝ) = 32 := by exact_mod_cast h
      push_cast at this
      linarith
    have e : 2 * Real.pi * (i : ℝ) / 64 = Real.pi - Real.pi * k / 32 := by
      rw [hi]
      ring
    rw [e, Real.sin_pi_sub]
    exact hq

/-- Bounds of the sine on the lower half of the grid. -/
theorem sin_grid_neg (i k : Nat) (hk : k ≤ 16) (h : i = 32 + k ∨ i + k = 64) :
    -1 ≤ Real.sin (2 * Real.pi * i / 64) ∧
    -(31416 / 10000 * k / 32) ≤ Real.sin (2 * Real.pi * i / 64) ∧
    Real.sin (2 * Real.pi * i / 64) ≤ -((k : ℝ) / 16) := by
  obtain ⟨h1, h2, h3⟩ := sin_quarter k hk
  rcases h with h | h
  · have hi : (i : ℝ) = 32 + k := by exact_mod_cast h
    have e : 2 * Real.pi * (i : ℝ) / 64 = Real.pi * k / 32 + Real.pi := by
      rw [hi]
      ring
    rw [e, Real.sin_add_pi]
    exact ⟨by linarith, by linarith, by linarith⟩
  · have hi : (i : ℝ) = 64 - k := by
      have : ((i + k : ℕ) : ℝ) = 64 := by exact_mod_cast h
      push_cast at this
      linarith
    have e : 2 * Real.pi * (i : ℝ) / 64 = 2 * Real.pi - Real.pi * k / 32 := by
      rw [hi]
      ring
    rw [e, Real.sin_two_pi_sub]
    exact ⟨by linarith, by linarith, by linarith⟩

set_option maxHeartbeats 4000000 in
/-- The distance between every entry of the table and the ideal sample. -/
theorem sineTable_error (i : Nat) (hi : i < 64) :
    |((sineTable.getD i 0 : ℕ) : ℝ) - (128 + 127 * Real.sin (2 * Real.pi * i / 64))| ≤ 66 := by
  interval_cases i
  · obtain ⟨a, b, c⟩ := sin_grid_pos 0 0 (by norm_num) (Or.inl rfl)
    show |((128 : ℕ) : ℝ) - _| ≤ 66
    rw [abs_le]
    push_cast at a b c ⊢
    constructor <;> linarith
  · obtain ⟨a, b, c⟩ := sin_grid_pos 1 1 (by norm_num) (Or.inl rfl)
    show |((140 : ℕ) : ℝ) - _| ≤ 66
    rw [abs_le]
    push_cast at a b c ⊢
    constructor <;> linarith
  · obtain ⟨a, b, c⟩ := sin_grid_pos 2 2 (by norm_num) (Or.inl rfl)
    show |((152 : ℕ) : ℝ) - _| ≤ 66
    rw [abs_le]
    push_cast at a b c ⊢
    constructor <;> linarith
  · obtain ⟨a, b, c⟩ := sin_grid_pos 3 3 (by norm_num) (Or.inl rfl)
    show |((164 : ℕ) : ℝ) - _| ≤ 66
    rw [abs_le]
    push_cast at a b c ⊢
    constructor <;> linarith
  · obtain ⟨a, b, c⟩ := sin_grid_pos 4 4 (by norm_num) (Or.inl rfl)
    show |((176 : ℕ) : ℝ) - _| ≤ 66
    rw [abs_le]
    push_cast at a b c ⊢
    constructor <;> linarith
  · obtain ⟨a, b, c⟩ := sin_grid_pos 5 5 (by norm_num) (Or.inl rfl)
    show |((187 : ℕ) : ℝ) - _| ≤ 66
    rw [abs_le]
    push_cast at a b c ⊢
    constructor <;> linarith
  · obtain ⟨a, b, c⟩ := sin_grid_pos 6 6 (by norm_num) (Or.inl rfl)
    show |((198 : ℕ) : ℝ) - _| ≤ 66
    rw [abs_le]
    push_cast at a b c ⊢
    constructor <;> linarith
  · obtain ⟨a, b, c⟩ := sin_grid_pos 7 7 (by norm_num) (Or.inl rfl)
    show |((208 : ℕ) : ℝ) - _| ≤ 66
    rw [abs_le]
    push_cast at a b c ⊢
    constructor <;> linarith
  · obtain ⟨a, b, c⟩ := sin_grid_pos 8 8 (by norm_num) (Or.inl rfl)
    show |((217 : ℕ) : ℝ) - _| ≤ 66
    rw [abs_le]
    push_cast at a b c ⊢
    constructor <;> linarith
  · obtain ⟨a, b, c⟩ := sin_grid_pos 9 9 (by norm_num) (Or.inl rfl)
    show |((226 : ℕ) : ℝ) - _| ≤ 66
    rw [abs_le]
    push_cast at a b c ⊢
    constructor <;> linarith
  · obtain ⟨a, b, c⟩ := sin_grid_pos 10 10 (by norm_num) (Or.inl rfl)
    show |((233 : ℕ) : ℝ) - _| ≤ 66
    rw [abs_le]
    push_cast at a b c ⊢
    constructor <;> linarith
  · obtain ⟨a, b, c⟩ := sin_grid_pos 11 11 (by norm_num) (Or.inl rfl)
    show |((240 : ℕ) : ℝ) - _| ≤ 66
    rw [abs_le]
    push_cast at a b c ⊢
    constructor <;> linarith
  · obtain ⟨a, b, c⟩ := sin_grid_pos 12 12 (by norm_num) (Or.inl rfl)
    show |((245 : ℕ) : ℝ) - _| ≤ 66
    rw [abs_le]
    push_cast at a b c ⊢
    constructor <;> linarith
  · obtain ⟨a, b, c⟩ := sin_grid_pos 13 13 (by norm_num) (Or.inl rfl)
    show |((249 : ℕ) : ℝ) - _| ≤ 66
    rw [abs_le]
    push_cast at a b c ⊢
    constructor <;> linarith
  · obtain ⟨a, b, c⟩ := sin_grid_pos 14 14 (by norm_num) (Or.inl rfl)
    show |((252 : ℕ) : ℝ) - _| ≤ 66
    rw [abs_le]
    push_cast at a b c ⊢
    constructor <;> linarith
  · obtain ⟨a, b, c⟩ := sin_grid_pos 15 15 (by norm_num) (Or.inl rfl)
    show |((254 : ℕ) : ℝ) - _| ≤ 66
    rw [abs_le]
    push_cast at a b c ⊢
    constructor <;> linarith
  · obtain ⟨a, b, c⟩ := sin_grid_pos 16 16 (by norm_num) (Or.inl rfl)
    show |((255 : ℕ) : ℝ) - _| ≤ 66
    rw [abs_le]
    push_cast at a b c ⊢
    constructor <;> linarith
  · obtain ⟨a, b, c⟩ := sin_grid_pos 17 15 (by norm_num) (Or.inr rfl)
    show |((255 : ℕ) : ℝ) - _| ≤ 66
    rw [abs_le]
    push_cast at a b c ⊢
    constructor <;> linarith
  · obtain ⟨a, b, c⟩ := sin_grid_pos 18 14 (by norm_num) (Or.inr rfl)
    show |((253 : ℕ) : ℝ) - _| ≤ 66
    rw [abs_le]
    push_cast at a b c ⊢
    constructor <;> linarith
  · obtain ⟨a, b, c⟩ := sin_grid_pos 19 13 (by norm_num) (Or.inr rfl)
    show |((251 : ℕ) : ℝ) - _| ≤ 66
    rw [abs_le]
    push_cast at a b c ⊢
    constructor <;> linarith
  · obtain ⟨a, b, c⟩ := sin_grid_pos 20 12 (by norm_num) (Or.inr rfl)
    show |((248 : ℕ) : ℝ) - _| ≤ 66
    rw [abs_le]
    push_cast at a b c ⊢
    constructor <;> linarith
  · obtain ⟨a, b, c⟩ := sin_grid_pos 21 11 (by norm_num) (Or.inr rfl)
    show |((243 : ℕ) : ℝ) - _| ≤ 66
    rw [abs_le]
    push_cast at a b c ⊢
    constructor <;> linarith
  · obtain ⟨a, b, c⟩ := sin_grid_pos 22 10 (by norm_num) (Or.inr rfl)
    show |((238 : ℕ) : ℝ) - _| ≤ 66
    rw [abs_le]
    push_cast at a b c ⊢
    constructor <;> linarith
  · obtain ⟨a, b, c⟩ := sin_grid_pos 23 9 (by norm_num) (Or.inr rfl)
    show |((233 : ℕ) : ℝ) - _| ≤ 66
    rw [abs_le]
    push_cast at a b c ⊢
    constructor <;> linarith
  · obtain ⟨a, b, c⟩ := sin_grid_pos 24 8 (by norm_num) (Or.inr rfl)
    show |((227 : ℕ) : ℝ) - _| ≤ 66
    rw [abs_le]
    push_cast at a b c ⊢
    constructor <;> linarith
  · obtain ⟨a, b, c⟩ := sin_grid_pos 25 7 (by norm_num) (Or.inr rfl)
    show |((221 : ℕ) : ℝ) - _| ≤ 66
    rw [abs_le]
    push_cast at a b c ⊢
    constructor <;> linarith
  · obtain ⟨a, b, c⟩ := sin_grid_pos 26 6 (by norm_num) (Or.inr rfl)
    show |((214 : ℕ) : ℝ) - _| ≤ 66
    rw [abs_le]
    push_cast at a b c ⊢
    constructor <;> linarith
  · obtain ⟨a, b, c⟩ := sin_grid_pos 27 5 (by norm_num) (Or.inr rfl)
    show |((208 : ℕ) : ℝ) - _| ≤ 66
    rw [abs_le]
    push_cast at a b c ⊢
    constructor <;> linarith
  · obtain ⟨a, b, c⟩ := sin_grid_pos 28 4 (by norm_num) (Or.inr rfl)
    show |((203 : ℕ) : ℝ) - _| ≤ 66
    rw [abs_le]
    push_cast at a b c ⊢
    constructor <;> linarith
  · obtain ⟨a, b, c⟩ := sin_grid_pos 29 3 (by norm_num) (Or.inr rfl)
    show |((199 : ℕ) : ℝ) - _| ≤ 66
    rw [abs_le]
    push_cast at a b c ⊢
    constructor <;> linarith
  · obtain ⟨a, b, c⟩ := sin_grid_pos 30 2 (by norm_num) (Or.inr rfl)
    show |((195 : ℕ) : ℝ) - _| ≤ 66
    rw [abs_le]
    push_cast at a b c ⊢
    constructor <;> linarith
  · obtain ⟨a, b, c⟩ := sin_grid_pos 31 1 (by norm_num) (Or.inr rfl)
    show |((194 : ℕ) : ℝ) - _| ≤ 66
    rw [abs_le]
    push_cast at a b c ⊢
    constructor <;> linarith
  · obtain ⟨a, b, c⟩ := sin_grid_pos 32 0 (by norm_num) (Or.inr rfl)
    show |((194 : ℕ) : ℝ) - _| ≤ 66
    rw [abs_le]
    push_cast at a b c ⊢
    constructor <;> linarith
  · obtain ⟨a, b, c⟩ := sin_grid_neg 33 1 (by norm_num) (Or.inl rfl)
    show |((61 : ℕ) : ℝ) - _| ≤ 66
    rw [abs_le]
    push_cast at a b c ⊢
    constructor <;> linarith
  · obtain ⟨a, b, c⟩ := sin_grid_neg 34 2 (by norm_num) (Or.inl rfl)
    show |((60 : ℕ) : ℝ) - _| ≤ 66
    rw [abs_le]
    push_cast at a b c ⊢
    constructor <;> linarith
  · obtain ⟨a, b, c⟩ := sin_grid_neg 35 3 (by norm_num) (Or.inl rfl)
    show |((56 : ℕ) : ℝ) - _| ≤ 66
    rw [abs_le]
    push_cast at a b c ⊢
    constructor <;> linarith
  · obtain ⟨a, b, c⟩ := sin_grid_neg 36 4 (by norm_num) (Or.inl rfl)
    show |((52 : ℕ) : ℝ) - _| ≤ 66
    rw [abs_le]
    push_cast at a b c ⊢
    constructor <;> linarith
  · obtain ⟨a, b, c⟩ := sin_grid_neg 37 5 (by norm_num) (Or.inl rfl)
    show |((47 : ℕ) : ℝ) - _| ≤ 66
    rw [abs_le]
    push_cast at a b c ⊢
    constructor <;> linarith
  · obtain ⟨a, b, c⟩ := sin_grid_neg 38 6 (by norm_num) (Or.inl rfl)
    show |((41 : ℕ) : ℝ) - _| ≤ 66
    rw [abs_le]
    push_cast at a b c ⊢
    constructor <;> linarith
  · obtain ⟨a, b, c⟩ := sin_grid_neg 39 7 (by norm_num) (Or.inl rfl)
    show |((34 : ℕ) : ℝ) - _| ≤ 66
    rw [abs_le]
    push_cast at a b c ⊢
    constructor <;> linarith
  · obtain ⟨a, b, c⟩ := sin_grid_neg 40 8 (by norm_num) (Or.inl rfl)
    show |((28 : ℕ) : ℝ) - _| ≤ 66
    rw [abs_le]
    push_cast at a b c ⊢
    constructor <;> linarith
  · obtain ⟨a, b, c⟩ := sin_grid_neg 41 9 (by norm_num) (Or.inl rfl)
    show |((22 : ℕ) : ℝ) - _| ≤ 66
    rw [abs_le]
    push_cast at a b c ⊢
    constructor <;> linarith
  · obtain ⟨a, b, c⟩ := sin_grid_neg 42 10 (by norm_num) (Or.inl rfl)
    show |((17 : ℕ) : ℝ) - _| ≤ 66
    rw [abs_le]
    push_cast at a b c ⊢
    constructor <;> linarith
  · obtain ⟨a, b, c⟩ := sin_grid_neg 43 11 (by norm_num) (Or.inl rfl)
    show |((12 : ℕ) : ℝ) - _| ≤ 66
    rw [abs_le]
    push_cast at a b c ⊢
    constructor <;> linarith
  · obtain ⟨a, b, c⟩ := sin_grid_neg 44 12 (by norm_num) (Or.inl rfl)
    show |((7 : ℕ) : ℝ) - _| ≤ 66
    rw [abs_le]
    push_cast at a b c ⊢
    constructor <;> linarith
  · obtain ⟨a, b, c⟩ := sin_grid_neg 45 13 (by norm_num) (Or.inl rfl)
    show |((4 : ℕ) : ℝ) - _| ≤ 66
    rw [abs_le]
    push_cast at a b c ⊢
    constructor <;> linarith
  · obtain ⟨a, b, c⟩ := sin_grid_neg 46 14 (by norm_num) (Or.inl rfl)
    show |((2 : ℕ) : ℝ) - _| ≤ 66
    rw [abs_le]
    push_cast at a b c ⊢
    constructor <;> linarith
  · obtain ⟨a, b, c⟩ := sin_grid_neg 47 15 (by norm_num) (Or.inl rfl)
    show |((0 : ℕ) : ℝ) - _| ≤ 66
    rw [abs_le]
    push_cast at a b c ⊢
    constructor <;> linarith
  · obtain ⟨a, b, c⟩ := sin_grid_neg 48 16 (by norm_num) (Or.inl rfl)
    show |((0 : ℕ) : ℝ) - _| ≤ 66
    rw [abs_le]
    push_cast at a b c ⊢
    constructor <;> linarith
  · obtain ⟨a, b, c⟩ := sin_grid_neg 49 15 (by norm_num) (Or.inr rfl)
    show |((1 : ℕ) : ℝ) - _| ≤ 66
    rw [abs_le]
    push_cast at a b c ⊢
    constructor <;> linarith
  · obtain ⟨a, b, c⟩ := sin_grid_neg 50 14 (by norm_num) (Or.inr rfl)
    show |((3 : ℕ) : ℝ) - _| ≤ 66
    rw [abs_le]
    push_cast at a b c ⊢
    constructor <;> linarith
  · obtain ⟨a, b, c⟩ := sin_grid_neg 51 13 (by norm_num) (Or.inr rfl)
    show |((6 : ℕ) : ℝ) - _| ≤ 66
    rw [abs_le]
    push_cast at a b c ⊢
    constructor <;> linarith
  · obtain ⟨a, b, c⟩ := sin_grid_neg 52 12 (by norm_num) (Or.inr rfl)
    show |((10 : ℕ) : ℝ) - _| ≤ 66
    rw [abs_le]
    push_cast at a b c ⊢
    constructor <;> linarith
  · obtain ⟨a, b, c⟩ := sin_grid_neg 53 11 (by norm_num) (Or.inr rfl)
    show |((15 : ℕ) : ℝ) - _| ≤ 66
    rw [abs_le]
    push_cast at a b c ⊢
    constructor <;> linarith
  · obtain ⟨a, b, c⟩ := sin_grid_neg 54 10 (by norm_num) (Or.inr rfl)
    show |((22 : ℕ) : ℝ) - _| ≤ 66
    rw [abs_le]
    push_cast at a b c ⊢
    constructor <;> linarith
  · obtain ⟨a, b, c⟩ := sin_grid_neg 55 9 (by norm_num) (Or.inr rfl)
    show |((29 : ℕ) : ℝ) - _| ≤ 66
    rw [abs_le]
    push_cast at a b c ⊢
    constructor <;> linarith
  · obtain ⟨a, b, c⟩ := sin_grid_neg 56 8 (by norm_num) (Or.inr rfl)
    show |((38 : ℕ) : ℝ) - _| ≤ 66
    rw [abs_le]
    push_cast at a b c ⊢
    constructor <;> linarith
  · obtain ⟨a, b, c⟩ := sin_grid_neg 57 7 (by norm_num) (Or.inr rfl)
    show |((47 : ℕ) : ℝ) - _| ≤ 66
    rw [abs_le]
    push_cast at a b c ⊢
    constructor <;> linarith
  · obtain ⟨a, b, c⟩ := sin_grid_neg 58 6 (by norm_num) (Or.inr rfl)
    show |((57 : ℕ) : ℝ) - _| ≤ 66
    rw [abs_le]
    push_cast at a b c ⊢
    constructor <;> linarith
  · obtain ⟨a, b, c⟩ := sin_grid_neg 59 5 (by norm_num) (Or.inr rfl)
    show |((68 : ℕ) : ℝ) - _| ≤ 66
    rw [abs_le]
    push_cast at a b c ⊢
    constructor <;> linarith
  · obtain ⟨a, b, c⟩ := sin_grid_neg 60 4 (by norm_num) (Or.inr rfl)
    show |((79 : ℕ) : ℝ) - _| ≤ 66
    rw [abs_le]
    push_cast at a b c ⊢
    constructor <;> linarith
  · obtain ⟨a, b, c⟩ := sin_grid_neg 61 3 (by norm_num) (Or.inr rfl)
    show |((91 : ℕ) : ℝ) - _| ≤ 66
    rw [abs_le]
    push_cast at a b c ⊢
    constructor <;> linarith
  · obtain ⟨a, b, c⟩ := sin_grid_neg 62 2 (by norm_num) (Or.inr rfl)
    show |((103 : ℕ) : ℝ) - _| ≤ 66
    rw [abs_le]
    push_cast at a b c ⊢
    constructor <;> linarith
  · obtain ⟨a, b, c⟩ := sin_grid_neg 63 1 (by norm_num) (Or.inr rfl)
    show |((115 : ℕ) : ℝ) - _| ≤ 66
    rw [abs_le]
    push_cast at a b c ⊢
    constructor <;> linarith

/-- The loop of `build_sine` as a loop of stores into a list. -/
theorem build_sine_loop_eq (fuel : Nat) (g : Nat → Nat) (idx : List Nat)
    (h : ∀ i ∈ idx, sine_sample fuel i = some (g i)) :
    ∀ s : FwState, build_sine_loop fuel idx s
      = some { s with sineBase := idx.foldl (fun acc i => acc.set i (g i)) s.sineBase } := by
  induction idx with
  | nil => intro s; rfl
  | cons i idx ih =>
    intro s
    have hi := h i (List.mem_cons_self _ _)
    simp only [build_sine_loop, hi]
    rw [ih (fun j hj => h j (List.mem_cons_of_mem _ hj))]
    rfl

/-- `build_sine` returns, given fuel for two iterations of each loop of
`my_sin_approx`, and leaves `sineTable` in `sineBase`. -/
theorem build_sine_eq (f : Nat) (s : FwState) (hl : s.sineBase.length = LUT_SIZE) :
    build_sine (f + 2) s = some { s with sineBase := sineTable } := by
  unfold build_sine
  have h := build_sine_loop_eq (f + 2) (fun i => sineTable.getD i 0) (List.range LUT_SIZE)
    (fun i hi => sine_sample_table f i (List.mem_range.mp hi)) s
  rw [h, foldl_set_range _ _ _ (by rw [hl])]
  have hd : s.sineBase.drop LUT_SIZE = [] := List.drop_eq_nil_of_le (by rw [hl])
  have hm : (List.range LUT_SIZE).map (fun i => sineTable.getD i 0) = sineTable := by decide
  rw [hd, List.append_nil, hm]

/-- Claim C30 fails as stated. `build_sine` stores 194 in `sineBase[32]`:
at `i = 32` the argument is 3.1415926, which the loops of `my_sin_approx`
leave as it is, and the polynomial of degree 5 gives about 0.524 there. The
ideal sample is `128 + 127 * sin(pi) = 128`, which is 66 counts away. -/
theorem build_sine_not_within_two :
    (∃ s1, build_sine 2 initState = some s1 ∧ s1.sineBase.getD 32 0 = 194) ∧
    my_sin_approx 2 (SIN_TWO_PI * ((32 : ℕ) : ℚ) / (LUT_SIZE : ℚ))
      = some (SIN_PI - SIN_PI * (SIN_PI * SIN_PI) / 6
          + SIN_PI * (SIN_PI * SIN_PI) * (SIN_PI * SIN_PI) / 120) ∧
    Real.sin (2 * Real.pi * ((32 : ℕ) : ℝ) / 64) = 0 ∧
    ¬ (|((194 : ℕ) : ℝ) - (128 + 127 * Real.sin (2 * Real.pi * ((32 : ℕ) : ℝ) / 64))| ≤ 2) := by
  have hs : Real.sin (2 * Real.pi * ((32 : ℕ) : ℝ) / 64) = 0 := by
    have e : 2 * Real.pi * ((32 : ℕ) : ℝ) / 64 = Real.pi := by
      push_cast
      ring
    rw [e, Real.sin_pi]
  refine ⟨⟨_, build_sine_eq 0 initState rfl, by decide⟩, ?_, hs, ?_⟩
  · have e : SIN_TWO_PI * ((32 : ℕ) : ℚ) / (LUT_SIZE : ℚ) = SIN_PI := by
      norm_num [SIN_PI, SIN_TWO_PI]
    rw [e]
    exact my_sin_approx_low 1 SIN_PI (by norm_num [SIN_PI]) (le_refl _)
  · rw [hs]
    norm_num

/-- Claim C30, amended. Given fuel for two iterations of each loop of
`my_sin_approx`, `build_sine` returns and leaves in `sineBase` the table
`sineTable` (the float arithmetic read as exact rational arithmetic on the
decimal constants of the source). Every entry `i` of it differs from the
ideal sample `128 + 127 * sin(2 * pi * i / 64)` by at most 66 counts, and
entry 32 differs from it by exactly 66. -/
theorem build_sine_table (fuel : Nat) (s : FwState) (hf : 2 ≤ fuel)
    (hl : s.sineBase.length = LUT_SIZE) :
    build_sine fuel s = some { s with sineBase := sineTable } ∧
    (∀ i : Nat, i < 64 →
      |((sineTable.getD i 0 : ℕ) : ℝ) - (128 + 127 * Real.sin (2 * Real.pi * i / 64))| ≤ 66) ∧
    |((sineTable.getD 32 0 : ℕ) : ℝ)
      - (128 + 127 * Real.sin (2 * Real.pi * ((32 : ℕ) : ℝ) / 64))| = 66 := by
  obtain ⟨f, rfl⟩ : ∃ f, fuel = f + 2 := ⟨fuel - 2, by omega⟩
  refine ⟨build_sine_eq f s hl, sineTable_error, ?_⟩
  have e : 2 * Real.pi * ((32 : ℕ) : ℝ) / 64 = Real.pi := by
    push_cast
    ring
  rw [e, Real.sin_pi]
  show |((194 : ℕ) : ℝ) - (128 + 127 * 0)| = 66
  norm_num

theorem build_sine_table_witness :
    2 ≤ 2 ∧ initState.sineBase.length = LUT_SIZE ∧
    (build_sine 2 initState = some { initState with sineBase := sineTable } ∧
    (∀ i : Nat, i < 64 →
      |((sineTable.getD i 0 : ℕ) : ℝ) - (128 + 127 * Real.sin (2 * Real.pi * i / 64))| ≤ 66) ∧
    |((sineTable.getD 32 0 : ℕ) : ℝ)
      - (128 + 127 * Real.sin (2 * Real.pi * ((32 : ℕ) : ℝ) / 64))| = 66) :=
  ⟨by decide, rfl, build_sine_table 2 initState (by decide) rfl⟩

/-! ## Writers of the shared state -/

/-- Claim C31. `WaveTimer_ISR` changes `waveIndex` and the log of driver
calls and nothing else, and the log gains one status read and one DAC
write. `ADC_ISR_Handler` changes `dc`, `sampleBuffer`, `sampleIndex` and
`frameReady` and nothing else, makes no driver call, and leaves
`frameReady` as it is or sets it to 1: a non-zero `frameReady` stays
non-zero. -/
theorem isr_single_writer (s : FwState) (raw : Nat) :
    WaveTimer_ISR s = { s with
      waveIndex := (WaveTimer_ISR s).waveIndex, hw := (WaveTimer_ISR s).hw } ∧
    (∃ v, (WaveTimer_ISR s).hw = s.hw ++ [HwEvent.timerReadStatus, HwEvent.dacSetValue v]) ∧
    ADC_ISR_Handler s raw = { s with
      dc := (ADC_ISR_Handler s raw).dc
      sampleBuffer := (ADC_ISR_Handler s raw).sampleBuffer
      sampleIndex := (ADC_ISR_Handler s raw).sampleIndex
      frameReady := (ADC_ISR_Handler s raw).frameReady } ∧
    ((ADC_ISR_Handler s raw).frameReady = s.frameReady ∨
      (ADC_ISR_Handler s raw).frameReady = 1) ∧
    (s.frameReady ≠ 0 → (ADC_ISR_Handler s raw).frameReady ≠ 0) ∧
    (s.frameReady = 1 → (ADC_ISR_Handler s raw).frameReady = 1) := by
  have hw1 : WaveTimer_ISR s = { s with
      waveIndex := (WaveTimer_ISR s).waveIndex, hw := (WaveTimer_ISR s).hw } := by
    unfold WaveTimer_ISR
    simp only []
    split_ifs <;> rfl
  have hw2 : ∃ v, (WaveTimer_ISR s).hw
      = s.hw ++ [HwEvent.timerReadStatus, HwEvent.dacSetValue v] := by
    unfold WaveTimer_ISR
    simp only []
    split_ifs
    · exact ⟨0, by simp⟩
    · exact ⟨s.waveLUT.getD s.waveIndex 0, by simp⟩
    · exact ⟨s.waveLUT.getD s.waveIndex 0, by simp⟩
  have ha1 : ADC_ISR_Handler s raw = { s with
      dc := (ADC_ISR_Handler s raw).dc
      sampleBuffer := (ADC_ISR_Handler s raw).sampleBuffer
      sampleIndex := (ADC_ISR_Handler s raw).sampleIndex
      frameReady := (ADC_ISR_Handler s raw).frameReady } := by
    unfold ADC_ISR_Handler
    simp only []
    split_ifs <;> rfl
  have ha2 : (ADC_ISR_Handler s raw).frameReady = s.frameReady ∨
      (ADC_ISR_Handler s raw).frameReady = 1 := by
    unfold ADC_ISR_Handler
    simp only []
    split_ifs
    · exact Or.inl rfl
    · exact Or.inr rfl
    · exact Or.inl rfl
    · exact Or.inl rfl
  refine ⟨hw1, hw2, ha1, ha2, ?_, ?_⟩
  · intro h
    rcases ha2 with h2 | h2
    · rw [h2]
      exact h
    · rw [h2]
      decide
  · intro h
    rcases ha2 with h2 | h2
    · rw [h2]
      exact h
    · exact h2

/-! ## What command tokens and timer interrupts leave alone -/

theorem foldl_set_length (g : Nat → Nat) (idx : List Nat) :
    ∀ l : List Nat, (idx.foldl (fun acc i => acc.set i (g i)) l).length = l.length := by
  induction idx with
  | nil => intro l; rfl
  | cons i idx ih =>
    intro l
    rw [List.foldl_cons, ih, List.length_set]

theorem rebuild_loop_length (src idx : List Nat) :
    ∀ s : FwState, (idx.foldl (fun st i => { st with
      waveLUT := st.waveLUT.set i (scaleSample (src.getD i 0) st.amp_percent) }) s).waveLUT.length
      = s.waveLUT.length := by
  induction idx with
  | nil => intro s; rfl
  | cons i idx ih =>
    intro s
    rw [List.foldl_cons, ih]
    exact List.length_set _ _ _

theorem rebuild_loop_fields (src : List Nat) (n : Nat) (s : FwState) :
    ((List.range n).foldl (fun st i => { st with
      waveLUT := st.waveLUT.set i (scaleSample (src.getD i 0) st.amp_percent) }) s).waveIndex
      = s.waveIndex ∧
    ((List.range n).foldl (fun st i => { st with
      waveLUT := st.waveLUT.set i (scaleSample (src.getD i 0) st.amp_percent) }) s).wave_enabled
      = s.wave_enabled ∧
    ((List.range n).foldl (fun st i => { st with
      waveLUT := st.waveLUT.set i (scaleSample (src.getD i 0) st.amp_percent) }) s).cmdBuf
      = s.cmdBuf ∧
    ((List.range n).foldl (fun st i => { st with
      waveLUT := st.waveLUT.set i (scaleSample (src.getD i 0) st.amp_percent) }) s).cmdLen
      = s.cmdLen := by
  rw [rebuild_fold]
  exact ⟨rfl, rfl, rfl, rfl⟩

/-- `rebuild_lut` writes `amp_percent` and `waveLUT` only, and `waveLUT`
keeps its length. -/
theorem rebuild_lut_fields (s : FwState) :
    (rebuild_lut s).waveIndex = s.waveIndex ∧ (rebuild_lut s).wave_enabled = s.wave_enabled ∧
    (rebuild_lut s).cmdBuf = s.cmdBuf ∧ (rebuild_lut s).cmdLen = s.cmdLen ∧
    (rebuild_lut s).waveLUT.length = s.waveLUT.length := by
  unfold rebuild_lut
  by_cases h : s.amp_percent > 100
  · simp only [h, if_true]
    obtain ⟨a, b, c, d⟩ := rebuild_loop_fields (selectedBase s) LUT_SIZE
      { s with amp_percent := 100 }
    exact ⟨a, b, c, d, rebuild_loop_length _ _ _⟩
  · simp only [h, if_false]
    obtain ⟨a, b, c, d⟩ := rebuild_loop_fields (selectedBase s) LUT_SIZE s
    exact ⟨a, b, c, d, rebuild_loop_length _ _ _⟩

theorem set_amplitude_fields (s : FwState) (a : Nat) :
    (set_amplitude s a).waveIndex = s.waveIndex ∧
    (set_amplitude s a).wave_enabled = s.wave_enabled ∧
    (set_amplitude s a).cmdBuf = s.cmdBuf ∧ (set_amplitude s a).cmdLen = s.cmdLen ∧
    (set_amplitude s a).waveLUT.length = s.waveLUT.length := by
  unfold set_amplitude
  by_cases h : a % 256 > 100
  · simp only [h, if_true]
    exact rebuild_lut_fields _
  · simp only [h, if_false]
    exact rebuild_lut_fields _

theorem set_wave_fields (s : FwState) (m : Nat) :
    (set_wave s m).waveIndex = s.waveIndex ∧ (set_wave s m).wave_enabled = s.wave_enabled ∧
    (set_wave s m).cmdBuf = s.cmdBuf ∧ (set_wave s m).cmdLen = s.cmdLen ∧
    (set_wave s m).waveLUT.length = s.waveLUT.length := by
  unfold set_wave
  exact rebuild_lut_fields _

/-- One token always returns; it leaves the line buffer and the length of
`waveLUT` as they are; and it either resets `waveIndex` to 0, or leaves
`waveIndex` with the output enabled, or leaves both `waveIndex` and
`wave_enabled`. -/
theorem process_token_fields (s : FwState) (t : List Nat) :
    ∃ s1, process_token s t = some s1 ∧ s1.cmdBuf = s.cmdBuf ∧ s1.cmdLen = s.cmdLen ∧
      s1.waveLUT.length = s.waveLUT.length ∧
      (s1.waveIndex = 0 ∨ (s1.wave_enabled ≠ 0 ∧ s1.waveIndex = s.waveIndex) ∨
        (s1.wave_enabled = s.wave_enabled ∧ s1.waveIndex = s.waveIndex)) := by
  have key : ∀ u : FwState, u.waveIndex = s.waveIndex ∧ u.wave_enabled = s.wave_enabled ∧
      u.cmdBuf = s.cmdBuf ∧ u.cmdLen = s.cmdLen ∧ u.waveLUT.length = s.waveLUT.length →
      u.cmdBuf = s.cmdBuf ∧ u.cmdLen = s.cmdLen ∧ u.waveLUT.length = s.waveLUT.length ∧
      (u.waveIndex = 0 ∨ (u.wave_enabled ≠ 0 ∧ u.waveIndex = s.waveIndex) ∨
        (u.wave_enabled = s.wave_enabled ∧ u.waveIndex = s.waveIndex)) :=
    fun u h => ⟨h.2.2.1, h.2.2.2.1, h.2.2.2.2, Or.inr (Or.inr ⟨h.2.1, h.1⟩)⟩
  have same : s.waveIndex = s.waveIndex ∧ s.wave_enabled = s.wave_enabled ∧
      s.cmdBuf = s.cmdBuf ∧ s.cmdLen = s.cmdLen ∧ s.waveLUT.length = s.waveLUT.length :=
    ⟨rfl, rfl, rfl, rfl, rfl⟩
  unfold process_token
  by_cases h1 : strncmp_eq t (lit "FREQ:") 5 = true
  · rw [if_pos h1]
    obtain ⟨p, hp⟩ := set_frequency_total s (toU32 (atoi (t.drop 5)))
    exact ⟨_, hp, key _ ⟨rfl, rfl, rfl, rfl, rfl⟩⟩
  rw [if_neg h1]
  by_cases h2 : strncmp_eq t (lit "AMP:") 4 = true
  · rw [if_pos h2]
    exact ⟨_, rfl, key _ (set_amplitude_fields _ _)⟩
  rw [if_neg h2]
  by_cases h3 : strncmp_eq t (lit "WAVE:") 5 = true
  · rw [if_pos h3]
    simp only []
    split_ifs
    · exact ⟨_, rfl, key _ (set_wave_fields _ _)⟩
    · exact ⟨_, rfl, key _ (set_wave_fields _ _)⟩
    · exact ⟨_, rfl, key _ (set_wave_fields _ _)⟩
    · exact ⟨_, rfl, key _ same⟩
  rw [if_neg h3]
  by_cases h4 : strncmp_eq t (lit "EN:") 3 = true
  · rw [if_pos h4]
    simp only []
    split_ifs
    · exact ⟨_, rfl, rfl, rfl, rfl, Or.inr (Or.inl ⟨Nat.one_ne_zero, rfl⟩)⟩
    · exact ⟨_, rfl, rfl, rfl, rfl, Or.inl rfl⟩
  rw [if_neg h4]
  by_cases h5 : strncmp_eq t (lit "MEAS:") 5 = true
  · rw [if_pos h5]
    simp only []
    split_ifs
    · exact ⟨_, rfl, key _ ⟨rfl, rfl, rfl, rfl, rfl⟩⟩
    · exact ⟨_, rfl, key _ ⟨rfl, rfl, rfl, rfl, rfl⟩⟩
    · exact ⟨_, rfl, key _ same⟩
  rw [if_neg h5]
  exact ⟨_, rfl, key _ same⟩

/-- The tokens of a line always return and leave the line buffer alone. -/
theorem process_tokens_cmd (ts : List (List Nat)) :
    ∀ s : FwState, ∃ s1, process_tokens s ts = some s1 ∧ s1.cmdBuf = s.cmdBuf ∧
      s1.cmdLen = s.cmdLen := by
  induction ts with
  | nil => intro s; exact ⟨s, rfl, rfl, rfl⟩
  | cons t ts ih =>
    intro s
    obtain ⟨s1, h1, hb1, hl1, _⟩ := process_token_fields s t
    obtain ⟨s2, h2, hb2, hl2⟩ := ih s1
    refine ⟨s2, ?_, hb2.trans hb1, hl2.trans hl1⟩
    simp only [process_tokens, h1, h2]

theorem strtok_buffer_length (l : List Nat) :
    ∀ b : Bool, (strtok_buffer b l).length = l.length := by
  induction l with
  | nil => intro b; rfl
  | cons c cs ih =>
    intro b
    unfold strtok_buffer
    split_ifs
    all_goals simp [ih]

/-- The timer interrupt with the output enabled and the phase inside the
table. -/
theorem tick_enabled (s : FwState) (h : s.wave_enabled ≠ 0) (hi : s.waveIndex < LUT_SIZE) :
    WaveTimer_ISR s = { s with
      hw := s.hw ++ [HwEvent.timerReadStatus, HwEvent.dacSetValue (s.waveLUT.getD s.waveIndex 0)]
      waveIndex := (s.waveIndex + 1) % LUT_SIZE } := by
  have hi' : s.waveIndex < 64 := hi
  have h1 : (s.waveIndex + 1) % 65536 = s.waveIndex + 1 := Nat.mod_eq_of_lt (by omega)
  unfold WaveTimer_ISR
  simp only [h, if_false, h1, List.append_assoc, List.cons_append, List.nil_append]
  by_cases hw : s.waveIndex + 1 ≥ LUT_SIZE
  · have he : s.waveIndex = 63 := by
      have : s.waveIndex + 1 ≥ 64 := hw
      omega
    simp only [hw, if_true, he]
    rfl
  · have hlt : s.waveIndex + 1 < 64 := by
      have : ¬ (s.waveIndex + 1 ≥ 64) := hw
      omega
    simp only [hw, if_false]
    rw [show (s.waveIndex + 1) % LUT_SIZE = s.waveIndex + 1 from Nat.mod_eq_of_lt hlt]

/-- The token `EN:1` sets `wave_enabled` and nothing else. -/
theorem process_token_en1 (s : FwState) :
    process_token s (lit "EN:1") = some { s with wave_enabled := 1 } := by
  have a1 : atoi [49] = 1 := by decide
  simp [process_token, strncmp_eq, strcmp_eq, lit_FREQ, lit_AMP, lit_WAVE, lit_EN, lit_EN1, a1]

/-! ## Line buffer bounds -/

/-- One received byte keeps the line buffer invariant, and a terminator
leaves the buffer empty. -/
theorem poll_byte_cmd (s : FwState) (c : Nat)
    (h : s.cmdLen ≤ 63 ∧ s.cmdBuf.length = 64) :
    ∃ s1, poll_byte s c = some s1 ∧ s1.cmdLen ≤ 63 ∧ s1.cmdBuf.length = 64 ∧
      ((c % 256 = 13 ∨ c % 256 = 10) → s1.cmdLen = 0) := by
  unfold poll_byte
  simp only []
  split_ifs with ht hpos hroom
  · obtain ⟨s1, h1, hb1, _⟩ := process_tokens_cmd
      (strtok_tokens [] (s.cmdBuf.set s.cmdLen 0))
      { s with cmdBuf := strtok_buffer false (s.cmdBuf.set s.cmdLen 0) }
    refine ⟨{ s1 with cmdLen := 0 }, ?_, by simp, ?_, fun _ => rfl⟩
    · simp only [process_cmd, h1]
    · show s1.cmdBuf.length = 64
      rw [hb1]
      show (strtok_buffer false (s.cmdBuf.set s.cmdLen 0)).length = 64
      rw [strtok_buffer_length, List.length_set]
      exact h.2
  · refine ⟨s, rfl, h.1, h.2, fun _ => by omega⟩
  · refine ⟨_, rfl, ?_, ?_, fun h2 => absurd h2 ht⟩
    · show (s.cmdLen + 1) % 65536 ≤ 63
      have : s.cmdLen < 63 := hroom
      omega
    · show (s.cmdBuf.set s.cmdLen (c % 256)).length = 64
      rw [List.length_set]
      exact h.2
  · exact ⟨s, rfl, h.1, h.2, fun h2 => absurd h2 ht⟩

theorem poll_uart_commands_cmd (rx : List Nat) :
    ∀ s : FwState, s.cmdLen ≤ 63 ∧ s.cmdBuf.length = 64 →
      ∃ s1, poll_uart_commands s rx = some s1 ∧ s1.cmdLen ≤ 63 ∧ s1.cmdBuf.length = 64 := by
  induction rx with
  | nil => intro s h; exact ⟨s, rfl, h⟩
  | cons c rx ih =>
    intro s h
    obtain ⟨s1, h1, hl1, hb1, _⟩ := poll_byte_cmd s c h
    obtain ⟨s2, h2, hi2⟩ := ih s1 ⟨hl1, hb1⟩
    refine ⟨s2, ?_, hi2⟩
    simp only [poll_uart_commands, h1, h2]

/-- Claim C34. Whatever bytes `poll_uart_commands` has received since the
initial state, it has returned, `cmdLen` is at most 63 and `cmdBuf` has its
64 entries, so `cmdLen` is an index inside `cmdBuf`: the store
`cmdBuf[cmdLen++] = c` and the store `cmdBuf[cmdLen] = 0` of the next byte
are inside the buffer, and the next byte is processed as well. -/
theorem cmd_index_in_bounds (rx : List Nat) :
    ∃ s, poll_uart_commands initState rx = some s ∧ s.cmdLen ≤ CMD_BUF_LEN - 1 ∧
      s.cmdBuf.length = CMD_BUF_LEN ∧ s.cmdLen < s.cmdBuf.length ∧
      ∀ c, ∃ s1, poll_byte s c = some s1 ∧ s1.cmdLen ≤ CMD_BUF_LEN - 1 ∧
        s1.cmdBuf.length = CMD_BUF_LEN ∧
        poll_uart_commands initState (rx ++ [c]) = some s1 := by
  obtain ⟨s, hs, hl, hb⟩ := poll_uart_commands_cmd rx initState ⟨by decide, by decide⟩
  refine ⟨s, hs, hl, hb, ?_, ?_⟩
  · rw [hb]
    omega
  · intro c
    obtain ⟨s1, h1, hl1, hb1, _⟩ := poll_byte_cmd s c ⟨hl, hb⟩
    refine ⟨s1, h1, hl1, hb1, ?_⟩
    rw [poll_uart_commands_append, hs]
    simp only [Option.bind, poll_uart_commands, h1]

/-! ## Phase cursor invariants -/

/-- A timer interrupt or a token keeps `waveIndex` inside the table. -/
theorem wave_reach_index (s0 s : FwState)
    (h0 : s0.waveIndex < LUT_SIZE ∧ s0.waveLUT.length = LUT_SIZE) (h : WaveReach s0 s) :
    s.waveIndex < LUT_SIZE ∧ s.waveLUT.length = LUT_SIZE := by
  induction h with
  | start => exact h0
  | tick s _ ih =>
    by_cases he : s.wave_enabled = 0
    · rw [tick_disabled s he]
      exact ih
    · rw [tick_enabled s he ih.1]
      exact ⟨Nat.mod_lt _ (by decide), ih.2⟩
  | token s s1 t _ ht ih =>
    obtain ⟨u, hu, _, _, hlen, hidx⟩ := process_token_fields s t
    rw [ht] at hu
    injection hu with hu
    subst hu
    refine ⟨?_, hlen.trans ih.2⟩
    rcases hidx with h1 | ⟨_, h1⟩ | ⟨_, h1⟩
    · rw [h1]
      decide
    · rw [h1]
      exact ih.1
    · rw [h1]
      exact ih.1

/-- Claim C35. In every state reached from a state `s0` with `waveIndex`
below 64 and a table of 64 entries (the initial state is one) by timer
interrupts and command tokens in any order, `waveIndex` is below 64 and the
table has 64 entries, so the read `waveLUT[waveIndex]` of the next timer
interrupt is inside the table, and so it is after that interrupt and after
any token. -/
theorem wave_index_in_bounds (s0 s : FwState)
    (h0 : s0.waveIndex < LUT_SIZE ∧ s0.waveLUT.length = LUT_SIZE) (h : WaveReach s0 s) :
    s.waveIndex < LUT_SIZE ∧ s.waveLUT.length = LUT_SIZE ∧
    s.waveIndex < s.waveLUT.length ∧
    (∃ v, s.waveLUT[s.waveIndex]? = some v) ∧
    (WaveTimer_ISR s).waveIndex < LUT_SIZE ∧
    (∀ t, ∃ s1, process_token s t = some s1 ∧ s1.waveIndex < LUT_SIZE ∧
      s1.waveLUT.length = LUT_SIZE) := by
  have hs := wave_reach_index s0 s h0 h
  have hlt : s.waveIndex < s.waveLUT.length := by
    rw [hs.2]
    exact hs.1
  refine ⟨hs.1, hs.2, hlt, ⟨_, List.getElem?_eq_getElem hlt⟩, ?_, ?_⟩
  · exact (wave_reach_index s0 _ h0 (WaveReach.tick s h)).1
  · intro t
    obtain ⟨s1, h1, _⟩ := process_token_fields s t
    exact ⟨s1, h1, wave_reach_index s0 s1 h0 (WaveReach.token s s1 t h h1)⟩

theorem wave_index_in_bounds_witness :
    (initState.waveIndex < LUT_SIZE ∧ initState.waveLUT.length = LUT_SIZE) ∧
    WaveReach initState (WaveTimer_ISR (WaveTimer_ISR { initState with wave_enabled := 1 })) ∧
    ((WaveTimer_ISR (WaveTimer_ISR { initState with wave_enabled := 1 })).waveIndex < LUT_SIZE ∧
    (WaveTimer_ISR (WaveTimer_ISR { initState with wave_enabled := 1 })).waveLUT.length
      = LUT_SIZE ∧
    (WaveTimer_ISR (WaveTimer_ISR { initState with wave_enabled := 1 })).waveIndex
      < (WaveTimer_ISR (WaveTimer_ISR { initState with wave_enabled := 1 })).waveLUT.length ∧
    (∃ v, (WaveTimer_ISR (WaveTimer_ISR { initState with wave_enabled := 1 })).waveLUT[
      (WaveTimer_ISR (WaveTimer_ISR { initState with wave_enabled := 1 })).waveIndex]?
        = some v) ∧
    (WaveTimer_ISR (WaveTimer_ISR (WaveTimer_ISR
      { initState with wave_enabled := 1 }))).waveIndex < LUT_SIZE ∧
    (∀ t, ∃ s1, process_token
        (WaveTimer_ISR (WaveTimer_ISR { initState with wave_enabled := 1 })) t = some s1 ∧
      s1.waveIndex < LUT_SIZE ∧ s1.waveLUT.length = LUT_SIZE)) :=
  ⟨⟨by decide, by decide⟩,
   WaveReach.tick _ (WaveReach.tick _
     (WaveReach.token initState _ (lit "EN:1") WaveReach.start (process_token_en1 initState))),
   wave_index_in_bounds initState _ ⟨by decide, by decide⟩
     (WaveReach.tick _ (WaveReach.tick _
       (WaveReach.token initState _ (lit "EN:1") WaveReach.start
         (process_token_en1 initState))))⟩

theorem tick_keeps_enabled (s : FwState) :
    (WaveTimer_ISR s).wave_enabled = s.wave_enabled := by
  unfold WaveTimer_ISR
  simp only []
  split_ifs <;> rfl

/-- A timer interrupt or a token keeps the phase at 0 while the output is
disabled. -/
theorem wave_reach_disabled (s0 s : FwState) (h0 : s0.wave_enabled = 0 → s0.waveIndex = 0)
    (h : WaveReach s0 s) : s.wave_enabled = 0 → s.waveIndex = 0 := by
  induction h with
  | start => exact h0
  | tick s _ ih =>
    intro hd
    rw [tick_keeps_enabled] at hd
    rw [tick_disabled s hd]
    exact ih hd
  | token s s1 t _ ht ih =>
    intro hd
    obtain ⟨u, hu, _, _, _, hidx⟩ := process_token_fields s t
    rw [ht] at hu
    injection hu with hu
    subst hu
    rcases hidx with h1 | ⟨h1, _⟩ | ⟨h1, h2⟩
    · exact h1
    · exact absurd hd h1
    · rw [h2]
      exact ih (h1 ▸ hd)

/-- Tokens leave the phase at 0 if it is there. -/
theorem process_tokens_index_zero (ts : List (List Nat)) :
    ∀ s s1 : FwState, s.waveIndex = 0 → process_tokens s ts = some s1 → s1.waveIndex = 0 := by
  induction ts with
  | nil =>
    intro s s1 h0 h
    simp only [process_tokens] at h
    injection h with h
    rw [← h]
    exact h0
  | cons t ts ih =>
    intro s s1 h0 h
    obtain ⟨u, hu, _, _, _, hidx⟩ := process_token_fields s t
    simp only [process_tokens, hu] at h
    refine ih u s1 ?_ h
    rcases hidx with h1 | ⟨_, h1⟩ | ⟨_, h1⟩
    · exact h1
    · rw [h1]
      exact h0
    · rw [h1]
      exact h0

/-- Claim C36. In every state reached from a state `s0` in which a disabled
output has phase 0 (the initial state is one) by timer interrupts and
command tokens in any order, `wave_enabled = 0` implies `waveIndex = 0`.
So when tokens enable the output from such a state, the phase is still 0
and the next timer interrupt writes `waveLUT[0]` to the DAC and moves the
phase to 1. -/
theorem disabled_phase_zero (s0 s : FwState) (h0 : s0.wave_enabled = 0 → s0.waveIndex = 0)
    (h : WaveReach s0 s) :
    (s.wave_enabled = 0 → s.waveIndex = 0) ∧
    (s.wave_enabled = 0 → ∀ (ts : List (List Nat)) (s1 : FwState),
      process_tokens s ts = some s1 → s1.wave_enabled ≠ 0 →
      s1.waveIndex = 0 ∧
      WaveTimer_ISR s1 = { s1 with
        hw := s1.hw ++ [HwEvent.timerReadStatus, HwEvent.dacSetValue (s1.waveLUT.getD 0 0)]
        waveIndex := 1 }) := by
  have hinv := wave_reach_disabled s0 s h0 h
  refine ⟨hinv, ?_⟩
  intro hd ts s1 hts hen
  have hz : s1.waveIndex = 0 := process_tokens_index_zero ts s s1 (hinv hd) hts
  refine ⟨hz, ?_⟩
  rw [tick_enabled s1 hen (by rw [hz]; decide), hz]
  rfl

theorem disabled_phase_zero_witness :
    (initState.wave_enabled = 0 → initState.waveIndex = 0) ∧
    WaveReach initState (WaveTimer_ISR initState) ∧
    (((WaveTimer_ISR initState).wave_enabled = 0 → (WaveTimer_ISR initState).waveIndex = 0) ∧
    ((WaveTimer_ISR initState).wave_enabled = 0 → ∀ (ts : List (List Nat)) (s1 : FwState),
      process_tokens (WaveTimer_ISR initState) ts = some s1 → s1.wave_enabled ≠ 0 →
      s1.waveIndex = 0 ∧
      WaveTimer_ISR s1 = { s1 with
        hw := s1.hw ++ [HwEvent.timerReadStatus, HwEvent.dacSetValue (s1.waveLUT.getD 0 0)]
        waveIndex := 1 })) :=
  ⟨fun _ => rfl, WaveReach.tick _ WaveReach.start,
   disabled_phase_zero initState _ (fun _ => rfl) (WaveReach.tick _ WaveReach.start)⟩

/-! ## One period of the generator -/

theorem dacWrites_append (a b : List HwEvent) :
    dacWrites (a ++ b) = dacWrites a ++ dacWrites b := by
  induction a with
  | nil => rfl
  | cons e a ih => cases e <;> simp [dacWrites, ih]

/-- The DAC values of a run of enabled timer interrupts. -/
theorem dacWrites_tickLog (lut : List Nat) (p k : Nat) :
    dacWrites (tickLog lut p k)
      = (List.range k).map (fun j => lut.getD ((p + j) % LUT_SIZE) 0) := by
  induction k with
  | zero => rfl
  | succ k ih =>
    rw [List.range_succ, List.map_append]
    simp only [tickLog, dacWrites_append, ih]
    rfl

/-- A run of `k` timer interrupts with the output enabled. -/
theorem tickRun_enabled (k : Nat) (s : FwState) (he : s.wave_enabled ≠ 0)
    (hp : s.waveIndex < LUT_SIZE) :
    tickRun k s = { s with
      waveIndex := (s.waveIndex + k) % LUT_SIZE
      hw := s.hw ++ tickLog s.waveLUT s.waveIndex k } := by
  induction k with
  | zero =>
    have e : (s.waveIndex + 0) % LUT_SIZE = s.waveIndex := Nat.mod_eq_of_lt hp
    simp only [tickRun, tickLog, List.append_nil, e]
  | succ k ih =>
    have ht := tick_enabled { s with
      waveIndex := (s.waveIndex + k) % LUT_SIZE
      hw := s.hw ++ tickLog s.waveLUT s.waveIndex k } he (Nat.mod_lt _ (Nat.succ_pos 63))
    rw [tickRun_succ_last, ih, ht]
    have e : ((s.waveIndex + k) % LUT_SIZE + 1) % LUT_SIZE = (s.waveIndex + (k + 1)) % LUT_SIZE := by
      show ((s.waveIndex + k) % 64 + 1) % 64 = (s.waveIndex + (k + 1)) % 64
      omega
    simp only [tickLog, List.append_assoc, e]

/-- Claim C39. From a state with the output enabled and the phase `p`
below 64, `k` timer interrupts in a row leave the phase at `(p + k) mod 64`
and add to the log a status read and the DAC write of entry
`(p + j) mod 64` for `j = 0, ..., k - 1`, in this order. After 64 of them
the phase is `p` again and nothing but the log has changed; the DAC has
received `waveLUT[p]`, `waveLUT[(p + 1) mod 64]`, ...,
`waveLUT[(p + 63) mod 64]`, and every index of the table occurs exactly
once among these. -/
theorem generator_periodic (s : FwState) (he : s.wave_enabled ≠ 0)
    (hp : s.waveIndex < LUT_SIZE) :
    tickRun 64 s = { s with hw := s.hw ++ tickLog s.waveLUT s.waveIndex 64 } ∧
    (tickRun 64 s).waveIndex = s.waveIndex ∧
    dacWrites (tickLog s.waveLUT s.waveIndex 64)
      = (List.range 64).map (fun j => s.waveLUT.getD ((s.waveIndex + j) % 64) 0) ∧
    (∀ k, tickRun k s = { s with
      waveIndex := (s.waveIndex + k) % LUT_SIZE
      hw := s.hw ++ tickLog s.waveLUT s.waveIndex k }) ∧
    (∀ i, i < 64 → ∃ j, j < 64 ∧ (s.waveIndex + j) % 64 = i ∧
      ∀ j2, j2 < 64 → (s.waveIndex + j2) % 64 = i → j2 = j) := by
  have hp' : s.waveIndex < 64 := hp
  have h64 := tickRun_enabled 64 s he hp
  have e : (s.waveIndex + 64) % LUT_SIZE = s.waveIndex := by
    show (s.waveIndex + 64) % 64 = s.waveIndex
    omega
  rw [e] at h64
  refine ⟨?_, ?_, dacWrites_tickLog _ _ _, fun k => tickRun_enabled k s he hp, ?_⟩
  · rw [h64]
  · rw [h64]
  · intro i hi
    refine ⟨(i + 64 - s.waveIndex) % 64, Nat.mod_lt _ (by decide), by omega, ?_⟩
    intro j2 hj2 hj
    omega

set_option maxRecDepth 100000 in
theorem generator_periodic_witness :
    lastPhaseState.wave_enabled ≠ 0 ∧ lastPhaseState.waveIndex < LUT_SIZE ∧
    (tickRun 64 lastPhaseState = { lastPhaseState with
      hw := lastPhaseState.hw ++ tickLog lastPhaseState.waveLUT lastPhaseState.waveIndex 64 } ∧
    (tickRun 64 lastPhaseState).waveIndex = lastPhaseState.waveIndex ∧
    dacWrites (tickLog lastPhaseState.waveLUT lastPhaseState.waveIndex 64)
      = (List.range 64).map
          (fun j => lastPhaseState.waveLUT.getD ((lastPhaseState.waveIndex + j) % 64) 0) ∧
    (∀ k, tickRun k lastPhaseState = { lastPhaseState with
      waveIndex := (lastPhaseState.waveIndex + k) % LUT_SIZE
      hw := lastPhaseState.hw ++ tickLog lastPhaseState.waveLUT lastPhaseState.waveIndex k }) ∧
    (∀ i, i < 64 → ∃ j, j < 64 ∧ (lastPhaseState.waveIndex + j) % 64 = i ∧
      ∀ j2, j2 < 64 → (lastPhaseState.waveIndex + j2) % 64 = i → j2 = j)) :=
  ⟨by decide, by decide, generator_periodic lastPhaseState (by decide) (by decide)⟩

/-! ## Reload value: floor, range and monotonicity -/

/-- Claim C37. For `f` in [1,3000] `set_frequency` computes the reload value
`r` with `r + 1 = 1000000 / (64 * f)` (integer division), so
`64 * f * (r + 1) <= 1000000 < 64 * f * (r + 2)` and the generated
frequency `1000000 / (64 * (r + 1))` is at least `f`; `r` lies in
[4,15624] and does not increase when `f` increases. The product
`f * LUT_SIZE` does not wrap and is not 0, and the quotient is neither 0
nor above 65535, so none of the three guards changes a value. -/
theorem reload_floor (f : Nat) (h1 : 1 ≤ f) (h2 : f ≤ 3000) :
    ∃ r, set_frequency_reload f = some r ∧ r + 1 = 1000000 / (64 * f) ∧
      64 * f * (r + 1) ≤ 1000000 ∧ 1000000 < 64 * f * (r + 2) ∧
      (f : ℚ) ≤ effectiveHz (r + 1) ∧ 4 ≤ r ∧ r ≤ 15624 ∧
      (∀ g, f ≤ g → g ≤ 3000 → ∃ r2, set_frequency_reload g = some r2 ∧ r2 ≤ r) ∧
      (f * LUT_SIZE) % 4294967296 = f * LUT_SIZE ∧ f * LUT_SIZE ≠ 0 ∧
      WAVE_CLK_HZ / (f * LUT_SIZE) ≠ 0 ∧ WAVE_CLK_HZ / (f * LUT_SIZE) ≤ 65535 ∧
      set_frequency_reload f = some (WAVE_CLK_HZ / (f * LUT_SIZE) - 1) := by
  obtain ⟨hr, hlo, hhi⟩ := set_frequency_reload_eq f
  have hc : min (max f 1) 3000 = f := by omega
  rw [hc] at hr hlo hhi
  have hcomm : f * 64 = 64 * f := Nat.mul_comm _ _
  have hdm := Nat.div_add_mod 1000000 (64 * f)
  have hml : 1000000 % (64 * f) < 64 * f := Nat.mod_lt _ (by omega)
  have hq : 1000000 / (f * 64) - 1 + 1 = 1000000 / (64 * f) := by
    rw [hcomm] at hlo ⊢
    omega
  have hq2 : 64 * f * (1000000 / (f * 64) - 1 + 1) ≤ 1000000 := by
    rw [hq]
    omega
  have hq3 : 1000000 < 64 * f * (1000000 / (f * 64) - 1 + 2) := by
    have e : 1000000 / (f * 64) - 1 + 2 = 1000000 / (64 * f) + 1 := by omega
    rw [e, Nat.mul_succ]
    omega
  refine ⟨1000000 / (f * 64) - 1, hr, hq, hq2, hq3, ?_, by omega, by omega, ?_, ?_, ?_, ?_, ?_,
    hr⟩
  · rw [le_effectiveHz_iff f _ (by omega)]
    have e : (1000000 / (f * 64) - 1 + 1) * (f * 64) = 64 * f * (1000000 / (f * 64) - 1 + 1) := by
      rw [hcomm, Nat.mul_comm]
    rw [e]
    exact hq2
  · intro g hfg hg
    obtain ⟨hrg, _, _⟩ := set_frequency_reload_eq g
    have hcg : min (max g 1) 3000 = g := by omega
    rw [hcg] at hrg
    refine ⟨_, hrg, ?_⟩
    have hmono : 1000000 / (g * 64) ≤ 1000000 / (f * 64) :=
      Nat.div_le_div_left (by omega) (by omega)
    omega
  · show (f * 64) % 4294967296 = f * 64
    omega
  · show f * 64 ≠ 0
    omega
  · show 1000000 / (f * 64) ≠ 0
    omega
  · show 1000000 / (f * 64) ≤ 65535
    omega

theorem reload_floor_witness :
    1 ≤ 1000 ∧ 1000 ≤ 3000 ∧
    ∃ r, set_frequency_reload 1000 = some r ∧ r + 1 = 1000000 / (64 * 1000) ∧
      64 * 1000 * (r + 1) ≤ 1000000 ∧ 1000000 < 64 * 1000 * (r + 2) ∧
      ((1000 : ℕ) : ℚ) ≤ effectiveHz (r + 1) ∧ 4 ≤ r ∧ r ≤ 15624 ∧
      (∀ g, 1000 ≤ g → g ≤ 3000 → ∃ r2, set_frequency_reload g = some r2 ∧ r2 ≤ r) ∧
      (1000 * LUT_SIZE) % 4294967296 = 1000 * LUT_SIZE ∧ 1000 * LUT_SIZE ≠ 0 ∧
      WAVE_CLK_HZ / (1000 * LUT_SIZE) ≠ 0 ∧ WAVE_CLK_HZ / (1000 * LUT_SIZE) ≤ 65535 ∧
      set_frequency_reload 1000 = some (WAVE_CLK_HZ / (1000 * LUT_SIZE) - 1) :=
  ⟨by decide, by decide, reload_floor 1000 (by decide) (by decide)⟩

/-! ## Amplitude scaling: monotone and below the base -/

/-- The entries of the table that `set_amplitude` builds. -/
theorem set_amplitude_entry (s : FwState) (a i : Nat) (hl : s.waveLUT.length = LUT_SIZE)
    (hb : ∀ x ∈ selectedBase s, x < 256) (ha : a ≤ 100) (hi : i < LUT_SIZE) :
    (set_amplitude s a).waveLUT.getD i 0 = (selectedBase s).getD i 0 * a / 100 := by
  rw [set_amplitude_eq s a hl ha]
  show ((List.range LUT_SIZE).map
    (fun i => scaleSample ((selectedBase s).getD i 0) a)).getD i 0 = _
  rw [List.getD_eq_getElem?_getD, List.getElem?_map, List.getElem?_range hi]
  exact (scaleSample_of_byte _ a (getD_lt_of_forall _ i hb) ha).1

/-- Claim C38. With base entries below 256 and percents `p <= q <= 100`,
every entry `i < 64` of the table built at `p` is at most the entry built
at `q`, which is `base[i] * q / 100` (integer division) and at most
`base[i]`; the scaled value is at most 255 before the clamp, so the clamp
changes nothing. At 100 percent the table is the base table and at 0
percent it is all zeros. -/
theorem amplitude_monotone (s : FwState) (p q i : Nat) (hl : s.waveLUT.length = LUT_SIZE)
    (hbl : (selectedBase s).length = LUT_SIZE) (hb : ∀ x ∈ selectedBase s, x < 256)
    (hpq : p ≤ q) (hq : q ≤ 100) (hi : i < LUT_SIZE) :
    (set_amplitude s p).waveLUT.getD i 0 ≤ (set_amplitude s q).waveLUT.getD i 0 ∧
    (set_amplitude s q).waveLUT.getD i 0 ≤ (selectedBase s).getD i 0 ∧
    (set_amplitude s q).waveLUT.getD i 0 = (selectedBase s).getD i 0 * q / 100 ∧
    ((selectedBase s).getD i 0 * q / 100) % 65536 ≤ 255 ∧
    scaleSample ((selectedBase s).getD i 0) q = (selectedBase s).getD i 0 * q / 100 ∧
    (set_amplitude s 100).waveLUT = selectedBase s ∧
    (set_amplitude s 0).waveLUT = List.replicate LUT_SIZE 0 ∧
    (set_amplitude s q).amp_percent = q ∧
    selectedBase (set_amplitude s q) = selectedBase s := by
  have hbi : (selectedBase s).getD i 0 < 256 := getD_lt_of_forall _ i hb
  have ep := set_amplitude_entry s p i hl hb (le_trans hpq hq) hi
  have eq := set_amplitude_entry s q i hl hb hq hi
  have hsc := scaleSample_of_byte ((selectedBase s).getD i 0) q hbi hq
  have hmono : (selectedBase s).getD i 0 * p / 100 ≤ (selectedBase s).getD i 0 * q / 100 :=
    Nat.div_le_div_right (Nat.mul_le_mul_left _ hpq)
  have hbase : (selectedBase s).getD i 0 * q / 100 ≤ (selectedBase s).getD i 0 := by
    apply Nat.div_le_of_le_mul
    rw [Nat.mul_comm 100]
    exact Nat.mul_le_mul_left _ hq
  refine ⟨by rw [ep, eq]; exact hmono, by rw [eq]; exact hbase, eq, ?_, hsc.1, ?_, ?_, ?_, ?_⟩
  · have := hsc.2
    omega
  · rw [set_amplitude_eq s 100 hl (by omega)]
    show (List.range LUT_SIZE).map (fun i => scaleSample ((selectedBase s).getD i 0) 100)
      = selectedBase s
    apply List.ext_getElem
    · rw [List.length_map, List.length_range, hbl]
    · intro n h1 h2
      rw [List.getElem_map, List.getElem_range]
      have hn : (selectedBase s).getD n 0 = (selectedBase s)[n] := by
        rw [List.getD_eq_getElem?_getD, List.getElem?_eq_getElem h2]
        rfl
      rw [hn, (scaleSample_of_byte _ 100 (hb _ (List.getElem_mem _)) (by omega)).1]
      omega
  · rw [set_amplitude_zero s hl]
  · rw [set_amplitude_eq s q hl hq]
  · rw [set_amplitude_eq s q hl hq]
    rfl

set_option maxRecDepth 100000 in
theorem amplitude_monotone_witness :
    lastPhaseState.waveLUT.length = LUT_SIZE ∧ (selectedBase lastPhaseState).length = LUT_SIZE ∧
    (∀ x ∈ selectedBase lastPhaseState, x < 256) ∧ 30 ≤ 70 ∧ 70 ≤ 100 ∧ 40 < LUT_SIZE ∧
    ((set_amplitude lastPhaseState 30).waveLUT.getD 40 0
      ≤ (set_amplitude lastPhaseState 70).waveLUT.getD 40 0 ∧
    (set_amplitude lastPhaseState 70).waveLUT.getD 40 0 ≤ (selectedBase lastPhaseState).getD 40 0 ∧
    (set_amplitude lastPhaseState 70).waveLUT.getD 40 0
      = (selectedBase lastPhaseState).getD 40 0 * 70 / 100 ∧
    ((selectedBase lastPhaseState).getD 40 0 * 70 / 100) % 65536 ≤ 255 ∧
    scaleSample ((selectedBase lastPhaseState).getD 40 0) 70
      = (selectedBase lastPhaseState).getD 40 0 * 70 / 100 ∧
    (set_amplitude lastPhaseState 100).waveLUT = selectedBase lastPhaseState ∧
    (set_amplitude lastPhaseState 0).waveLUT = List.replicate LUT_SIZE 0 ∧
    (set_amplitude lastPhaseState 70).amp_percent = 70 ∧
    selectedBase (set_amplitude lastPhaseState 70) = selectedBase lastPhaseState) :=
  ⟨by decide, by decide, by decide, by decide, by decide, by decide,
   amplitude_monotone lastPhaseState 30 70 40 (by decide) (by decide) (by decide) (by decide)
     (by decide) (by decide)⟩

/-! ## Capacitance measurement: the current source is stopped -/

theorem idacWrites_append (a b : List HwEvent) :
    idacWrites (a ++ b) = idacWrites a ++ idacWrites b := by
  induction a with
  | nil => rfl
  | cons e a ih => cases e <;> simp [idacWrites, ih]

theorem idacWrites_delays (k : Nat) :
    idacWrites (List.replicate k (HwEvent.delayUs SAMPLE_US)) = [] := by
  induction k with
  | zero => rfl
  | succ k ih =>
    rw [List.replicate_succ]
    simp only [idacWrites, ih]

/-- Claim C33. With fuel for 50001 polls per phase, `Measure_C_Pin_uF`
returns. Its driver calls are those of the discharge and of the start of
charging, then the delays of the first polling phase, then the delays of
the second polling phase, then `IDAC_1_SetValue(0)`, then one UART message.
Both phases make at least one read, the second one also when the first
returned the sentinel after its 50000 reads. The values written to the
current source by the call are 0, 12, 0 in this order, so the last value
written is 0 on every path. -/
theorem measure_c_stops_source (fuel : Nat) (adc : Nat → Int) (pos : Nat) (s : FwState)
    (hf : 50001 ≤ fuel) :
    ∃ (t1 p1 k1 t2 p2 k2 : Nat) (c : ℚ) (e : HwEvent),
      wait_until_mv fuel adc pos (chargeStart s) VSTART_MV TIMEOUT_MS
        = some (t1, p1, { chargeStart s with
            hw := (chargeStart s).hw ++ List.replicate k1 (HwEvent.delayUs SAMPLE_US) }) ∧
      wait_until_mv fuel adc p1 { chargeStart s with
            hw := (chargeStart s).hw ++ List.replicate k1 (HwEvent.delayUs SAMPLE_US) }
          VEND_MV TIMEOUT_MS
        = some (t2, p2, { chargeStart s with
            hw := (chargeStart s).hw ++ List.replicate k1 (HwEvent.delayUs SAMPLE_US)
              ++ List.replicate k2 (HwEvent.delayUs SAMPLE_US) }) ∧
      Measure_C_Pin_uF fuel adc pos s = some (c, p2, { s with
        hw := (chargeStart s).hw ++ List.replicate k1 (HwEvent.delayUs SAMPLE_US)
          ++ List.replicate k2 (HwEvent.delayUs SAMPLE_US) ++ [HwEvent.idacSetValue 0, e] }) ∧
      (c = -1 ↔ (t1 = U32_SENTINEL ∨ t2 = U32_SENTINEL ∨ t2 ≤ t1)) ∧
      pos < p1 ∧ p1 < p2 ∧
      (t1 = U32_SENTINEL → p1 = pos + 50000 ∧ k1 = 50000) ∧
      idacWrites [e] = [] ∧
      idacWrites ((chargeStart s).hw ++ List.replicate k1 (HwEvent.delayUs SAMPLE_US)
          ++ List.replicate k2 (HwEvent.delayUs SAMPLE_US) ++ [HwEvent.idacSetValue 0, e])
        = idacWrites s.hw ++ [0, IDAC_C_CODE, 0] ∧
      (idacWrites ((chargeStart s).hw ++ List.replicate k1 (HwEvent.delayUs SAMPLE_US)
          ++ List.replicate k2 (HwEvent.delayUs SAMPLE_US)
          ++ [HwEvent.idacSetValue 0, e])).getLast? = some 0 := by
  have hphase : ∀ (p : Nat) (u : FwState) (target : Int),
      ∃ t q k, wait_until_mv fuel adc p u target TIMEOUT_MS
          = some (t, q, { u with hw := u.hw ++ List.replicate k (HwEvent.delayUs SAMPLE_US) }) ∧
        p < q ∧ t < 4294967296 ∧ (t = U32_SENTINEL → q = p + 50000 ∧ k = 50000) := by
    intro p u target
    rcases wait_until_mv_cases fuel adc p u target hf with ⟨k, hk, _, _, h⟩ | ⟨_, h⟩
    · refine ⟨_, _, _, h, by omega, by omega, ?_⟩
      intro hs
      have : U32_SENTINEL = 4294967295 := rfl
      omega
    · exact ⟨_, _, _, h, by omega, by decide, fun _ => ⟨rfl, rfl⟩⟩
  obtain ⟨t1, p1, k1, h1, hp1, _, hs1⟩ := hphase pos (chargeStart s) VSTART_MV
  obtain ⟨t2, p2, k2, h2, hp2, ht2, _⟩ := hphase p1 { chargeStart s with
    hw := (chargeStart s).hw ++ List.replicate k1 (HwEvent.delayUs SAMPLE_US) } VEND_MV
  have hm := measure_c_unfold fuel adc pos s t1 p1 t2 p2 _ _ h1 h2 ht2
  have hw : ∀ e : HwEvent, idacWrites [e] = [] →
      idacWrites ((chargeStart s).hw ++ List.replicate k1 (HwEvent.delayUs SAMPLE_US)
          ++ List.replicate k2 (HwEvent.delayUs SAMPLE_US) ++ [HwEvent.idacSetValue 0, e])
        = idacWrites s.hw ++ [0, IDAC_C_CODE, 0] := by
    intro e he
    have e2 : idacWrites [HwEvent.idacSetValue 0, e] = [0] := by
      show 0 :: idacWrites [e] = [0]
      rw [he]
    have e3 : idacWrites (chargeStart s).hw = idacWrites s.hw ++ [0, IDAC_C_CODE] := by
      unfold chargeStart
      rw [idacWrites_append]
      rfl
    rw [idacWrites_append, idacWrites_append, idacWrites_append, idacWrites_delays,
      idacWrites_delays, e2, e3]
    simp
  have hlast : ∀ e : HwEvent, idacWrites [e] = [] →
      (idacWrites ((chargeStart s).hw ++ List.replicate k1 (HwEvent.delayUs SAMPLE_US)
          ++ List.replicate k2 (HwEvent.delayUs SAMPLE_US)
          ++ [HwEvent.idacSetValue 0, e])).getLast? = some 0 := by
    intro e he
    rw [hw e he]
    simp
  by_cases hc : t1 = U32_SENTINEL ∨ t2 = U32_SENTINEL ∨ t2 ≤ t1
  · simp only [hc, if_true] at hm
    refine ⟨t1, p1, k1, t2, p2, k2, -1, HwEvent.uartPut (lit "DBG_C: timeout or bad dt\r\n"),
      h1, h2, ?_, ?_, hp1, hp2, hs1, rfl, hw _ rfl, hlast _ rfl⟩
    · rw [hm]
      rfl
    · exact ⟨fun _ => hc, fun _ => rfl⟩
  · simp only [hc, if_false] at hm
    have hlt : t1 < t2 := by
      have : ¬ (t2 ≤ t1) := fun h => hc (Or.inr (Or.inr h))
      omega
    refine ⟨t1, p1, k1, t2, p2, k2, 168 / 1000000 * ((t2 - t1 : ℕ) : ℚ),
      HwEvent.uartPrintf (lit "DBG_C: dt=%lu us, C=%.3f uF\r\n")
        [((t2 - t1 : ℕ) : ℚ), 168 / 1000000 * ((t2 - t1 : ℕ) : ℚ)],
      h1, h2, ?_, ?_, hp1, hp2, hs1, rfl, hw _ rfl, hlast _ rfl⟩
    · rw [hm]
      rfl
    · constructor
      · intro hneg
        exfalso
        have hpos : (0 : ℚ) < ((t2 - t1 : ℕ) : ℚ) := by
          have : 0 < t2 - t1 := by omega
          exact_mod_cast this
        have : (0 : ℚ) < 168 / 1000000 * ((t2 - t1 : ℕ) : ℚ) := by positivity
        rw [hneg] at this
        norm_num at this
      · intro h
        exact absurd h hc

theorem measure_c_stops_source_witness :
    50001 ≤ 50001 ∧
    ∃ (t1 p1 k1 t2 p2 k2 : Nat) (c : ℚ) (e : HwEvent),
      wait_until_mv 50001 flatReadings 0 (chargeStart initState) VSTART_MV TIMEOUT_MS
        = some (t1, p1, { chargeStart initState with
            hw := (chargeStart initState).hw ++ List.replicate k1 (HwEvent.delayUs SAMPLE_US) }) ∧
      wait_until_mv 50001 flatReadings p1 { chargeStart initState with
            hw := (chargeStart initState).hw ++ List.replicate k1 (HwEvent.delayUs SAMPLE_US) }
          VEND_MV TIMEOUT_MS
        = some (t2, p2, { chargeStart initState with
            hw := (chargeStart initState).hw ++ List.replicate k1 (HwEvent.delayUs SAMPLE_US)
              ++ List.replicate k2 (HwEvent.delayUs SAMPLE_US) }) ∧
      Measure_C_Pin_uF 50001 flatReadings 0 initState = some (c, p2, { initState with
        hw := (chargeStart initState).hw ++ List.replicate k1 (HwEvent.delayUs SAMPLE_US)
          ++ List.replicate k2 (HwEvent.delayUs SAMPLE_US) ++ [HwEvent.idacSetValue 0, e] }) ∧
      (c = -1 ↔ (t1 = U32_SENTINEL ∨ t2 = U32_SENTINEL ∨ t2 ≤ t1)) ∧
      0 < p1 ∧ p1 < p2 ∧
      (t1 = U32_SENTINEL → p1 = 0 + 50000 ∧ k1 = 50000) ∧
      idacWrites [e] = [] ∧
      idacWrites ((chargeStart initState).hw ++ List.replicate k1 (HwEvent.delayUs SAMPLE_US)
          ++ List.replicate k2 (HwEvent.delayUs SAMPLE_US) ++ [HwEvent.idacSetValue 0, e])
        = idacWrites initState.hw ++ [0, IDAC_C_CODE, 0] ∧
      (idacWrites ((chargeStart initState).hw ++ List.replicate k1 (HwEvent.delayUs SAMPLE_US)
          ++ List.replicate k2 (HwEvent.delayUs SAMPLE_US)
          ++ [HwEvent.idacSetValue 0, e])).getLast? = some 0 :=
  ⟨by decide, measure_c_stops_source 50001 flatReadings 0 initState (by decide)⟩

/-! ## Terminators and the line buffer -/

/-- The tokens of a line are read up to its NUL: what lies in the buffer
after it is not read. -/
theorem strtok_tokens_cstr (l rest : List Nat) (h : ∀ c ∈ l, c ≠ 0) :
    ∀ acc, strtok_tokens acc (l ++ 0 :: rest) = strtok_tokens acc l := by
  induction l with
  | nil =>
    intro acc
    simp [strtok_tokens]
  | cons c cs ih =>
    intro acc
    have hc : ¬ (c = 0) := h c (List.mem_cons_self _ _)
    have ih2 := ih (fun x hx => h x (List.mem_cons_of_mem _ hx))
    rw [List.cons_append]
    simp only [strtok_tokens, hc, if_false]
    split_ifs
    · exact ih2 _
    · rw [ih2]
    · exact ih2 _

/-- A terminator with an empty line buffer does nothing. -/
theorem poll_byte_terminator_empty (s : FwState) (c : Nat)
    (hc : c % 256 = 13 ∨ c % 256 = 10) (h0 : s.cmdLen = 0) : poll_byte s c = some s := by
  unfold poll_byte
  have hpos : ¬ (s.cmdLen > 0) := by omega
  simp only [hc, if_true, hpos, if_false]

/-- A terminator with a line in the buffer dispatches it once and empties
the buffer. -/
theorem poll_byte_terminator_line (s : FwState) (c : Nat)
    (hc : c % 256 = 13 ∨ c % 256 = 10) (hpos : 0 < s.cmdLen) :
    poll_byte s c = (process_cmd { s with cmdBuf := s.cmdBuf.set s.cmdLen 0 }).map
      (fun u => { u with cmdLen := 0 }) := by
  unfold poll_byte
  have hpos2 : s.cmdLen > 0 := hpos
  simp only [hc, if_true, hpos2]
  cases process_cmd { s with cmdBuf := s.cmdBuf.set s.cmdLen 0 } <;> rfl

/-- A line of at most 63 bytes received into an empty buffer, and then its
terminator. -/
theorem poll_line (s : FwState) (l : List Nat) (term : Nat) (h0 : s.cmdLen = 0)
    (hl : s.cmdBuf.length = 64) (hn : 1 ≤ l.length) (hn2 : l.length ≤ 63)
    (hb : ∀ c ∈ l, c < 256 ∧ c ≠ 0 ∧ c ≠ 13 ∧ c ≠ 10) (ht : term = 13 ∨ term = 10) :
    poll_uart_commands s (l ++ [term]) =
      (process_cmd { s with
        cmdBuf := l ++ 0 :: s.cmdBuf.drop (l.length + 1)
        cmdLen := l.length }).map (fun u => { u with cmdLen := 0 }) := by
  have hb1 : ∀ c ∈ l, c < 256 ∧ c ≠ 13 ∧ c ≠ 10 := by
    intro c hc
    have := hb c hc
    omega
  have hfill := poll_fill l s [] s.cmdBuf rfl h0 (by simp only [List.length_nil]; omega)
    (by omega) hb1
  simp only [List.nil_append, List.length_nil, Nat.zero_add] at hfill
  have hmod : term % 256 = 13 ∨ term % 256 = 10 := by
    rcases ht with h | h
    · left
      rw [h]
    · right
      rw [h]
  have hdrop : s.cmdBuf.drop l.length ≠ [] := by
    intro h
    have := List.drop_eq_nil_iff.mp h
    omega
  obtain ⟨x, rest, hxr⟩ := List.exists_cons_of_ne_nil hdrop
  have hrest2 : s.cmdBuf.drop (l.length + 1) = rest := by
    rw [← List.drop_drop, hxr]
    rfl
  have hset : (l ++ s.cmdBuf.drop l.length).set l.length 0 = l ++ 0 :: rest := by
    rw [hxr]
    simp [List.set_append]
  have hstep := poll_byte_terminator_line
    { s with cmdBuf := l ++ s.cmdBuf.drop l.length, cmdLen := l.length } term hmod hn
  rw [poll_uart_commands_append, hfill]
  show poll_uart_commands { s with
    cmdBuf := l ++ s.cmdBuf.drop l.length, cmdLen := l.length } [term] = _
  simp only [poll_uart_commands]
  rw [hstep, hrest2]
  simp only [hset]
  cases process_cmd { s with cmdBuf := l ++ 0 :: rest, cmdLen := l.length } <;> rfl

/-- Claim C32. For a terminator `c` (CR or LF) received in a state with a
valid line buffer: if the buffer is empty the state stays as it is; if it
holds a line, the line is NUL-terminated and `process_cmd` runs once; in
both cases `cmdLen` is 0 afterwards. A second terminator right after it,
as the LF of CR LF, changes nothing, so the line is dispatched once. The
next line of up to 63 bytes is stored from index 0 and, at its terminator,
dispatched from a buffer whose C string is this line and whose tokens are
the tokens of this line alone, whatever the earlier line left behind in
the buffer. -/
theorem terminator_resets (s : FwState) (c : Nat) (hc : c % 256 = 13 ∨ c % 256 = 10)
    (hl : s.cmdLen ≤ 63 ∧ s.cmdBuf.length = 64) :
    (s.cmdLen = 0 → poll_byte s c = some s) ∧
    (0 < s.cmdLen → poll_byte s c =
      (process_cmd { s with cmdBuf := s.cmdBuf.set s.cmdLen 0 }).map
        (fun u => { u with cmdLen := 0 })) ∧
    ∃ s1, poll_byte s c = some s1 ∧ s1.cmdLen = 0 ∧ s1.cmdBuf.length = 64 ∧
      (∀ c2, (c2 % 256 = 13 ∨ c2 % 256 = 10) → poll_byte s1 c2 = some s1) ∧
      (∀ c2 rx, (c2 % 256 = 13 ∨ c2 % 256 = 10) →
        poll_uart_commands s (c :: c2 :: rx) = poll_uart_commands s (c :: rx)) ∧
      (∀ (l : List Nat) (c3 : Nat), 1 ≤ l.length → l.length ≤ 63 →
        (∀ b ∈ l, b < 256 ∧ b ≠ 0 ∧ b ≠ 13 ∧ b ≠ 10) → (c3 = 13 ∨ c3 = 10) →
        cstr (l ++ 0 :: s1.cmdBuf.drop (l.length + 1)) = l ∧
        strtok_tokens [] (l ++ 0 :: s1.cmdBuf.drop (l.length + 1)) = strtok_tokens [] l ∧
        poll_uart_commands s1 (l ++ [c3]) =
          (process_cmd { s1 with
            cmdBuf := l ++ 0 :: s1.cmdBuf.drop (l.length + 1)
            cmdLen := l.length }).map (fun u => { u with cmdLen := 0 })) := by
  obtain ⟨s1, h1, _, hb1, hz⟩ := poll_byte_cmd s c hl
  have hz1 : s1.cmdLen = 0 := hz hc
  refine ⟨poll_byte_terminator_empty s c hc, poll_byte_terminator_line s c hc,
    s1, h1, hz1, hb1, ?_, ?_, ?_⟩
  · intro c2 hc2
    exact poll_byte_terminator_empty s1 c2 hc2 hz1
  · intro c2 rx hc2
    simp only [poll_uart_commands, h1, poll_byte_terminator_empty s1 c2 hc2 hz1]
  · intro l c3 hn hn2 hb ht
    have hnz : ∀ b ∈ l, b ≠ 0 := fun b hbm => (hb b hbm).2.1
    exact ⟨cstr_append_nul _ _ hnz, strtok_tokens_cstr l _ hnz [],
      poll_line s1 l c3 hz1 hb1 hn hn2 hb ht⟩

set_option maxRecDepth 100000 in
theorem terminator_resets_witness :
    (13 % 256 = 13 ∨ 13 % 256 = 10) ∧
    (ampTwiceState.cmdLen ≤ 63 ∧ ampTwiceState.cmdBuf.length = 64) ∧
    ((ampTwiceState.cmdLen = 0 → poll_byte ampTwiceState 13 = some ampTwiceState) ∧
    (0 < ampTwiceState.cmdLen → poll_byte ampTwiceState 13 =
      (process_cmd { ampTwiceState with
        cmdBuf := ampTwiceState.cmdBuf.set ampTwiceState.cmdLen 0 }).map
        (fun u => { u with cmdLen := 0 })) ∧
    ∃ s1, poll_byte ampTwiceState 13 = some s1 ∧ s1.cmdLen = 0 ∧ s1.cmdBuf.length = 64 ∧
      (∀ c2, (c2 % 256 = 13 ∨ c2 % 256 = 10) → poll_byte s1 c2 = some s1) ∧
      (∀ c2 rx, (c2 % 256 = 13 ∨ c2 % 256 = 10) →
        poll_uart_commands ampTwiceState (13 :: c2 :: rx)
          = poll_uart_commands ampTwiceState (13 :: rx)) ∧
      (∀ (l : List Nat) (c3 : Nat), 1 ≤ l.length → l.length ≤ 63 →
        (∀ b ∈ l, b < 256 ∧ b ≠ 0 ∧ b ≠ 13 ∧ b ≠ 10) → (c3 = 13 ∨ c3 = 10) →
        cstr (l ++ 0 :: s1.cmdBuf.drop (l.length + 1)) = l ∧
        strtok_tokens [] (l ++ 0 :: s1.cmdBuf.drop (l.length + 1)) = strtok_tokens [] l ∧
        poll_uart_commands s1 (l ++ [c3]) =
          (process_cmd { s1 with
            cmdBuf := l ++ 0 :: s1.cmdBuf.drop (l.length + 1)
            cmdLen := l.length }).map (fun u => { u with cmdLen := 0 }))) :=
  ⟨by decide, ⟨by decide, by decide⟩,
   terminator_resets ampTwiceState 13 (by decide) ⟨by decide, by decide⟩⟩

end LabStation
